import Mathlib

/-!
Ray caster: planes, spheres and the camera.

A shallow embedding of `Object.cpp` and `Camera.cpp`.

Number models.  The code of `Object.cpp` (spheres and planes) is written once, over any
type `F` of numbers with the operations of a `float`, and is read in two arithmetics.

* `F32` is IEEE-754 binary32, the `float` of the compiled code: every operation rounds to
  the nearest representable value (ties to even), overflows to an infinity, underflows
  through the subnormal numbers, and zero is signed.
* `Flt K` is exact arithmetic: either an exact element of an ordered field `K`, or one of
  the special values `+inf`, `-inf`, `NaN`.  Finite results are exact (no rounding, no
  overflow); the special values arise only where IEEE-754 produces them from exact
  operands (division by zero, `inf - inf`, `0 * inf`, the square root of a negative
  number).  Zero is unsigned: `x / 0` takes the sign of `x`.  `sqrt` on `K` is a parameter.

Properties that hold in every arithmetic are stated over `F`; properties of the geometry,
which rounding breaks, are stated in exact arithmetic, with the binary32 evaluation that
shows what rounding does.  The camera is read in exact arithmetic.
-/

namespace Raycast

/-- A `float` in exact arithmetic: an exact value of `K`, or an IEEE-754 special value. -/
inductive Flt (K : Type) where
  | fin (v : K)
  | pinf
  | ninf
  | nan
  deriving DecidableEq, Repr

namespace Flt

variable {K : Type} [LinearOrderedField K]

/-- Says whether the value is an ordinary number (not an infinity, not NaN). -/
def isFinite : Flt K → Bool
  | fin _ => true
  | _ => false

/-- IEEE addition on exact values. -/
def add : Flt K → Flt K → Flt K
  | fin a, fin b => fin (a + b)
  | fin _, pinf => pinf
  | fin _, ninf => ninf
  | pinf, fin _ => pinf
  | pinf, pinf => pinf
  | ninf, fin _ => ninf
  | ninf, ninf => ninf
  | _, _ => nan

/-- IEEE negation. -/
def neg : Flt K → Flt K
  | fin a => fin (-a)
  | pinf => ninf
  | ninf => pinf
  | nan => nan

/-- The infinity of the given sign (`true` is positive). -/
def inf (positive : Bool) : Flt K :=
  if positive then pinf else ninf

/-- IEEE multiplication on exact values. -/
def mul : Flt K → Flt K → Flt K
  | fin a, fin b => fin (a * b)
  | fin a, pinf => if a = 0 then nan else inf (decide (0 < a))
  | fin a, ninf => if a = 0 then nan else inf (decide (a < 0))
  | pinf, fin b => if b = 0 then nan else inf (decide (0 < b))
  | ninf, fin b => if b = 0 then nan else inf (decide (b < 0))
  | pinf, pinf => pinf
  | ninf, ninf => pinf
  | pinf, ninf => ninf
  | ninf, pinf => ninf
  | _, _ => nan

/-- IEEE division on exact values; zero is the positive zero. -/
def div : Flt K → Flt K → Flt K
  | fin a, fin b =>
      if b = 0 then (if a = 0 then nan else inf (decide (0 < a))) else fin (a / b)
  | fin _, pinf => fin 0
  | fin _, ninf => fin 0
  | pinf, fin b => inf (decide (0 ≤ b))
  | ninf, fin b => inf (decide (b < 0))
  | _, _ => nan

/-- IEEE `<`: false as soon as one side is NaN. -/
def blt : Flt K → Flt K → Bool
  | fin a, fin b => decide (a < b)
  | fin _, pinf => true
  | ninf, fin _ => true
  | ninf, pinf => true
  | _, _ => false

/-- The function `sqrt` of `<cmath>`, over the square root `sqrtK` of `K`. -/
def sqrt (sqrtK : K → K) : Flt K → Flt K
  | fin a => if a < 0 then nan else fin (sqrtK a)
  | pinf => pinf
  | _ => nan

/-- The function `fabsf` of `<cmath>`. -/
def fabsf : Flt K → Flt K
  | fin a => fin |a|
  | pinf => pinf
  | ninf => pinf
  | nan => nan

instance : Add (Flt K) := ⟨add⟩
instance : Neg (Flt K) := ⟨neg⟩
instance : Sub (Flt K) := ⟨fun a b => add a (neg b)⟩
instance : Mul (Flt K) := ⟨mul⟩
instance : Div (Flt K) := ⟨div⟩
instance : LT (Flt K) := ⟨fun a b => blt a b = true⟩
instance (a b : Flt K) : Decidable (a < b) := inferInstanceAs (Decidable (blt a b = true))

instance : OfNat (Flt K) 0 := ⟨fin 0⟩
instance : OfNat (Flt K) 1 := ⟨fin 1⟩
instance : OfNat (Flt K) 2 := ⟨fin 2⟩

/-- The conversion `static_cast<float>(i)` of an integer. -/
def ofInt (i : Int) : Flt K := fin (i : K)

end Flt

/-- A `float` of the compiled code, as an IEEE-754 binary32 value: the number
`(-1) ^ neg * m * 2 ^ e`, an infinity, or NaN.  The operations return a finite value in
normal form: `2 ^ 23 ≤ m < 2 ^ 24` and `-149 ≤ e ≤ 104` for a normal number, `m < 2 ^ 23`
and `e = -149` for a subnormal one, `m = 0` and `e = 0` for a zero. -/
inductive F32 where
  | fin (neg : Bool) (m : Nat) (e : Int)
  | inf (neg : Bool)
  | nan
  deriving DecidableEq, Repr

namespace F32

/-- The number of binary digits of `n`, with `fuel` at least that number. -/
def bitLenAux : Nat → Nat → Nat
  | 0, _ => 0
  | fuel + 1, n => if n = 0 then 0 else bitLenAux fuel (n / 2) + 1

/-- The number of binary digits of `n`. -/
def bitLen (n : Nat) : Nat := bitLenAux n n

/-- Rounding: the binary32 value nearest to `(-1) ^ neg * m * 2 ^ e`, a tie going to the even
significand; a result of `2 ^ 128` or more is an infinity. -/
def round (neg : Bool) (m : Nat) (e : Int) : F32 :=
  if m = 0 then fin neg 0 0
  else
    let len : Int := (bitLen m : Nat)
    let q : Int := max (e + len - 24) (-149)
    if q ≤ e then
      if q > 104 then inf neg else fin neg (m <<< (e - q).toNat) q
    else
      let sh := (q - e).toNat
      let keep := m >>> sh
      let rem := m % 2 ^ sh
      let half := 2 ^ (sh - 1)
      let k := if rem > half ∨ (rem = half ∧ keep % 2 = 1) then keep + 1 else keep
      let q := if k = 2 ^ 24 then q + 1 else q
      let k := if k = 2 ^ 24 then 2 ^ 23 else k
      if k = 0 then fin neg 0 0
      else if q > 104 then inf neg
      else fin neg k q

/-- The signed integer `n` with `n * 2 ^ e0` the value `(-1) ^ neg * m * 2 ^ e`, for an
exponent `e0 ≤ e`. -/
def scaled (neg : Bool) (m : Nat) (e e0 : Int) : Int :=
  let n : Int := (m <<< (e - e0).toNat : Nat)
  if neg then -n else n

/-- IEEE addition: the exact sum, rounded.  An exact zero sum is `-0` only for `-0 + -0`. -/
def add : F32 → F32 → F32
  | fin s1 m1 e1, fin s2 m2 e2 =>
      let e0 := min e1 e2
      let sum := scaled s1 m1 e1 e0 + scaled s2 m2 e2 e0
      if sum = 0 then fin (s1 && s2) 0 0
      else round (decide (sum < 0)) sum.natAbs e0
  | fin _ _ _, inf s => inf s
  | inf s, fin _ _ _ => inf s
  | inf s1, inf s2 => if s1 = s2 then inf s1 else nan
  | _, _ => nan

/-- IEEE negation. -/
def neg : F32 → F32
  | fin s m e => fin (!s) m e
  | inf s => inf (!s)
  | nan => nan

/-- IEEE multiplication: the exact product, rounded. -/
def mul : F32 → F32 → F32
  | fin s1 m1 e1, fin s2 m2 e2 => round (xor s1 s2) (m1 * m2) (e1 + e2)
  | fin s1 m1 _, inf s2 => if m1 = 0 then nan else inf (xor s1 s2)
  | inf s1, fin s2 m2 _ => if m2 = 0 then nan else inf (xor s1 s2)
  | inf s1, inf s2 => inf (xor s1 s2)
  | _, _ => nan

/-- IEEE division: the quotient to more than 26 binary digits, with one more digit that says
whether the division left a remainder, rounded. -/
def div : F32 → F32 → F32
  | fin s1 m1 e1, fin s2 m2 e2 =>
      if m2 = 0 then (if m1 = 0 then nan else inf (xor s1 s2))
      else if m1 = 0 then fin (xor s1 s2) 0 0
      else
        let k := bitLen m2 + 26
        let n := m1 <<< k
        let sticky := if n % m2 = 0 then 0 else 1
        round (xor s1 s2) (2 * (n / m2) + sticky) (e1 - e2 - (k : Nat) - 1)
  | fin s1 _ _, inf s2 => fin (xor s1 s2) 0 0
  | inf s1, fin s2 _ _ => inf (xor s1 s2)
  | _, _ => nan

/-- The integer square root of `n`, found bit by bit from `2 ^ (i + 1)` down, from the
lower bound `r`. -/
def isqrtAux (n : Nat) : Nat → Nat → Nat
  | 0, r => if (r + 1) * (r + 1) ≤ n then r + 1 else r
  | i + 1, r =>
      let r1 := r + 2 ^ (i + 1)
      isqrtAux n i (if r1 * r1 ≤ n then r1 else r)

/-- The integer square root of `n`. -/
def isqrt (n : Nat) : Nat := isqrtAux n (bitLen n / 2 + 1) 0

/-- The function `sqrt` of `<cmath>` on a `float`: the square root to more than 26 binary
digits, with one more digit that says whether it is inexact, rounded. -/
def sqrt : F32 → F32
  | fin s m e =>
      if m = 0 then fin s 0 0
      else if s then nan
      else
        let k : Nat := if (e - 52) % 2 = 0 then 52 else 53
        let n := m <<< k
        let r := isqrt n
        let sticky := if r * r = n then 0 else 1
        round false (2 * r + sticky) ((e - (k : Nat)) / 2 - 1)
  | inf s => if s then nan else inf false
  | nan => nan

/-- IEEE `<`: false as soon as one side is NaN; the two zeros are equal. -/
def blt : F32 → F32 → Bool
  | fin s1 m1 e1, fin s2 m2 e2 =>
      let e0 := min e1 e2
      decide (scaled s1 m1 e1 e0 < scaled s2 m2 e2 e0)
  | fin _ _ _, inf s => !s
  | inf s, fin _ _ _ => s
  | inf s1, inf s2 => s1 && !s2
  | _, _ => false

instance : Add F32 := ⟨add⟩
instance : Neg F32 := ⟨neg⟩
instance : Sub F32 := ⟨fun a b => add a (neg b)⟩
instance : Mul F32 := ⟨mul⟩
instance : Div F32 := ⟨div⟩
instance : LT F32 := ⟨fun a b => blt a b = true⟩
instance (a b : F32) : Decidable (a < b) := inferInstanceAs (Decidable (blt a b = true))

/-- A decimal integer literal of the source, such as `2.0f`: the nearest binary32 value. -/
instance (n : Nat) : OfNat F32 n := ⟨round false n 0⟩

/-- The exact value of a finite binary32 number as a rational number (`0` for an infinity
and for NaN). -/
def toRat : F32 → ℚ
  | fin s m e => (if s then -(m : ℚ) else (m : ℚ)) * (2 : ℚ) ^ e
  | _ => 0

end F32

/-- Modelled from the spec: class `Vector3D` (its header is not among the sources), a
3-component tuple with dot product, cross product and scaling. -/
structure Vector3D (α : Type) where
  x : α
  y : α
  z : α
  deriving DecidableEq, Repr

/-- Modelled from the spec: class `Point3D` (its header is not among the sources), a
3-component tuple; `Point3D - Point3D` is a `Vector3D`, `Point3D ± Vector3D` a `Point3D`. -/
structure Point3D (α : Type) where
  x : α
  y : α
  z : α
  deriving DecidableEq, Repr

namespace Vector3D

variable {α : Type}

/-- Applies `f` to each component. -/
def map {β : Type} (f : α → β) (v : Vector3D α) : Vector3D β :=
  ⟨f v.x, f v.y, f v.z⟩

/-- Modelled from the spec: `Vector3D::dot`, the standard dot product. -/
def dot [Add α] [Mul α] (a b : Vector3D α) : α :=
  a.x * b.x + a.y * b.y + a.z * b.z

/-- Modelled from the spec: `Vector3D::cross`, the standard cross product. -/
def cross [Sub α] [Mul α] (a b : Vector3D α) : Vector3D α :=
  ⟨a.y * b.z - a.z * b.y, a.z * b.x - a.x * b.z, a.x * b.y - a.y * b.x⟩

/-- Modelled from the spec: `Vector3D * float`, scaling by a scalar. -/
def scale [Mul α] (v : Vector3D α) (t : α) : Vector3D α :=
  ⟨v.x * t, v.y * t, v.z * t⟩

/-- Modelled from the spec: `Vector3D::normalise`, which scales the vector to unit
length by dividing each component by the length `sqrt (v.dot v)`. -/
def normalise [Add α] [Mul α] [Div α] (sqrt : α → α) (v : Vector3D α) : Vector3D α :=
  let len := sqrt (v.dot v)
  ⟨v.x / len, v.y / len, v.z / len⟩

end Vector3D

namespace Point3D

variable {α : Type}

/-- Applies `f` to each component. -/
def map {β : Type} (f : α → β) (p : Point3D α) : Point3D β :=
  ⟨f p.x, f p.y, f p.z⟩

/-- Modelled from the spec: `Point3D - Point3D`, the vector from `q` to `p`. -/
def sub [Sub α] (p q : Point3D α) : Vector3D α :=
  ⟨p.x - q.x, p.y - q.y, p.z - q.z⟩

/-- Modelled from the spec: `Point3D + Vector3D`. -/
def addVec [Add α] (p : Point3D α) (v : Vector3D α) : Point3D α :=
  ⟨p.x + v.x, p.y + v.y, p.z + v.z⟩

/-- Modelled from the spec: `Point3D - Vector3D`. -/
def subVec [Sub α] (p : Point3D α) (v : Vector3D α) : Point3D α :=
  ⟨p.x - v.x, p.y - v.y, p.z - v.z⟩

/-- Modelled from the spec: `Point3D::asVector`, the vector from the origin. -/
def asVector (p : Point3D α) : Vector3D α :=
  ⟨p.x, p.y, p.z⟩

end Point3D

/-- Modelled from the spec: class `Colour` of `Image.h` (not among the sources), by the
three components that `Object.h` passes to its constructor. -/
structure Colour where
  r : Nat
  g : Nat
  b : Nat
  deriving DecidableEq, Repr

/-- The member `m_colour = Colour(126, 126, 126)` of `Object`. -/
def Colour.objectDefault : Colour := ⟨126, 126, 126⟩

variable {K : Type} [LinearOrderedField K] {F : Type}

/-- Class `Sphere` over the numbers `F`: the centre and colour of `Object`, and the squared
radius. -/
structure Sphere (F : Type) where
  m_colour : Colour
  m_centre : Point3D F
  m_radius2 : F
  deriving DecidableEq, Repr

/-- The constructor `Sphere::Sphere (centrePoint, r)`. -/
def Sphere.new [Mul F] (centrePoint : Point3D F) (r : F) : Sphere F :=
  { m_colour := Colour.objectDefault, m_centre := centrePoint, m_radius2 := r * r }

/-- `Sphere::getIntersection`, in the arithmetic of `F` with its square root `sqrt`.  The
reference parameter `distToFirstIntersection` is passed in and returned next to the result:
a miss leaves it as it was. -/
def Sphere.getIntersection [Add F] [Sub F] [Mul F] [LT F] [∀ a b : F, Decidable (a < b)]
    [OfNat F 0] (sqrt : F → F) (s : Sphere F) (raySrc : Point3D F) (rayDir : Vector3D F)
    (distToFirstIntersection : F) : Bool × F :=
  let srcToCentre := s.m_centre.sub raySrc
  let tc := srcToCentre.dot rayDir
  if tc > 0 then
    let distSq := srcToCentre.dot srcToCentre - tc * tc
    if distSq < s.m_radius2 then
      (true, tc - sqrt (s.m_radius2 - distSq))
    else
      (false, distToFirstIntersection)
  else
    (false, distToFirstIntersection)

/-- Modelled from the spec: class `Matrix3D` (its header is not among the sources), a 4×4
homogeneous affine transform with element access by (row, column). -/
structure Matrix3D (α : Type) where
  m : Fin 4 → Fin 4 → α

namespace Matrix3D

variable {α : Type}

/-- Modelled from the spec: the read access `matrix(i, j)`. -/
def get (M : Matrix3D α) (i j : Fin 4) : α := M.m i j

/-- Modelled from the spec: the write access `matrix(i, j) = value`. -/
def set (M : Matrix3D α) (i j : Fin 4) (value : α) : Matrix3D α :=
  ⟨fun r c => if r = i ∧ c = j then value else M.m r c⟩

/-- Modelled from the spec: `Matrix3D * Point3D`; a point includes the translation. -/
def mulPoint [Add α] [Mul α] (M : Matrix3D α) (p : Point3D α) : Point3D α :=
  ⟨M.m 0 0 * p.x + M.m 0 1 * p.y + M.m 0 2 * p.z + M.m 0 3,
   M.m 1 0 * p.x + M.m 1 1 * p.y + M.m 1 2 * p.z + M.m 1 3,
   M.m 2 0 * p.x + M.m 2 1 * p.y + M.m 2 2 * p.z + M.m 2 3⟩

/-- Modelled from the spec: `Matrix3D * Vector3D`; a vector ignores the translation. -/
def mulVector [Add α] [Mul α] (M : Matrix3D α) (v : Vector3D α) : Vector3D α :=
  ⟨M.m 0 0 * v.x + M.m 0 1 * v.y + M.m 0 2 * v.z,
   M.m 1 0 * v.x + M.m 1 1 * v.y + M.m 1 2 * v.z,
   M.m 2 0 * v.x + M.m 2 1 * v.y + M.m 2 2 * v.z⟩

/-- Determinant of the 3×3 linear part. -/
def det3 [Add α] [Sub α] [Mul α] (M : Matrix3D α) : α :=
  M.m 0 0 * (M.m 1 1 * M.m 2 2 - M.m 1 2 * M.m 2 1)
    - M.m 0 1 * (M.m 1 0 * M.m 2 2 - M.m 1 2 * M.m 2 0)
    + M.m 0 2 * (M.m 1 0 * M.m 2 1 - M.m 1 1 * M.m 2 0)

/-- Modelled from the spec: `Matrix3D::inverseTransform`, the general affine inverse.  The
linear part is inverted by cofactors over the determinant, the translation `t` becomes
`-(A⁻¹ t)`, and the last row is `(0, 0, 0, 1)`. -/
def inverseTransform [Add α] [Sub α] [Mul α] [Div α] [Neg α] (zero one : α)
    (M : Matrix3D α) : Matrix3D α :=
  let d := M.det3
  let a00 := (M.m 1 1 * M.m 2 2 - M.m 1 2 * M.m 2 1) / d
  let a01 := (M.m 0 2 * M.m 2 1 - M.m 0 1 * M.m 2 2) / d
  let a02 := (M.m 0 1 * M.m 1 2 - M.m 0 2 * M.m 1 1) / d
  let a10 := (M.m 1 2 * M.m 2 0 - M.m 1 0 * M.m 2 2) / d
  let a11 := (M.m 0 0 * M.m 2 2 - M.m 0 2 * M.m 2 0) / d
  let a12 := (M.m 0 2 * M.m 1 0 - M.m 0 0 * M.m 1 2) / d
  let a20 := (M.m 1 0 * M.m 2 1 - M.m 1 1 * M.m 2 0) / d
  let a21 := (M.m 0 1 * M.m 2 0 - M.m 0 0 * M.m 2 1) / d
  let a22 := (M.m 0 0 * M.m 1 1 - M.m 0 1 * M.m 1 0) / d
  let t0 := -(a00 * M.m 0 3 + a01 * M.m 1 3 + a02 * M.m 2 3)
  let t1 := -(a10 * M.m 0 3 + a11 * M.m 1 3 + a12 * M.m 2 3)
  let t2 := -(a20 * M.m 0 3 + a21 * M.m 1 3 + a22 * M.m 2 3)
  ⟨fun r c =>
    match r, c with
    | 0, 0 => a00 | 0, 1 => a01 | 0, 2 => a02 | 0, 3 => t0
    | 1, 0 => a10 | 1, 1 => a11 | 1, 2 => a12 | 1, 3 => t1
    | 2, 0 => a20 | 2, 1 => a21 | 2, 2 => a22 | 2, 3 => t2
    | 3, 3 => one
    | _, _ => zero⟩

/-- Modelled from the spec: the default-constructed `Matrix3D`, the identity. -/
def identity (zero one : α) : Matrix3D α :=
  ⟨fun r c => if r = c then one else zero⟩

end Matrix3D

/-- Class `Plane` over the numbers `F`, with the members `Object.cpp` uses. -/
structure Plane (F : Type) where
  m_colour : Colour
  m_centre : Point3D F
  m_normal : Vector3D F
  m_widthDirection : Vector3D F
  m_heightDirection : Vector3D F
  m_halfWidth : F
  m_halfHeight : F
  m_isBounded : Bool
  m_halfDiagonal : F
  deriving DecidableEq, Repr

/-- The constructor `Plane::Plane (centrePoint, n, up, w, h)`, in the arithmetic of `F` with
its square root `sqrt`.  An unbounded plane keeps the
initial values of the width direction and of the half diagonal: the first is the
initialiser `(1, 0, 0)` of `Object.h`, the second, which `Object.h` does not declare, is
the parameter `halfDiagonal0`. -/
def Plane.new [Add F] [Sub F] [Mul F] [Div F] [LT F] [∀ a b : F, Decidable (a < b)]
    [OfNat F 0] [OfNat F 1] [OfNat F 2] (sqrt : F → F) (centrePoint : Point3D F)
    (n up : Vector3D F) (w h : F) (halfDiagonal0 : F) : Plane F :=
  let m_heightDirection := up
  let m_normal := n
  let m_halfWidth := w / 2
  let m_halfHeight := h / 2
  let m_normal := m_normal.normalise sqrt
  let m_isBounded := decide (m_halfWidth > 0) && decide (m_halfHeight > 0)
  if m_isBounded then
    let m_widthDirection := m_heightDirection.cross m_normal
    let m_widthDirection := m_widthDirection.normalise sqrt
    let m_heightDirection := m_heightDirection.normalise sqrt
    let m_halfDiagonal := sqrt (m_halfWidth * m_halfWidth + m_halfHeight * m_halfHeight)
    { m_colour := Colour.objectDefault, m_centre := centrePoint, m_normal := m_normal,
      m_widthDirection := m_widthDirection, m_heightDirection := m_heightDirection,
      m_halfWidth := m_halfWidth, m_halfHeight := m_halfHeight, m_isBounded := m_isBounded,
      m_halfDiagonal := m_halfDiagonal }
  else
    { m_colour := Colour.objectDefault, m_centre := centrePoint, m_normal := m_normal,
      m_widthDirection := ⟨1, 0, 0⟩,
      m_heightDirection := m_heightDirection,
      m_halfWidth := m_halfWidth, m_halfHeight := m_halfHeight, m_isBounded := m_isBounded,
      m_halfDiagonal := halfDiagonal0 }

/-- `Plane::getIntersection`, in the arithmetic of `F`.  The reference parameter
`distToFirstIntersection` is assigned before the bounds test, so it is returned on a miss
too. -/
def Plane.getIntersection [Add F] [Sub F] [Mul F] [Div F] [Neg F] [LT F]
    [∀ a b : F, Decidable (a < b)] (p : Plane F) (raySrc : Point3D F) (rayDir : Vector3D F)
    (_distToFirstIntersection : F) : Bool × F :=
  let distToFirstIntersection :=
    (p.m_centre.sub raySrc).dot p.m_normal / rayDir.dot p.m_normal
  let intersectionPoint := raySrc.addVec (rayDir.scale distToFirstIntersection)
  let intersectvector := intersectionPoint.sub p.m_centre
  let horizontalDot := intersectvector.dot p.m_widthDirection
  let verticalDot := intersectvector.dot p.m_heightDirection
  if horizontalDot < p.m_halfWidth ∧ horizontalDot > -p.m_halfWidth
      ∧ verticalDot < p.m_halfHeight ∧ verticalDot > -p.m_halfHeight then
    (true, distToFirstIntersection)
  else
    (false, distToFirstIntersection)

/-- `Plane::applyTransformation`. -/
def Plane.applyTransformation [Add F] [Mul F] (p : Plane F) (matrix : Matrix3D F) :
    Plane F :=
  { p with
    m_centre := matrix.mulPoint p.m_centre
    m_heightDirection := matrix.mulVector p.m_heightDirection
    m_widthDirection := matrix.mulVector p.m_widthDirection
    m_normal := matrix.mulVector p.m_normal }

/-- `Sphere::applyTransformation`. -/
def Sphere.applyTransformation [Add F] [Mul F] (s : Sphere F) (matrix : Matrix3D F) :
    Sphere F :=
  { s with m_centre := matrix.mulPoint s.m_centre }

/-- An element of the object list of the camera, in exact arithmetic: a `Plane` or a `Sphere`
behind the `Object` interface. -/
inductive Object (K : Type) where
  | plane (p : Plane (Flt K))
  | sphere (s : Sphere (Flt K))
  deriving DecidableEq, Repr

namespace Object

/-- The virtual call `obj->getIntersection (raySrc, rayDir, distToFirstIntersection)`. -/
def getIntersection (sqrt : K → K) (obj : Object K) (raySrc : Point3D (Flt K))
    (rayDir : Vector3D (Flt K)) (distToFirstIntersection : Flt K) : Bool × Flt K :=
  match obj with
  | plane p => p.getIntersection raySrc rayDir distToFirstIntersection
  | sphere s => s.getIntersection (Flt.sqrt sqrt) raySrc rayDir distToFirstIntersection

/-- The virtual call `obj->applyTransformation (matrix)`. -/
def applyTransformation (obj : Object K) (matrix : Matrix3D (Flt K)) : Object K :=
  match obj with
  | plane p => plane (p.applyTransformation matrix)
  | sphere s => sphere (s.applyTransformation matrix)

/-- Modelled from the spec: `Object::position`, the centre of the object (the accessor is
not declared in the `Object.h` among the sources). -/
def position (obj : Object K) : Point3D (Flt K) :=
  match obj with
  | plane p => p.m_centre
  | sphere s => s.m_centre

/-- Modelled from the spec: `Object::getMaxRadius`, the maximum bounding radius the object
reports: the radius of a sphere, the half diagonal of a plane. -/
def getMaxRadius (sqrt : K → K) (obj : Object K) : Flt K :=
  match obj with
  | plane p => p.m_halfDiagonal
  | sphere s => Flt.sqrt sqrt s.m_radius2

/-- The member `m_colour` of the object. -/
def colour (obj : Object K) : Colour :=
  match obj with
  | plane p => p.m_colour
  | sphere s => s.m_colour

end Object

/-- Modelled from the spec: struct `ViewPlane` of `Camera.h` (not among the sources).  The
spec gives the resolutions as positive integers.  Whether `Camera.h` declares them `int` or
`unsigned` is not known and is the member `resolutionUnsigned` (`true` for `unsigned`): it
decides how `min(pixelX + pixelRadiusX, m_viewPlane.resolutionX)` compares its operands.  An
`unsigned` resolution is given by its value. -/
structure ViewPlane (K : Type) where
  resolutionX : Int
  resolutionY : Int
  halfWidth : Flt K
  halfHeight : Flt K
  distance : Flt K
  resolutionUnsigned : Bool
  deriving DecidableEq, Repr

/-- Modelled from the spec: struct `ObjectInfo` of `PixelBuffer.h` (not among the sources).
The object pointer is the index of the object in the list given to the render pass. -/
structure ObjectInfo (K : Type) where
  object : Option Nat
  distanceToIntersection : Flt K
  deriving DecidableEq, Repr

/-- Modelled from the spec: the record of a pixel no object covers. -/
def ObjectInfo.noHit : ObjectInfo K := ⟨none, Flt.pinf⟩

/-- Modelled from the spec: class `PixelBuffer` of `PixelBuffer.h` (not among the sources),
a 2D grid with one `ObjectInfo` per pixel.  The pixels of the grid are the `(i, j)` with
`i < width` and `j < height`.  `cells` has a record for every pair of indices: an access
outside the grid, which is undefined in C++, is not represented, and the properties of the
buffer are stated for the pixels of the grid. -/
structure PixelBuffer (K : Type) where
  initialised : Bool
  width : Int
  height : Int
  cells : Nat → Nat → ObjectInfo K

namespace PixelBuffer

/-- Modelled from the spec: the buffer of a camera before `init`. -/
def empty : PixelBuffer K := ⟨false, 0, 0, fun _ _ => ObjectInfo.noHit⟩

/-- Modelled from the spec: `PixelBuffer::init`, which sizes the grid. -/
def init (_buf : PixelBuffer K) (resolutionX resolutionY : Int) : PixelBuffer K :=
  ⟨true, resolutionX, resolutionY, fun _ _ => ObjectInfo.noHit⟩

/-- Modelled from the spec: `PixelBuffer::isInitialised`. -/
def isInitialised (buf : PixelBuffer K) : Bool := buf.initialised

/-- Modelled from the spec: `PixelBuffer::clear`, which resets every pixel to "no hit". -/
def clear (buf : PixelBuffer K) : PixelBuffer K :=
  { buf with cells := fun _ _ => ObjectInfo.noHit }

/-- Modelled from the spec: `PixelBuffer::getObjectInfoForPixel`. -/
def getObjectInfoForPixel (buf : PixelBuffer K) (i j : Nat) : ObjectInfo K :=
  buf.cells i j

/-- Modelled from the spec: `PixelBuffer::setObjectInfoForPixel`. -/
def setObjectInfoForPixel (buf : PixelBuffer K) (i j : Nat) (info : ObjectInfo K) :
    PixelBuffer K :=
  { buf with cells := fun a b => if a = i ∧ b = j then info else buf.cells a b }

end PixelBuffer

/-- A 32-bit `int` result: the value modulo `2 ^ 32`, in `[-2 ^ 31, 2 ^ 31)`. -/
def wrapInt (n : Int) : Int := (n + 2 ^ 31) % 2 ^ 32 - 2 ^ 31

/-- The conversion of an `int` to `unsigned`: the value modulo `2 ^ 32`. -/
def toUnsigned (n : Int) : Nat := (n % 2 ^ 32).toNat

/-- The initialiser `min(a, resolution)` of the `unsigned` bounds `endX` and `endY`, for an
`int` value `a`.  With `int` resolutions the minimum is taken on `int` and then converted to
`unsigned`.  With `unsigned` resolutions, which next to an `int` operand only the
function-like macro `min(a, b) = (a < b) ? a : b` accepts, the usual arithmetic conversions
turn `a` into an `unsigned` first and the minimum is taken on `unsigned`. -/
def clampEnd (resolutionUnsigned : Bool) (a resolution : Int) : Nat :=
  if resolutionUnsigned then
    if toUnsigned a < toUnsigned resolution then toUnsigned a else toUnsigned resolution
  else toUnsigned (min a resolution)

/-- The conversion `static_cast<int>(x)`: truncation towards zero.  A value the `int` cannot
hold (out of range, infinite, NaN) is given as `-2 ^ 31`, the result of the x86 conversion
instruction. -/
def Flt.toInt [FloorRing K] : Flt K → Int
  | Flt.fin a =>
      let n : Int := if 0 ≤ a then ⌊a⌋ else ⌈a⌉
      if -2 ^ 31 ≤ n ∧ n < 2 ^ 31 then n else -2 ^ 31
  | _ => -2 ^ 31

/-- Class `Camera`, with the members `Camera.cpp` uses (`Camera.h` is not among the
sources). -/
structure Camera (K : Type) where
  m_position : Point3D (Flt K)
  m_rotation : Vector3D (Flt K)
  m_viewPlane : ViewPlane K
  m_pixelBuf : PixelBuffer K
  m_pixelWidth : Flt K
  m_pixelHeight : Flt K
  m_cameraToWorldTransform : Matrix3D (Flt K)
  m_worldTransformChanged : Bool

namespace Camera

variable [FloorRing K]

/-- `Camera::init`. -/
def init (cam : Camera K) (pos : Point3D (Flt K)) : Camera K :=
  { cam with
    m_position := pos
    m_pixelBuf := cam.m_pixelBuf.init cam.m_viewPlane.resolutionX cam.m_viewPlane.resolutionY
    m_pixelWidth :=
      cam.m_viewPlane.halfWidth * Flt.fin 2 / Flt.ofInt cam.m_viewPlane.resolutionX
    m_pixelHeight :=
      cam.m_viewPlane.halfHeight * Flt.fin 2 / Flt.ofInt cam.m_viewPlane.resolutionY }

/-- `Camera::getRayDirectionThroughPixel`. -/
def getRayDirectionThroughPixel (sqrt : K → K) (cam : Camera K) (i j : Int) :
    Vector3D (Flt K) :=
  let cameraSpaceX := (Flt.ofInt i * cam.m_pixelWidth) - cam.m_viewPlane.halfWidth
  let cameraSpaceY := (Flt.ofInt j * cam.m_pixelHeight) - cam.m_viewPlane.halfHeight
  let rayDir : Vector3D (Flt K) := ⟨cameraSpaceX, cameraSpaceY, cam.m_viewPlane.distance⟩
  rayDir.normalise (Flt.sqrt sqrt)

/-- `Camera::updateWorldTransform`. -/
def updateWorldTransform (cam : Camera K) : Camera K :=
  let M := cam.m_cameraToWorldTransform
  let M := M.set 0 3 cam.m_position.x
  let M := M.set 1 3 cam.m_position.y
  let M := M.set 2 3 cam.m_position.z
  let M := M.set 2 2 (Flt.fin (-1))
  { cam with m_cameraToWorldTransform := M }

/-- The body of the two pixel loops of `Camera::updatePixelBuffer` for the pixel `(i, j)` and
the object `obj`, the `k`-th of the list.  The state is the pixel buffer and the local
`distToIntersection`. -/
def castRay (sqrt : K → K) (cam : Camera K) (k : Nat) (obj : Object K) (i j : Nat)
    (st : PixelBuffer K × Flt K) : PixelBuffer K × Flt K :=
  let origin : Point3D (Flt K) := ⟨Flt.fin 0, Flt.fin 0, Flt.fin 0⟩
  let rayDir := cam.getRayDirectionThroughPixel sqrt (wrapInt i) (wrapInt j)
  let r := obj.getIntersection sqrt origin rayDir st.2
  if r.1 = true ∧ r.2 < (st.1.getObjectInfoForPixel i j).distanceToIntersection then
    (st.1.setObjectInfoForPixel i j ⟨some k, r.2⟩, r.2)
  else
    (st.1, r.2)

/-- The body of the object loop of `Camera::updatePixelBuffer`: the pixel footprint of the
object and the two loops over it.  `max` compares two `int` operands and the result is
converted to `unsigned`; `min` is `clampEnd`. -/
def castObject (sqrt : K → K) (cam : Camera K) (k : Nat) (obj : Object K)
    (st : PixelBuffer K × Flt K) : PixelBuffer K × Flt K :=
  let toCentre := obj.position.asVector
  let toCentre := toCentre.normalise (Flt.sqrt sqrt)
  let t := cam.m_viewPlane.distance / toCentre.z
  let viewPlaneX := toCentre.x * t + cam.m_viewPlane.halfWidth
  let viewPlaneY := toCentre.y * t + cam.m_viewPlane.halfHeight
  let pixelX := Flt.toInt (viewPlaneX / cam.m_pixelWidth)
  let pixelY := Flt.toInt (viewPlaneY / cam.m_pixelHeight)
  let objectRad := Flt.fabsf (obj.getMaxRadius sqrt)
  let pixelRadiusX := wrapInt (Flt.toInt (objectRad / cam.m_pixelWidth) + 1)
  let pixelRadiusY := wrapInt (Flt.toInt (objectRad / cam.m_pixelHeight) + 1)
  let startX := toUnsigned (max (wrapInt (pixelX - pixelRadiusX)) 0)
  let endX := clampEnd cam.m_viewPlane.resolutionUnsigned (wrapInt (pixelX + pixelRadiusX))
    cam.m_viewPlane.resolutionX
  let startY := toUnsigned (max (wrapInt (pixelY - pixelRadiusY)) 0)
  let endY := clampEnd cam.m_viewPlane.resolutionUnsigned (wrapInt (pixelY + pixelRadiusY))
    cam.m_viewPlane.resolutionY
  (List.range' startX (endX - startX)).foldl
    (fun st i =>
      (List.range' startY (endY - startY)).foldl (fun st j => castRay sqrt cam k obj i j st) st)
    st

/-- The object loop of `Camera::updatePixelBuffer`, from the `k`-th object on. -/
def castObjects (sqrt : K → K) (cam : Camera K) :
    Nat → List (Object K) → PixelBuffer K × Flt K → PixelBuffer K × Flt K
  | _, [], st => st
  | k, obj :: rest, st => castObjects sqrt cam (k + 1) rest (castObject sqrt cam k obj st)

/-- `Camera::updatePixelBuffer`: the result, the camera and the objects after the call.  The
local `distToIntersection` is not initialised in the source; it is read only after a hit
has assigned it, and starts here as NaN. -/
def updatePixelBuffer (sqrt : K → K) (cam : Camera K) (objects : List (Object K)) :
    Bool × Camera K × List (Object K) :=
  if cam.m_pixelBuf.isInitialised then
    let cam := { cam with m_pixelBuf := cam.m_pixelBuf.clear }
    let cam :=
      if cam.m_worldTransformChanged then
        { cam.updateWorldTransform with m_worldTransformChanged := false }
      else cam
    let worldToCameraTransform :=
      cam.m_cameraToWorldTransform.inverseTransform (Flt.fin 0) (Flt.fin 1)
    let objects := objects.map (fun obj => obj.applyTransformation worldToCameraTransform)
    let st := castObjects sqrt cam 0 objects (cam.m_pixelBuf, Flt.nan)
    let cam := { cam with m_pixelBuf := st.1 }
    let objects := objects.map (fun obj => obj.applyTransformation cam.m_cameraToWorldTransform)
    (true, cam, objects)
  else
    (false, cam, objects)

/-- `Camera::getColourAtPixel`: the colour and the camera after the call (the method is not
`const`; the object is read through a pointer to `const`).  `background` is the
default-constructed `Colour`, whose class is not among the sources. -/
def getColourAtPixel (cam : Camera K) (objects : List (Object K)) (background : Colour)
    (i j : Nat) : Colour × Camera K :=
  let colour := background
  let objInfo := cam.m_pixelBuf.getObjectInfoForPixel i j
  match objInfo.object with
  | some k =>
      match objects.get? k with
      | some object => (object.colour, cam)
      | none => (colour, cam)
  | none => (colour, cam)

end Camera

/-- Applies `f` to each entry. -/
def Matrix3D.map {α β : Type} (f : α → β) (M : Matrix3D α) : Matrix3D β :=
  ⟨fun r c => f (M.m r c)⟩

/-- Says whether the three coordinates are ordinary numbers. -/
def Point3D.isFinite (p : Point3D (Flt K)) : Bool :=
  p.x.isFinite && p.y.isFinite && p.z.isFinite

/-- Says whether the three components are ordinary numbers. -/
def Vector3D.isFinite (v : Vector3D (Flt K)) : Bool :=
  v.x.isFinite && v.y.isFinite && v.z.isFinite

/-- Says whether the state that `applyTransformation` changes is made of ordinary numbers:
the centre of a sphere; the centre, normal, width direction and height direction of a
plane. -/
def Object.isFinite : Object K → Bool
  | Object.plane p =>
      p.m_centre.isFinite && p.m_normal.isFinite && p.m_widthDirection.isFinite
        && p.m_heightDirection.isFinite
  | Object.sphere s => s.m_centre.isFinite

/-- Says whether the size of the object is an ordinary number: the squared radius of a
sphere (a plane has no size that its intersection test reads with the distance). -/
def Object.radiusIsFinite : Object K → Bool
  | Object.plane _ => true
  | Object.sphere s => s.m_radius2.isFinite

/-- The pixel rectangle `[startX, endX) × [startY, endY)` of an object. -/
structure Footprint where
  startX : Nat
  endX : Nat
  startY : Nat
  endY : Nat
  deriving DecidableEq, Repr

/-- The pixel footprint that the body of the object loop of `Camera::updatePixelBuffer`
computes for an object, as in `castObject`. -/
def Camera.footprint [FloorRing K] (sqrt : K → K) (cam : Camera K) (obj : Object K) :
    Footprint :=
  let toCentre := obj.position.asVector
  let toCentre := toCentre.normalise (Flt.sqrt sqrt)
  let t := cam.m_viewPlane.distance / toCentre.z
  let viewPlaneX := toCentre.x * t + cam.m_viewPlane.halfWidth
  let viewPlaneY := toCentre.y * t + cam.m_viewPlane.halfHeight
  let pixelX := Flt.toInt (viewPlaneX / cam.m_pixelWidth)
  let pixelY := Flt.toInt (viewPlaneY / cam.m_pixelHeight)
  let objectRad := Flt.fabsf (obj.getMaxRadius sqrt)
  let pixelRadiusX := wrapInt (Flt.toInt (objectRad / cam.m_pixelWidth) + 1)
  let pixelRadiusY := wrapInt (Flt.toInt (objectRad / cam.m_pixelHeight) + 1)
  { startX := toUnsigned (max (wrapInt (pixelX - pixelRadiusX)) 0)
    endX := clampEnd cam.m_viewPlane.resolutionUnsigned (wrapInt (pixelX + pixelRadiusX))
      cam.m_viewPlane.resolutionX
    startY := toUnsigned (max (wrapInt (pixelY - pixelRadiusY)) 0)
    endY := clampEnd cam.m_viewPlane.resolutionUnsigned (wrapInt (pixelY + pixelRadiusY))
      cam.m_viewPlane.resolutionY }

/-- The intersection test of the body of the pixel loops of `Camera::updatePixelBuffer`, as
in `castRay`: the distance of the hit that the object reports for the ray through the pixel
`(i, j)`, nothing on a miss. -/
def Camera.rayHit [FloorRing K] (sqrt : K → K) (cam : Camera K) (obj : Object K)
    (i j : Nat) : Option (Flt K) :=
  let r := obj.getIntersection sqrt ⟨Flt.fin 0, Flt.fin 0, Flt.fin 0⟩
    (cam.getRayDirectionThroughPixel sqrt (wrapInt i) (wrapInt j)) Flt.nan
  if r.1 = true then some r.2 else none

/-- What the pixel loops of `Camera::updatePixelBuffer` get from the object at the pixel
`(i, j)`: nothing when the pixel is outside the footprint of the object (no ray is cast) or
the intersection test reports a miss, the distance of the hit otherwise. -/
def Camera.testedHit [FloorRing K] (sqrt : K → K) (cam : Camera K) (obj : Object K)
    (i j : Nat) : Option (Flt K) :=
  let fp := cam.footprint sqrt obj
  if fp.startX ≤ i ∧ i < fp.endX ∧ fp.startY ≤ j ∧ j < fp.endY then
    cam.rayHit sqrt obj i j
  else none

/-- What the body of the pixel loops of `Camera::updatePixelBuffer` does to the record of
its pixel, as in `castRay`: the `k`-th object replaces the record when it reports a hit
strictly nearer than the recorded distance. -/
def ObjectInfo.offer (k : Nat) (hit : Option (Flt K)) (info : ObjectInfo K) : ObjectInfo K :=
  match hit with
  | some d => if d < info.distanceToIntersection then ⟨some k, d⟩ else info
  | none => info

/-- The record of a pixel after the objects from the `k`-th on have been offered in list
order, as in `castObjects`. -/
def ObjectInfo.offerAll : Nat → List (Option (Flt K)) → ObjectInfo K → ObjectInfo K
  | _, [], info => info
  | k, hit :: rest, info => ObjectInfo.offerAll (k + 1) rest (ObjectInfo.offer k hit info)

/-- The camera during the object loop of a successful `Camera::updatePixelBuffer`: the
pixel buffer cleared and the cached transform brought up to date. -/
def Camera.passCamera (cam : Camera K) : Camera K :=
  let cam := { cam with m_pixelBuf := cam.m_pixelBuf.clear }
  if cam.m_worldTransformChanged then
    { cam.updateWorldTransform with m_worldTransformChanged := false }
  else cam

/-- The objects during the object loop of a successful `Camera::updatePixelBuffer`: in the
coordinate system of the camera. -/
def Camera.passObjects (cam : Camera K) (objects : List (Object K)) : List (Object K) :=
  objects.map (fun obj => obj.applyTransformation
    (cam.passCamera.m_cameraToWorldTransform.inverseTransform (Flt.fin 0) (Flt.fin 1)))

/-- Modelled from the spec: a camera before `init`, with the given view plane: at the
origin, without rotation, with an unsized pixel buffer, the identity as cached transform
and the dirty flag set. -/
def Camera.new (viewPlane : ViewPlane K) : Camera K :=
  { m_position := ⟨Flt.fin 0, Flt.fin 0, Flt.fin 0⟩
    m_rotation := ⟨Flt.fin 0, Flt.fin 0, Flt.fin 0⟩
    m_viewPlane := viewPlane
    m_pixelBuf := PixelBuffer.empty
    m_pixelWidth := Flt.fin 0
    m_pixelHeight := Flt.fin 0
    m_cameraToWorldTransform := Matrix3D.identity (Flt.fin 0) (Flt.fin 1)
    m_worldTransformChanged := true }

end Raycast

/-!
Properties.

Helper lemmas first (the arithmetic of `Flt K` on finite values, vectors and matrices with
finite entries), then the properties of the intersection tests and of the camera.  Where a
property needs the square root to be a square root, it is stated for a function `sqrt` with
`0 ≤ sqrt x` and `sqrt x * sqrt x = x` for `0 ≤ x`, as `Real.sqrt` is.
-/

namespace Raycast

section finiteness

variable {K : Type}

theorem Flt.isFinite_inf (b : Bool) : (Flt.inf b : Flt K).isFinite = false := by
  cases b <;> rfl

theorem Flt.eq_fin_of_isFinite {a : Flt K} (h : a.isFinite = true) :
    ∃ v : K, a = Flt.fin v := by
  cases a with
  | fin v => exact ⟨v, rfl⟩
  | pinf => cases h
  | ninf => cases h
  | nan => cases h

theorem Point3D.point_eq_map_fin {p : Point3D (Flt K)} (h : p.isFinite = true) :
    ∃ q : Point3D K, p = q.map Flt.fin := by
  simp only [Point3D.isFinite, Bool.and_eq_true] at h
  obtain ⟨x, hx⟩ := Flt.eq_fin_of_isFinite h.1.1
  obtain ⟨y, hy⟩ := Flt.eq_fin_of_isFinite h.1.2
  obtain ⟨z, hz⟩ := Flt.eq_fin_of_isFinite h.2
  refine ⟨⟨x, y, z⟩, ?_⟩
  cases p
  simp_all [Point3D.map]

theorem Vector3D.vector_eq_map_fin {v : Vector3D (Flt K)} (h : v.isFinite = true) :
    ∃ w : Vector3D K, v = w.map Flt.fin := by
  simp only [Vector3D.isFinite, Bool.and_eq_true] at h
  obtain ⟨x, hx⟩ := Flt.eq_fin_of_isFinite h.1.1
  obtain ⟨y, hy⟩ := Flt.eq_fin_of_isFinite h.1.2
  obtain ⟨z, hz⟩ := Flt.eq_fin_of_isFinite h.2
  refine ⟨⟨x, y, z⟩, ?_⟩
  cases v
  simp_all [Vector3D.map]

theorem Matrix3D.map_set {β : Type} (f : K → β) (M : Matrix3D K) (i j : Fin 4) (v : K) :
    (M.set i j v).map f = (M.map f).set i j (f v) := by
  simp only [Matrix3D.map, Matrix3D.set, Matrix3D.mk.injEq]
  funext r c
  split <;> rfl

theorem Matrix3D.map_identity {β : Type} (f : K → β) (zero one : K) :
    (Matrix3D.identity zero one).map f = Matrix3D.identity (f zero) (f one) := by
  simp only [Matrix3D.map, Matrix3D.identity, Matrix3D.mk.injEq]
  funext r c
  split <;> rfl

end finiteness

namespace Flt

variable {K : Type} [LinearOrderedField K]

@[simp] theorem ofNat_zero : (0 : Flt K) = fin 0 := rfl

@[simp] theorem ofNat_one : (1 : Flt K) = fin 1 := rfl

@[simp] theorem ofNat_two : (2 : Flt K) = fin 2 := rfl

@[simp] theorem fin_add_fin (a b : K) : (fin a + fin b : Flt K) = fin (a + b) := rfl

@[simp] theorem neg_fin (a : K) : (-(fin a) : Flt K) = fin (-a) := rfl

@[simp] theorem fin_sub_fin (a b : K) : (fin a - fin b : Flt K) = fin (a - b) := by
  show add (fin a) (neg (fin b)) = fin (a - b)
  simp [add, neg, sub_eq_add_neg]

@[simp] theorem fin_mul_fin (a b : K) : (fin a * fin b : Flt K) = fin (a * b) := rfl

theorem fin_div_fin (a : K) {b : K} (hb : b ≠ 0) : (fin a / fin b : Flt K) = fin (a / b) := by
  show div (fin a) (fin b) = fin (a / b)
  simp [div, hb]

@[simp] theorem fin_lt_fin (a b : K) : (fin a < fin b) ↔ a < b := by
  show blt (fin a) (fin b) = true ↔ a < b
  simp [blt]

theorem fin_div_fin_eq (a b : K) :
    (fin a / fin b : Flt K)
      = if b = 0 then (if a = 0 then nan else inf (decide (0 < a))) else fin (a / b) := rfl

theorem sqrt_fin_eq (sqrtK : K → K) (a : K) :
    sqrt sqrtK (fin a) = if a < 0 then nan else fin (sqrtK a) := rfl

theorem sqrt_fin (sqrtK : K → K) {a : K} (ha : 0 ≤ a) :
    sqrt sqrtK (fin a) = fin (sqrtK a) := by
  simp [sqrt, not_lt.mpr ha]

theorem add_isFinite_left {a : Flt K} (b : Flt K) (h : a.isFinite = false) :
    (a + b).isFinite = false := by
  show (add a b).isFinite = false
  cases a <;> cases b <;> simp_all [add, isFinite]

theorem add_isFinite_right (a : Flt K) {b : Flt K} (h : b.isFinite = false) :
    (a + b).isFinite = false := by
  show (add a b).isFinite = false
  cases a <;> cases b <;> simp_all [add, isFinite]

theorem sub_isFinite_left {a : Flt K} (b : Flt K) (h : a.isFinite = false) :
    (a - b).isFinite = false := by
  show (add a (neg b)).isFinite = false
  cases a <;> cases b <;> simp_all [add, neg, isFinite]

theorem mul_isFinite_left {a : Flt K} (b : Flt K) (h : a.isFinite = false) :
    (a * b).isFinite = false := by
  show (mul a b).isFinite = false
  cases a <;> cases b <;> simp only [mul] <;>
    first
      | rfl
      | (split_ifs <;> first | rfl | exact isFinite_inf _)
      | simp_all [isFinite]

theorem mul_isFinite_right (a : Flt K) {b : Flt K} (h : b.isFinite = false) :
    (a * b).isFinite = false := by
  show (mul a b).isFinite = false
  cases a <;> cases b <;> simp only [mul] <;>
    first
      | rfl
      | (split_ifs <;> first | rfl | exact isFinite_inf _)
      | simp_all [isFinite]

/-- Division by zero never gives an ordinary number. -/
theorem div_zero_isFinite (a : Flt K) : (a / fin 0).isFinite = false := by
  show (div a (fin 0)).isFinite = false
  cases a <;> simp only [div] <;>
    first
      | rfl
      | exact isFinite_inf _
      | (split_ifs <;> first | rfl | exact isFinite_inf _)

/-- A value that is not finite lies in no interval `(-w, w)`. -/
theorem not_between_of_isFinite {a : Flt K} (w : Flt K) (h : a.isFinite = false) :
    ¬ (a < w ∧ a > -w) := by
  show ¬ (blt a w = true ∧ blt (neg w) a = true)
  cases a <;> cases w <;> simp_all [blt, neg, isFinite]

/-- No value lies in an interval `(-w, w)` with `w ≤ 0`. -/
theorem not_between_of_nonpos (a : Flt K) {w : K} (hw : w ≤ 0) :
    ¬ (a < fin w ∧ a > -(fin w)) := by
  cases a with
  | fin a =>
      simp only [neg_fin, gt_iff_lt, fin_lt_fin]
      intro h
      linarith [h.1, h.2]
  | pinf => exact not_between_of_isFinite _ rfl
  | ninf => exact not_between_of_isFinite _ rfl
  | nan => exact not_between_of_isFinite _ rfl

end Flt

section finiteGeometry

variable {K : Type} [LinearOrderedField K]

@[simp] theorem Point3D.map_fin_sub (p q : Point3D K) :
    (p.map Flt.fin).sub (q.map Flt.fin) = (p.sub q).map Flt.fin := by
  simp [Point3D.sub, Point3D.map, Vector3D.map]

@[simp] theorem Vector3D.map_fin_dot (a b : Vector3D K) :
    (a.map Flt.fin).dot (b.map Flt.fin) = Flt.fin (a.dot b) := by
  simp [Vector3D.dot, Vector3D.map]

@[simp] theorem Point3D.map_fin_addVec (p : Point3D K) (v : Vector3D K) :
    (p.map Flt.fin).addVec (v.map Flt.fin) = (p.addVec v).map Flt.fin := by
  simp [Point3D.addVec, Point3D.map, Vector3D.map]

@[simp] theorem Vector3D.map_fin_scale (v : Vector3D K) (t : K) :
    (v.map Flt.fin).scale (Flt.fin t) = (v.scale t).map Flt.fin := by
  simp [Vector3D.scale, Vector3D.map]

/-- `Sphere::getIntersection` on a finite sphere and a finite ray, in the arithmetic of
`K`. -/
theorem Sphere.getIntersection_sphere_finite (sqrt : K → K) (col : Colour) (c p : Point3D K)
    (v : Vector3D K) (r2 : K) (d0 : Flt K) :
    Sphere.getIntersection (Flt.sqrt sqrt) ⟨col, c.map Flt.fin, Flt.fin r2⟩ (p.map Flt.fin)
        (v.map Flt.fin) d0
      = if 0 < (c.sub p).dot v
            ∧ (c.sub p).dot (c.sub p) - (c.sub p).dot v * (c.sub p).dot v < r2 then
          (true, Flt.fin ((c.sub p).dot v - sqrt (r2 -
            ((c.sub p).dot (c.sub p) - (c.sub p).dot v * (c.sub p).dot v))))
        else (false, d0) := by
  simp only [Sphere.getIntersection, Point3D.map_fin_sub, Vector3D.map_fin_dot, gt_iff_lt,
    Flt.ofNat_zero, Flt.fin_lt_fin, Flt.fin_mul_fin, Flt.fin_sub_fin]
  by_cases h1 : 0 < (c.sub p).dot v
  · by_cases h2 : (c.sub p).dot (c.sub p) - (c.sub p).dot v * (c.sub p).dot v < r2
    · rw [if_pos h1, if_pos h2, if_pos ⟨h1, h2⟩, Flt.sqrt_fin sqrt (by linarith)]
      simp
    · rw [if_pos h1, if_neg h2, if_neg (fun h => h2 h.2)]
  · rw [if_neg h1, if_neg (fun h => h1 h.1)]

/-- The hit flag of `Plane::getIntersection` is false when the distance it computes is not
finite. -/
theorem Plane.getIntersection_of_isFinite (p : Plane (Flt K)) (raySrc : Point3D (Flt K))
    (rayDir : Vector3D (Flt K)) (d0 : Flt K)
    (h : (p.getIntersection raySrc rayDir d0).2.isFinite = false) :
    (p.getIntersection raySrc rayDir d0).1 = false := by
  have h2 : ((p.m_centre.sub raySrc).dot p.m_normal / rayDir.dot p.m_normal).isFinite
      = false := by
    simpa [Plane.getIntersection, apply_ite] using h
  have hx : ((((raySrc.addVec (rayDir.scale
      ((p.m_centre.sub raySrc).dot p.m_normal / rayDir.dot p.m_normal))).sub p.m_centre).dot
        p.m_widthDirection)).isFinite = false := by
    simp only [Vector3D.dot, Point3D.sub, Point3D.addVec, Vector3D.scale]
    exact Flt.add_isFinite_left _ (Flt.add_isFinite_left _ (Flt.mul_isFinite_left _
      (Flt.sub_isFinite_left _ (Flt.add_isFinite_right _ (Flt.mul_isFinite_right _ h2)))))
  have := Flt.not_between_of_isFinite p.m_halfWidth hx
  simp only [Plane.getIntersection]
  rw [if_neg (fun hh => this ⟨hh.1, hh.2.1⟩)]

/-- The hit flag of `Plane::getIntersection` is false for a ray parallel to the plane. -/
theorem Plane.miss_of_parallel (p : Plane (Flt K)) (raySrc : Point3D (Flt K))
    (rayDir : Vector3D (Flt K)) (d0 : Flt K) (hpar : rayDir.dot p.m_normal = Flt.fin 0) :
    (p.getIntersection raySrc rayDir d0).1 = false := by
  apply Plane.getIntersection_of_isFinite
  simp only [Plane.getIntersection, hpar, apply_ite, ite_self]
  exact Flt.div_zero_isFinite _

/-- `Plane::getIntersection` on finite members and a finite ray that is not parallel to the
plane, in the arithmetic of `K`. -/
theorem Plane.getIntersection_plane_finite (col : Colour) (c : Point3D K) (n wd hd : Vector3D K)
    (hw hh : K) (isB : Bool) (hdg : Flt K) (src : Point3D K) (dir : Vector3D K) (d0 : Flt K)
    (hb : dir.dot n ≠ 0) :
    Plane.getIntersection
        ⟨col, c.map Flt.fin, n.map Flt.fin, wd.map Flt.fin, hd.map Flt.fin, Flt.fin hw,
          Flt.fin hh, isB, hdg⟩ (src.map Flt.fin) (dir.map Flt.fin) d0
      = if ((src.addVec (dir.scale ((c.sub src).dot n / dir.dot n))).sub c).dot wd < hw
            ∧ -hw < ((src.addVec (dir.scale ((c.sub src).dot n / dir.dot n))).sub c).dot wd
            ∧ ((src.addVec (dir.scale ((c.sub src).dot n / dir.dot n))).sub c).dot hd < hh
            ∧ -hh < ((src.addVec (dir.scale ((c.sub src).dot n / dir.dot n))).sub c).dot hd
        then (true, Flt.fin ((c.sub src).dot n / dir.dot n))
        else (false, Flt.fin ((c.sub src).dot n / dir.dot n)) := by
  simp only [Plane.getIntersection, Point3D.map_fin_sub, Vector3D.map_fin_dot,
    Flt.fin_div_fin _ hb, Vector3D.map_fin_scale, Point3D.map_fin_addVec, Flt.neg_fin,
    gt_iff_lt, Flt.fin_lt_fin]

/-- A plane whose half width is a finite value `w ≤ 0` is never hit. -/
theorem Plane.getIntersection_of_halfWidth_nonpos (p : Plane (Flt K)) (raySrc : Point3D (Flt K))
    (rayDir : Vector3D (Flt K)) (d0 : Flt K) {w : K} (hp : p.m_halfWidth = Flt.fin w)
    (hw : w ≤ 0) : (p.getIntersection raySrc rayDir d0).1 = false := by
  simp only [Plane.getIntersection, hp]
  rw [if_neg (fun hc => Flt.not_between_of_nonpos _ hw ⟨hc.1, hc.2.1⟩)]

/-- A plane whose half height is a finite value `h ≤ 0` is never hit. -/
theorem Plane.getIntersection_of_halfHeight_nonpos (p : Plane (Flt K)) (raySrc : Point3D (Flt K))
    (rayDir : Vector3D (Flt K)) (d0 : Flt K) {h : K} (hp : p.m_halfHeight = Flt.fin h)
    (hh : h ≤ 0) : (p.getIntersection raySrc rayDir d0).1 = false := by
  simp only [Plane.getIntersection, hp]
  rw [if_neg (fun hc => Flt.not_between_of_nonpos _ hh ⟨hc.2.2.1, hc.2.2.2⟩)]

theorem Plane.new_halfWidth (sqrt : K → K) (centrePoint : Point3D (Flt K))
    (n up : Vector3D (Flt K)) (w h hd0 : Flt K) :
    (Plane.new (Flt.sqrt sqrt) centrePoint n up w h hd0).m_halfWidth = w / Flt.fin 2 := by
  unfold Plane.new
  simp only
  split <;> rfl

theorem Plane.new_halfHeight (sqrt : K → K) (centrePoint : Point3D (Flt K))
    (n up : Vector3D (Flt K)) (w h hd0 : Flt K) :
    (Plane.new (Flt.sqrt sqrt) centrePoint n up w h hd0).m_halfHeight = h / Flt.fin 2 := by
  unfold Plane.new
  simp only
  split <;> rfl

end finiteGeometry

section cameraLemmas

variable {K : Type} [LinearOrderedField K]

/-- The square root of a positive number is not zero. -/
theorem sqrt_ne_zero_of_pos (sqrt : K → K)
    (hsqrt : ∀ x : K, 0 ≤ x → 0 ≤ sqrt x ∧ sqrt x * sqrt x = x) {x : K} (hx : 0 < x) :
    sqrt x ≠ 0 := by
  intro h0
  have := (hsqrt x hx.le).2
  rw [h0, mul_zero] at this
  exact hx.ne this

/-- `normalise` on a finite vector of non-zero length, in the arithmetic of `K`. -/
theorem Vector3D.normalise_map_fin (sqrt : K → K)
    (hsqrt : ∀ x : K, 0 ≤ x → 0 ≤ sqrt x ∧ sqrt x * sqrt x = x) (v : Vector3D K)
    (hv : 0 < v.dot v) :
    (v.map Flt.fin).normalise (Flt.sqrt sqrt) = (v.normalise sqrt).map Flt.fin := by
  have hne := sqrt_ne_zero_of_pos sqrt hsqrt hv
  simp only [Vector3D.normalise, Vector3D.map_fin_dot, Flt.sqrt_fin sqrt hv.le]
  simp only [Vector3D.map, Flt.fin_div_fin _ hne]

/-- The normalisation of a vector of non-zero length has unit length. -/
theorem Vector3D.normalise_dot_self (sqrt : K → K)
    (hsqrt : ∀ x : K, 0 ≤ x → 0 ≤ sqrt x ∧ sqrt x * sqrt x = x) (v : Vector3D K)
    (hv : 0 < v.dot v) :
    (v.normalise sqrt).dot (v.normalise sqrt) = 1 := by
  have hne := sqrt_ne_zero_of_pos sqrt hsqrt hv
  have hsq := (hsqrt _ hv.le).2
  have : (v.normalise sqrt).dot (v.normalise sqrt)
      = v.dot v / (sqrt (v.dot v) * sqrt (v.dot v)) := by
    simp only [Vector3D.normalise, Vector3D.dot]
    field_simp
  rw [this, hsq, div_self hv.ne.symm]

/-- The pixel sizes `Camera::init` stores, for a finite view plane of non-zero resolution. -/
theorem Camera.init_pixelSize (cam : Camera K) (pos : Point3D (Flt K)) (rx ry : Int)
    (hw hh d : K) {u : Bool}
    (hvp : cam.m_viewPlane = ⟨rx, ry, Flt.fin hw, Flt.fin hh, Flt.fin d, u⟩)
    (hrx : rx ≠ 0) (hry : ry ≠ 0) :
    (cam.init pos).m_pixelWidth = Flt.fin (2 * hw / rx)
    ∧ (cam.init pos).m_pixelHeight = Flt.fin (2 * hh / ry) := by
  have hx : (rx : K) ≠ 0 := Int.cast_ne_zero.mpr hrx
  have hy : (ry : K) ≠ 0 := Int.cast_ne_zero.mpr hry
  simp only [Camera.init, hvp, Flt.ofInt, Flt.fin_mul_fin, Flt.fin_div_fin _ hx,
    Flt.fin_div_fin _ hy, mul_comm hw 2, mul_comm hh 2, and_self]

/-- The ray direction through a pixel, for a finite view plane of non-zero resolution and
non-zero distance, in the arithmetic of `K`. -/
theorem Camera.getRayDirectionThroughPixel_finite (sqrt : K → K)
    (hsqrt : ∀ x : K, 0 ≤ x → 0 ≤ sqrt x ∧ sqrt x * sqrt x = x)
    (cam : Camera K) (pos : Point3D (Flt K)) (rx ry : Int) (hw hh d : K)
    {u : Bool}
    (hvp : cam.m_viewPlane = ⟨rx, ry, Flt.fin hw, Flt.fin hh, Flt.fin d, u⟩)
    (hrx : rx ≠ 0) (hry : ry ≠ 0) (hd : d ≠ 0) (i j : Int) :
    (cam.init pos).getRayDirectionThroughPixel sqrt i j
      = (Vector3D.normalise sqrt
          ⟨(i : K) * (2 * hw / rx) - hw, (j : K) * (2 * hh / ry) - hh, d⟩).map Flt.fin := by
  have hp := Camera.init_pixelSize cam pos rx ry hw hh d hvp hrx hry
  have hv : (cam.init pos).m_viewPlane = ⟨rx, ry, Flt.fin hw, Flt.fin hh, Flt.fin d, u⟩ :=
    hvp
  have hpos : 0 < Vector3D.dot
      (⟨(i : K) * (2 * hw / rx) - hw, (j : K) * (2 * hh / ry) - hh, d⟩ : Vector3D K)
      ⟨(i : K) * (2 * hw / rx) - hw, (j : K) * (2 * hh / ry) - hh, d⟩ := by
    simp only [Vector3D.dot]
    have := mul_self_pos.mpr hd
    nlinarith [mul_self_nonneg ((i : K) * (2 * hw / rx) - hw),
      mul_self_nonneg ((j : K) * (2 * hh / ry) - hh)]
  rw [← Vector3D.normalise_map_fin sqrt hsqrt _ hpos]
  simp only [Camera.getRayDirectionThroughPixel, hp.1, hp.2, hv, Flt.ofInt, Flt.fin_mul_fin,
    Flt.fin_sub_fin, Vector3D.map]

end cameraLemmas

section restoration

variable {K : Type} [LinearOrderedField K]

@[simp] theorem Matrix3D.map_fin_mulPoint (A : Matrix3D K) (p : Point3D K) :
    (A.map Flt.fin).mulPoint (p.map Flt.fin) = (A.mulPoint p).map Flt.fin := by
  simp [Matrix3D.mulPoint, Matrix3D.map, Point3D.map]

@[simp] theorem Matrix3D.map_fin_mulVector (A : Matrix3D K) (v : Vector3D K) :
    (A.map Flt.fin).mulVector (v.map Flt.fin) = (A.mulVector v).map Flt.fin := by
  simp [Matrix3D.mulVector, Matrix3D.map, Vector3D.map]

/-- The inverse of a finite matrix with non-zero determinant, in the arithmetic of `K`. -/
theorem Matrix3D.map_fin_inverseTransform (A : Matrix3D K) (hdet : A.det3 ≠ 0) :
    (A.map Flt.fin).inverseTransform (Flt.fin 0) (Flt.fin 1)
      = (A.inverseTransform 0 1).map Flt.fin := by
  have hd : (A.map Flt.fin).det3 = Flt.fin A.det3 := by
    simp [Matrix3D.det3, Matrix3D.map]
  simp only [Matrix3D.inverseTransform, hd]
  simp only [Matrix3D.map, Flt.fin_mul_fin, Flt.fin_sub_fin, Flt.fin_add_fin, Flt.neg_fin,
    Flt.fin_div_fin _ hdet]
  congr 1
  funext r c
  fin_cases r <;> fin_cases c <;> rfl

/-- A point goes back to where it was when the inverse and then the matrix are applied. -/
theorem Matrix3D.mulPoint_inverseTransform (A : Matrix3D K) (hdet : A.det3 ≠ 0)
    (p : Point3D K) : A.mulPoint ((A.inverseTransform 0 1).mulPoint p) = p := by
  have he : A.det3 * A.det3⁻¹ = 1 := mul_inv_cancel₀ hdet
  cases p with
  | mk x y z =>
    simp only [Matrix3D.mulPoint, Matrix3D.inverseTransform, Point3D.mk.injEq, div_eq_mul_inv]
    generalize A.det3⁻¹ = e at he
    simp only [Matrix3D.det3] at he
    refine ⟨?_, ?_, ?_⟩
    · linear_combination (x - A.m 0 3) * he
    · linear_combination (y - A.m 1 3) * he
    · linear_combination (z - A.m 2 3) * he

/-- A vector goes back to what it was when the inverse and then the matrix are applied. -/
theorem Matrix3D.mulVector_inverseTransform (A : Matrix3D K) (hdet : A.det3 ≠ 0)
    (v : Vector3D K) : A.mulVector ((A.inverseTransform 0 1).mulVector v) = v := by
  have he : A.det3 * A.det3⁻¹ = 1 := mul_inv_cancel₀ hdet
  cases v with
  | mk x y z =>
    simp only [Matrix3D.mulVector, Matrix3D.inverseTransform, Vector3D.mk.injEq,
      div_eq_mul_inv]
    generalize A.det3⁻¹ = e at he
    simp only [Matrix3D.det3] at he
    refine ⟨?_, ?_, ?_⟩
    · linear_combination x * he
    · linear_combination y * he
    · linear_combination z * he

/-- An object with finite geometry goes back to what it was when the inverse of a finite
invertible matrix and then the matrix are applied. -/
theorem Object.applyTransformation_inverse (A : Matrix3D K) (hdet : A.det3 ≠ 0)
    (obj : Object K) (hobj : obj.isFinite = true) :
    (obj.applyTransformation ((A.map Flt.fin).inverseTransform (Flt.fin 0) (Flt.fin 1))
      ).applyTransformation (A.map Flt.fin) = obj := by
  rw [Matrix3D.map_fin_inverseTransform A hdet]
  cases obj with
  | plane p =>
      simp only [Object.isFinite, Bool.and_eq_true] at hobj
      obtain ⟨c, hc⟩ := Point3D.point_eq_map_fin hobj.1.1.1
      obtain ⟨n, hn⟩ := Vector3D.vector_eq_map_fin hobj.1.1.2
      obtain ⟨w, hw⟩ := Vector3D.vector_eq_map_fin hobj.1.2
      obtain ⟨h, hh⟩ := Vector3D.vector_eq_map_fin hobj.2
      cases p
      simp only at hc hn hw hh
      subst hc hn hw hh
      simp only [Object.applyTransformation, Plane.applyTransformation,
        Matrix3D.map_fin_mulPoint, Matrix3D.map_fin_mulVector,
        Matrix3D.mulPoint_inverseTransform A hdet, Matrix3D.mulVector_inverseTransform A hdet]
  | sphere s =>
      simp only [Object.isFinite] at hobj
      obtain ⟨c, hc⟩ := Point3D.point_eq_map_fin hobj
      cases s
      simp only at hc
      subst hc
      simp only [Object.applyTransformation, Sphere.applyTransformation,
        Matrix3D.map_fin_mulPoint, Matrix3D.mulPoint_inverseTransform A hdet]

end restoration

/-! The sphere and the plane. -/

set_option maxRecDepth 100000 in
/-- C1: in every arithmetic `F` (binary32 and exact arithmetic among them), for every sphere
(centre `c`, squared radius `r2`) and every ray (source `p`, direction `v`), with
`s = c - p`, `tc = dot s v` and `perpDistSq = dot s s - tc * tc` as the code computes them,
`Sphere::getIntersection` reports a hit exactly when `tc > 0` and `perpDistSq < r2`; on a
hit the output distance is `tc - sqrt (r2 - perpDistSq)`, on a miss the output is left as it
was.  The ray from `(0, 0, -5)` along `(0, 0, 1)` hits the sphere of radius 1 at the origin
at distance 4 and misses the one centred at `(10, 0, 0)`, in binary32 and in exact
arithmetic. -/
theorem Sphere.getIntersection_spec :
    (∀ (F : Type) [Add F] [Sub F] [Mul F] [LT F] [∀ a b : F, Decidable (a < b)] [OfNat F 0]
        (sqrt : F → F) (s : Sphere F) (p : Point3D F) (v : Vector3D F) (d0 : F),
        Sphere.getIntersection sqrt s p v d0
          = if (s.m_centre.sub p).dot v > 0
                ∧ (s.m_centre.sub p).dot (s.m_centre.sub p)
                    - (s.m_centre.sub p).dot v * (s.m_centre.sub p).dot v < s.m_radius2 then
              (true, (s.m_centre.sub p).dot v - sqrt (s.m_radius2 -
                ((s.m_centre.sub p).dot (s.m_centre.sub p)
                  - (s.m_centre.sub p).dot v * (s.m_centre.sub p).dot v)))
            else (false, d0))
    ∧ (∀ d0 : F32,
        Sphere.getIntersection F32.sqrt (Sphere.new ⟨0, 0, 0⟩ 1) ⟨0, 0, -5⟩ ⟨0, 0, 1⟩ d0
          = (true, 4))
    ∧ (∀ d0 : F32,
        Sphere.getIntersection F32.sqrt (Sphere.new ⟨10, 0, 0⟩ 1) ⟨0, 0, -5⟩ ⟨0, 0, 1⟩ d0
          = (false, d0))
    ∧ (∀ d0 : Flt ℝ,
        Sphere.getIntersection (Flt.sqrt Real.sqrt)
            (Sphere.new ⟨Flt.fin 0, Flt.fin 0, Flt.fin 0⟩ (Flt.fin 1))
            ⟨Flt.fin 0, Flt.fin 0, Flt.fin (-5)⟩ ⟨Flt.fin 0, Flt.fin 0, Flt.fin 1⟩ d0
          = (true, Flt.fin 4))
    ∧ (∀ d0 : Flt ℝ,
        Sphere.getIntersection (Flt.sqrt Real.sqrt)
            (Sphere.new ⟨Flt.fin 10, Flt.fin 0, Flt.fin 0⟩ (Flt.fin 1))
            ⟨Flt.fin 0, Flt.fin 0, Flt.fin (-5)⟩ ⟨Flt.fin 0, Flt.fin 0, Flt.fin 1⟩ d0
          = (false, d0)) := by
  refine ⟨?_, ?_, ?_, ?_, ?_⟩
  · intro F _ _ _ _ _ _ sqrt s p v d0
    simp only [Sphere.getIntersection]
    by_cases h1 : (s.m_centre.sub p).dot v > 0
    · by_cases h2 : (s.m_centre.sub p).dot (s.m_centre.sub p)
          - (s.m_centre.sub p).dot v * (s.m_centre.sub p).dot v < s.m_radius2
      · rw [if_pos h1, if_pos h2, if_pos ⟨h1, h2⟩]
      · rw [if_pos h1, if_neg h2, if_neg (fun h => h2 h.2)]
    · rw [if_neg h1, if_neg (fun h => h1 h.1)]
  · intro d0
    simp only [Sphere.getIntersection]
    rw [if_pos (by decide), if_pos (by decide)]
    decide
  · intro d0
    simp only [Sphere.getIntersection]
    rw [if_pos (by decide), if_neg (by decide)]
  · intro d0
    have := Sphere.getIntersection_sphere_finite Real.sqrt Colour.objectDefault ⟨0, 0, 0⟩
      ⟨0, 0, -5⟩ ⟨0, 0, 1⟩ 1 d0
    simp only [Point3D.map, Vector3D.map] at this
    simp only [Sphere.new, Flt.fin_mul_fin, mul_one]
    rw [this]
    norm_num [Point3D.sub, Vector3D.dot]
  · intro d0
    have := Sphere.getIntersection_sphere_finite Real.sqrt Colour.objectDefault ⟨10, 0, 0⟩
      ⟨0, 0, -5⟩ ⟨0, 0, 1⟩ 1 d0
    simp only [Point3D.map, Vector3D.map] at this
    simp only [Sphere.new, Flt.fin_mul_fin, mul_one]
    rw [this]
    norm_num [Point3D.sub, Vector3D.dot]

/-- C2: for every plane, bounded or not, and every ray whose direction is parallel to the
plane (`dot rayDir normal == 0`), `Plane::getIntersection` reports no intersection.  The
division by zero gives an infinity or NaN, which fails the bounds test, so the value is
never a hit distance.  This holds for all member and ray values, finite or not. -/
theorem Plane.getIntersection_parallel {K : Type} [LinearOrderedField K] (p : Plane (Flt K))
    (raySrc : Point3D (Flt K)) (rayDir : Vector3D (Flt K)) (d0 : Flt K)
    (hpar : rayDir.dot p.m_normal = Flt.fin 0) :
    (p.getIntersection raySrc rayDir d0).1 = false :=
  Plane.miss_of_parallel p raySrc rayDir d0 hpar

/-- The plane normal `(0, 1, 0)` and the ray direction `(1, 0, 0)` of the parallel-ray
test. -/
theorem Plane.getIntersection_parallel_witness :
    (Vector3D.dot (⟨Flt.fin 1, Flt.fin 0, Flt.fin 0⟩ : Vector3D (Flt ℚ))
        (⟨Flt.fin 0, Flt.fin 1, Flt.fin 0⟩ : Vector3D (Flt ℚ)) = Flt.fin 0)
    ∧ (Plane.getIntersection
        (⟨Colour.objectDefault, ⟨Flt.fin 0, Flt.fin 0, Flt.fin 0⟩,
          ⟨Flt.fin 0, Flt.fin 1, Flt.fin 0⟩, ⟨Flt.fin 1, Flt.fin 0, Flt.fin 0⟩,
          ⟨Flt.fin 0, Flt.fin 0, Flt.fin 1⟩, Flt.fin 1, Flt.fin 1, true, Flt.fin 2⟩ : Plane (Flt ℚ))
        ⟨Flt.fin 0, Flt.fin 5, Flt.fin 0⟩ ⟨Flt.fin 1, Flt.fin 0, Flt.fin 0⟩ Flt.nan).1
      = false :=
  ⟨by simp [Vector3D.dot], Plane.getIntersection_parallel _ _ _ _ (by simp [Vector3D.dot])⟩

/-- C3, as the code behaves: the 2 × 2 plane through the origin with normal `(0, 0, 1)` and
up vector `(0, 1, 0)`, and the ray from `(0, 0, 1)` along `(0, 0, 1)`, which points away
from the plane.  The solution is `t = -1`, behind the ray source, and
`Plane::getIntersection` reports a hit at distance `-1`: there is no test of the sign of
`t`. -/
theorem Plane.getIntersection_behind :
    ∀ (hd0 d0 : Flt ℝ),
      (Plane.new (Flt.sqrt Real.sqrt) ⟨Flt.fin 0, Flt.fin 0, Flt.fin 0⟩ ⟨Flt.fin 0, Flt.fin 0, Flt.fin 1⟩
          ⟨Flt.fin 0, Flt.fin 1, Flt.fin 0⟩ (Flt.fin 2) (Flt.fin 2) hd0).getIntersection
        ⟨Flt.fin 0, Flt.fin 0, Flt.fin 1⟩ ⟨Flt.fin 0, Flt.fin 0, Flt.fin 1⟩ d0
      = (true, Flt.fin (-1)) := by
  intro hd0 d0
  have hP : Plane.new (Flt.sqrt Real.sqrt) ⟨Flt.fin 0, Flt.fin 0, Flt.fin 0⟩
      ⟨Flt.fin 0, Flt.fin 0, Flt.fin 1⟩ ⟨Flt.fin 0, Flt.fin 1, Flt.fin 0⟩ (Flt.fin 2) (Flt.fin 2)
      hd0 = ⟨Colour.objectDefault, Point3D.map Flt.fin ⟨0, 0, 0⟩, Vector3D.map Flt.fin ⟨0, 0, 1⟩,
        Vector3D.map Flt.fin ⟨1, 0, 0⟩, Vector3D.map Flt.fin ⟨0, 1, 0⟩, Flt.fin 1, Flt.fin 1,
        true, Flt.fin (Real.sqrt 2)⟩ := by
    simp only [Plane.new, Flt.ofNat_zero, Flt.ofNat_one, Flt.ofNat_two]
    norm_num [Vector3D.normalise, Vector3D.dot, Vector3D.cross, Flt.fin_div_fin_eq,
      Flt.sqrt_fin_eq, Point3D.map, Vector3D.map]
  rw [hP]
  have := Plane.getIntersection_plane_finite Colour.objectDefault (⟨0, 0, 0⟩ : Point3D ℝ) ⟨0, 0, 1⟩
    ⟨1, 0, 0⟩ ⟨0, 1, 0⟩ 1 1 true (Flt.fin (Real.sqrt 2)) ⟨0, 0, 1⟩ ⟨0, 0, 1⟩ d0
    (by norm_num [Vector3D.dot])
  simp only [Point3D.map, Vector3D.map] at this ⊢
  rw [this]
  norm_num [Vector3D.dot, Point3D.sub, Point3D.addVec, Vector3D.scale]

/-- C4, as the code behaves: a plane constructed with width `w ≤ 0` or height `h ≤ 0` (an
unbounded plane) is never reported as hit, whatever the ray: `Plane::getIntersection`
applies the bounds test to every plane, and no value lies strictly between `half` and
`-half` when `half ≤ 0`. -/
theorem Plane.getIntersection_unbounded {K : Type} [LinearOrderedField K] (sqrt : K → K)
    (centrePoint : Point3D (Flt K)) (n up : Vector3D (Flt K)) (w h : K) (hd0 : Flt K)
    (raySrc : Point3D (Flt K)) (rayDir : Vector3D (Flt K)) (d0 : Flt K)
    (hwh : w ≤ 0 ∨ h ≤ 0) :
    ((Plane.new (Flt.sqrt sqrt) centrePoint n up (Flt.fin w) (Flt.fin h) hd0).getIntersection
      raySrc rayDir d0).1 = false := by
  have h2 : (2 : K) ≠ 0 := two_ne_zero
  rcases hwh with hw | hh
  · refine Plane.getIntersection_of_halfWidth_nonpos _ _ _ _ ?_ (?_ : w / 2 ≤ 0)
    · rw [Plane.new_halfWidth, Flt.fin_div_fin _ h2]
    · linarith
  · refine Plane.getIntersection_of_halfHeight_nonpos _ _ _ _ ?_ (?_ : h / 2 ≤ 0)
    · rw [Plane.new_halfHeight, Flt.fin_div_fin _ h2]
    · linarith

/-- The unbounded plane `z = 5` (width and height 0) and the ray from the origin along
`(0, 0, 1)`, which meets it at `t = 5`: reported as a miss. -/
theorem Plane.getIntersection_unbounded_witness :
    ((0 : ℝ) ≤ 0 ∨ (0 : ℝ) ≤ 0)
    ∧ ((Plane.new (Flt.sqrt Real.sqrt) ⟨Flt.fin 0, Flt.fin 0, Flt.fin 5⟩
          ⟨Flt.fin 0, Flt.fin 0, Flt.fin 1⟩ ⟨Flt.fin 0, Flt.fin 1, Flt.fin 0⟩ (Flt.fin 0)
          (Flt.fin 0) (Flt.fin 0)).getIntersection
        ⟨Flt.fin 0, Flt.fin 0, Flt.fin 0⟩ ⟨Flt.fin 0, Flt.fin 0, Flt.fin 1⟩ Flt.nan).1 = false :=
  ⟨Or.inl le_rfl, Plane.getIntersection_unbounded Real.sqrt _ _ _ 0 0 _ _ _ _ (Or.inl le_rfl)⟩

section binary32

/-- No binary32 value is less than itself. -/
theorem F32.not_lt_self (a : F32) : ¬ a < a := by
  show ¬ F32.blt a a = true
  cases a with
  | fin s m e => simp [F32.blt]
  | inf s => cases s <;> simp [F32.blt]
  | nan => simp [F32.blt]

/-- The order of binary32 values is asymmetric. -/
theorem F32.not_lt_of_lt {a b : F32} (h : a < b) : ¬ b < a := by
  have h1 : F32.blt a b = true := h
  show ¬ F32.blt b a = true
  cases a with
  | fin s1 m1 e1 =>
      cases b with
      | fin s2 m2 e2 =>
          simp only [F32.blt, decide_eq_true_eq] at h1 ⊢
          rw [min_comm e2 e1]
          exact not_lt.mpr (le_of_lt h1)
      | inf s => cases s <;> simp_all [F32.blt]
      | nan => simp_all [F32.blt]
  | inf s1 =>
      cases b with
      | fin s2 m2 e2 => cases s1 <;> simp_all [F32.blt]
      | inf s2 => cases s1 <;> cases s2 <;> simp_all [F32.blt]
      | nan => simp_all [F32.blt]
  | nan => simp_all [F32.blt]

end binary32

set_option maxRecDepth 100000 in
/-- C5: in every arithmetic `F`, for every plane (bounded or not) and every ray,
`Plane::getIntersection` reports a hit exactly when the intersection point
`q = raySrc + t * rayDir` that the code computes satisfies
`-halfWidth < dot (q - centre) widthDirection < halfWidth` and
`-halfHeight < dot (q - centre) heightDirection < halfHeight`, all four strictly, with the
projections as the code computes them.  In binary32 a projection equal to `±half` or beyond
it, on either axis, is a miss.  Three binary32 rays at 2 × 2 planes: the ray at the centre
hits, the ray whose projection equals `halfWidth = 1` misses, and the ray along `(3, 0, 1)`
from `(2 ^ 26, 0, 0)` hits the plane centred at `(2 ^ 26, 0, 1)`: the computed projection
is `0`, since `2 ^ 26 + 3` rounds to `2 ^ 26`, while the exact one is `3`. -/
theorem Plane.getIntersection_within_bounds :
    (∀ (F : Type) [Add F] [Sub F] [Mul F] [Div F] [Neg F] [LT F]
        [∀ a b : F, Decidable (a < b)] (p : Plane F) (raySrc : Point3D F)
        (rayDir : Vector3D F) (d0 : F),
        ((p.getIntersection raySrc rayDir d0).1 = true
          ↔ (((raySrc.addVec (rayDir.scale ((p.m_centre.sub raySrc).dot p.m_normal
                  / rayDir.dot p.m_normal))).sub p.m_centre).dot p.m_widthDirection
                < p.m_halfWidth
              ∧ ((raySrc.addVec (rayDir.scale ((p.m_centre.sub raySrc).dot p.m_normal
                  / rayDir.dot p.m_normal))).sub p.m_centre).dot p.m_widthDirection
                > -p.m_halfWidth
              ∧ ((raySrc.addVec (rayDir.scale ((p.m_centre.sub raySrc).dot p.m_normal
                  / rayDir.dot p.m_normal))).sub p.m_centre).dot p.m_heightDirection
                < p.m_halfHeight
              ∧ ((raySrc.addVec (rayDir.scale ((p.m_centre.sub raySrc).dot p.m_normal
                  / rayDir.dot p.m_normal))).sub p.m_centre).dot p.m_heightDirection
                > -p.m_halfHeight)))
    ∧ (∀ (p : Plane F32) (raySrc : Point3D F32) (rayDir : Vector3D F32) (d0 : F32),
        (((raySrc.addVec (rayDir.scale ((p.m_centre.sub raySrc).dot p.m_normal
              / rayDir.dot p.m_normal))).sub p.m_centre).dot p.m_widthDirection
            = p.m_halfWidth
          ∨ p.m_halfWidth < ((raySrc.addVec (rayDir.scale
              ((p.m_centre.sub raySrc).dot p.m_normal
                / rayDir.dot p.m_normal))).sub p.m_centre).dot p.m_widthDirection
          ∨ ((raySrc.addVec (rayDir.scale ((p.m_centre.sub raySrc).dot p.m_normal
              / rayDir.dot p.m_normal))).sub p.m_centre).dot p.m_widthDirection
            = -p.m_halfWidth
          ∨ ((raySrc.addVec (rayDir.scale ((p.m_centre.sub raySrc).dot p.m_normal
              / rayDir.dot p.m_normal))).sub p.m_centre).dot p.m_widthDirection
            < -p.m_halfWidth
          ∨ ((raySrc.addVec (rayDir.scale ((p.m_centre.sub raySrc).dot p.m_normal
              / rayDir.dot p.m_normal))).sub p.m_centre).dot p.m_heightDirection
            = p.m_halfHeight
          ∨ p.m_halfHeight < ((raySrc.addVec (rayDir.scale
              ((p.m_centre.sub raySrc).dot p.m_normal
                / rayDir.dot p.m_normal))).sub p.m_centre).dot p.m_heightDirection
          ∨ ((raySrc.addVec (rayDir.scale ((p.m_centre.sub raySrc).dot p.m_normal
              / rayDir.dot p.m_normal))).sub p.m_centre).dot p.m_heightDirection
            = -p.m_halfHeight
          ∨ ((raySrc.addVec (rayDir.scale ((p.m_centre.sub raySrc).dot p.m_normal
              / rayDir.dot p.m_normal))).sub p.m_centre).dot p.m_heightDirection
            < -p.m_halfHeight) →
        (p.getIntersection raySrc rayDir d0).1 = false)
    ∧ Plane.getIntersection (Plane.new F32.sqrt ⟨0, 0, 5⟩ ⟨0, 0, 1⟩ ⟨0, 1, 0⟩ 2 2 F32.nan)
        ⟨0, 0, 0⟩ ⟨0, 0, 1⟩ F32.nan = (true, 5)
    ∧ Plane.getIntersection (Plane.new F32.sqrt ⟨0, 0, 5⟩ ⟨0, 0, 1⟩ ⟨0, 1, 0⟩ 2 2 F32.nan)
        ⟨1, 0, 0⟩ ⟨0, 0, 1⟩ F32.nan = (false, 5)
    ∧ Plane.getIntersection
        (Plane.new F32.sqrt ⟨67108864, 0, 1⟩ ⟨0, 0, 1⟩ ⟨0, 1, 0⟩ 2 2 F32.nan)
        ⟨67108864, 0, 0⟩ ⟨3, 0, 1⟩ F32.nan = (true, 1) := by
  have key : ∀ (F : Type) [Add F] [Sub F] [Mul F] [Div F] [Neg F] [LT F]
      [∀ a b : F, Decidable (a < b)] (p : Plane F) (raySrc : Point3D F)
      (rayDir : Vector3D F) (d0 : F),
      ((p.getIntersection raySrc rayDir d0).1 = true
        ↔ (((raySrc.addVec (rayDir.scale ((p.m_centre.sub raySrc).dot p.m_normal
                / rayDir.dot p.m_normal))).sub p.m_centre).dot p.m_widthDirection
              < p.m_halfWidth
            ∧ ((raySrc.addVec (rayDir.scale ((p.m_centre.sub raySrc).dot p.m_normal
                / rayDir.dot p.m_normal))).sub p.m_centre).dot p.m_widthDirection
              > -p.m_halfWidth
            ∧ ((raySrc.addVec (rayDir.scale ((p.m_centre.sub raySrc).dot p.m_normal
                / rayDir.dot p.m_normal))).sub p.m_centre).dot p.m_heightDirection
              < p.m_halfHeight
            ∧ ((raySrc.addVec (rayDir.scale ((p.m_centre.sub raySrc).dot p.m_normal
                / rayDir.dot p.m_normal))).sub p.m_centre).dot p.m_heightDirection
              > -p.m_halfHeight)) := by
    intro F _ _ _ _ _ _ _ p raySrc rayDir d0
    simp only [Plane.getIntersection]
    split_ifs with h
    · simp only [true_iff]
      exact h
    · simp only [Bool.false_eq_true, false_iff]
      exact h
  refine ⟨key, ?_, by decide, by decide, by decide⟩
  intro p raySrc rayDir d0 h
  cases hb : (p.getIntersection raySrc rayDir d0).1 with
  | false => rfl
  | true =>
      exfalso
      obtain ⟨h1, h2, h3, h4⟩ := (key F32 p raySrc rayDir d0).mp hb
      rcases h with h | h | h | h | h | h | h | h
      · rw [h] at h1
        exact F32.not_lt_self _ h1
      · exact F32.not_lt_of_lt h h1
      · rw [h] at h2
        exact F32.not_lt_self _ h2
      · exact F32.not_lt_of_lt h h2
      · rw [h] at h3
        exact F32.not_lt_self _ h3
      · exact F32.not_lt_of_lt h h3
      · rw [h] at h4
        exact F32.not_lt_self _ h4
      · exact F32.not_lt_of_lt h h4

/-- C6, in exact arithmetic: for every bounded plane with finite members, non-zero normal `n`
and `halfWidth, halfHeight > 0`, and every ray aimed at the centre of the plane along its
normal (`raySrc = centre - k * n`, `rayDir = n`), `Plane::getIntersection` reports a hit and
the output distance is `k`.  The normal need not be of unit length, and `k` need not be
positive. -/
theorem Plane.getIntersection_centre_along_normal {K : Type} [LinearOrderedField K]
    (col : Colour) (c : Point3D K) (n wd hd : Vector3D K) (hw hh : K) (isB : Bool)
    (hdg : Flt K) (k : K) (d0 : Flt K)
    (hn : n ≠ ⟨0, 0, 0⟩) (hw0 : 0 < hw) (hh0 : 0 < hh) :
    Plane.getIntersection
        ⟨col, c.map Flt.fin, n.map Flt.fin, wd.map Flt.fin, hd.map Flt.fin, Flt.fin hw,
          Flt.fin hh, isB, hdg⟩ ((c.subVec (n.scale k)).map Flt.fin) (n.map Flt.fin) d0
      = (true, Flt.fin k) := by
  have hnn : n.dot n ≠ 0 := by
    intro h0
    apply hn
    have hx := sq_nonneg n.x
    have hy := sq_nonneg n.y
    have hz := sq_nonneg n.z
    simp only [Vector3D.dot] at h0
    have hx0 : n.x = 0 := by nlinarith
    have hy0 : n.y = 0 := by nlinarith
    have hz0 : n.z = 0 := by nlinarith
    cases n
    simp_all
  rw [Plane.getIntersection_plane_finite col c n wd hd hw hh isB hdg _ n d0 hnn]
  have ht : (c.sub (c.subVec (n.scale k))).dot n / n.dot n = k := by
    have : (c.sub (c.subVec (n.scale k))).dot n = k * n.dot n := by
      simp only [Vector3D.dot, Point3D.sub, Point3D.subVec, Vector3D.scale]
      ring
    rw [this, mul_div_assoc, div_self hnn, mul_one]
  rw [ht]
  have hq : ((c.subVec (n.scale k)).addVec (n.scale k)).sub c = ⟨0, 0, 0⟩ := by
    simp [Point3D.sub, Point3D.subVec, Point3D.addVec, Vector3D.scale]
  rw [hq]
  have hz : ∀ v : Vector3D K, Vector3D.dot ⟨0, 0, 0⟩ v = 0 := by
    intro v
    simp [Vector3D.dot]
  rw [hz, hz, if_pos ⟨hw0, by linarith, hh0, by linarith⟩]

/-- The 2 × 4 plane `z = 5` and the ray from the origin along its normal, with `k = 5`. -/
theorem Plane.getIntersection_centre_along_normal_witness :
    ((⟨0, 0, 1⟩ : Vector3D ℚ) ≠ ⟨0, 0, 0⟩) ∧ ((0 : ℚ) < 1) ∧ ((0 : ℚ) < 2)
    ∧ Plane.getIntersection
        (⟨Colour.objectDefault, Point3D.map Flt.fin ⟨0, 0, 5⟩, Vector3D.map Flt.fin ⟨0, 0, 1⟩,
          Vector3D.map Flt.fin ⟨1, 0, 0⟩, Vector3D.map Flt.fin ⟨0, 1, 0⟩, Flt.fin 1, Flt.fin 2,
          true, Flt.fin 3⟩ : Plane (Flt ℚ))
        (((⟨0, 0, 5⟩ : Point3D ℚ).subVec (Vector3D.scale ⟨0, 0, 1⟩ 5)).map Flt.fin)
        (Vector3D.map Flt.fin ⟨0, 0, 1⟩) Flt.nan
      = (true, Flt.fin 5) :=
  ⟨by decide, by norm_num, by norm_num,
    Plane.getIntersection_centre_along_normal _ _ _ _ _ _ _ _ _ 5 _ (by decide) (by norm_num)
      (by norm_num)⟩

/-- C6 in binary32: the normal `n = (0, 0, 1e20)` and `k = 1`.  `dot n n` overflows to `+inf`.
The plane constructed with this normal is bounded and has the normal `(0, 0, 0)`, since
`n / inf = 0`; the ray from `centre - k * n` along `n` is reported as a miss.  The plane
whose member normal is `n` itself is missed as well: the distance is `inf / inf = NaN`. -/
theorem Plane.getIntersection_centre_along_normal_binary32 :
    ((100000000000000000000 : F32) = F32.fin false 11368684 43)
    ∧ (Plane.new F32.sqrt ⟨0, 0, 0⟩ ⟨0, 0, 100000000000000000000⟩ ⟨0, 1, 0⟩ 2 2
        F32.nan).m_isBounded = true
    ∧ (Plane.getIntersection
        (Plane.new F32.sqrt ⟨0, 0, 0⟩ ⟨0, 0, 100000000000000000000⟩ ⟨0, 1, 0⟩ 2 2 F32.nan)
        (Point3D.subVec ⟨0, 0, 0⟩ (Vector3D.scale ⟨0, 0, 100000000000000000000⟩ 1))
        ⟨0, 0, 100000000000000000000⟩ F32.nan).1 = false
    ∧ (Plane.getIntersection
        (⟨Colour.objectDefault, ⟨0, 0, 0⟩, ⟨0, 0, 100000000000000000000⟩, ⟨1, 0, 0⟩, ⟨0, 1, 0⟩,
          1, 1, true, F32.sqrt 2⟩ : Plane F32)
        (Point3D.subVec ⟨0, 0, 0⟩ (Vector3D.scale ⟨0, 0, 100000000000000000000⟩ 1))
        ⟨0, 0, 100000000000000000000⟩ F32.nan) = (false, F32.nan) := by
  refine ⟨by decide, by decide, by decide, by decide⟩

/-- C8: for every camera initialised with positive resolution and positive view-plane
distance (finite half extents of any sign) and all pixel indices `i`, `j` (in range or
not), `getRayDirectionThroughPixel (i, j)` returns a finite vector of unit length,
`x * x + y * y + z * z = 1`, in exact arithmetic. -/
theorem Camera.getRayDirectionThroughPixel_unit {K : Type} [LinearOrderedField K]
    (sqrt : K → K)
    (hsqrt : ∀ x : K, 0 ≤ x → 0 ≤ sqrt x ∧ sqrt x * sqrt x = x)
    (cam : Camera K) (pos : Point3D (Flt K)) (rx ry : Int) (hw hh d : K)
    {u : Bool}
    (hvp : cam.m_viewPlane = ⟨rx, ry, Flt.fin hw, Flt.fin hh, Flt.fin d, u⟩)
    (hrx : 0 < rx) (hry : 0 < ry) (hd : 0 < d) (i j : Int) :
    ∃ x y z : K,
      (cam.init pos).getRayDirectionThroughPixel sqrt i j = ⟨Flt.fin x, Flt.fin y, Flt.fin z⟩
      ∧ x * x + y * y + z * z = 1 := by
  rw [Camera.getRayDirectionThroughPixel_finite sqrt hsqrt cam pos rx ry hw hh d hvp hrx.ne.symm
    hry.ne.symm hd.ne.symm]
  refine ⟨_, _, _, rfl, ?_⟩
  have hpos : 0 < Vector3D.dot
      (⟨(i : K) * (2 * hw / rx) - hw, (j : K) * (2 * hh / ry) - hh, d⟩ : Vector3D K)
      ⟨(i : K) * (2 * hw / rx) - hw, (j : K) * (2 * hh / ry) - hh, d⟩ := by
    simp only [Vector3D.dot]
    have := mul_self_pos.mpr hd.ne.symm
    nlinarith [mul_self_nonneg ((i : K) * (2 * hw / rx) - hw),
      mul_self_nonneg ((j : K) * (2 * hh / ry) - hh)]
  exact Vector3D.normalise_dot_self sqrt hsqrt _ hpos

/-- The camera with a 4 × 4 view plane of half extents 3 at distance 1, and the pixel
`(1, 2)`. -/
theorem Camera.getRayDirectionThroughPixel_unit_witness :
    (∀ x : ℝ, 0 ≤ x → 0 ≤ Real.sqrt x ∧ Real.sqrt x * Real.sqrt x = x)
    ∧ (Camera.new (⟨4, 4, Flt.fin 3, Flt.fin 3, Flt.fin 1, true⟩ : ViewPlane ℝ)).m_viewPlane
        = ⟨4, 4, Flt.fin 3, Flt.fin 3, Flt.fin 1, true⟩
    ∧ (0 : Int) < 4 ∧ (0 : Int) < 4 ∧ (0 : ℝ) < 1
    ∧ ∃ x y z : ℝ,
        ((Camera.new (⟨4, 4, Flt.fin 3, Flt.fin 3, Flt.fin 1, true⟩ : ViewPlane ℝ)).init
            ⟨Flt.fin 0, Flt.fin 0, Flt.fin 0⟩).getRayDirectionThroughPixel Real.sqrt 1 2
          = ⟨Flt.fin x, Flt.fin y, Flt.fin z⟩
        ∧ x * x + y * y + z * z = 1 :=
  ⟨fun x hx => ⟨Real.sqrt_nonneg x, Real.mul_self_sqrt hx⟩, rfl, by decide, by decide,
    by norm_num,
    Camera.getRayDirectionThroughPixel_unit Real.sqrt
      (fun x hx => ⟨Real.sqrt_nonneg x, Real.mul_self_sqrt hx⟩) _ _ 4 4 3 3 1 rfl (by decide)
      (by decide) (by norm_num) 1 2⟩

/-- C10, restoration: for every list of objects with finite geometry and every camera state
whose camera-to-world transform for the pass (the one `updateWorldTransform` computes when
the dirty flag is set, the cached one otherwise) has finite entries and an invertible
linear part, the objects after `updatePixelBuffer` equal the objects before it, whether the
call succeeds or fails (the pixel buffer was never initialised). -/
theorem Camera.updatePixelBuffer_restores {K : Type} [LinearOrderedField K] [FloorRing K]
    (sqrt : K → K) (cam : Camera K) (objects : List (Object K)) (A : Matrix3D K)
    (hM : (if cam.m_worldTransformChanged then cam.updateWorldTransform
        else cam).m_cameraToWorldTransform = A.map Flt.fin)
    (hdet : A.det3 ≠ 0)
    (hobj : ∀ obj ∈ objects, obj.isFinite = true) :
    (cam.updatePixelBuffer sqrt objects).2.2 = objects := by
  have hround : List.map (fun obj : Object K =>
      (obj.applyTransformation ((A.map Flt.fin).inverseTransform (Flt.fin 0) (Flt.fin 1))
        ).applyTransformation (A.map Flt.fin)) objects = objects := by
    conv_rhs => rw [← List.map_id objects]
    apply List.map_congr_left
    intro obj hmem
    exact Object.applyTransformation_inverse A hdet obj (hobj obj hmem)
  unfold Camera.updatePixelBuffer
  by_cases hinit : cam.m_pixelBuf.isInitialised = true
  · by_cases hc : cam.m_worldTransformChanged = true
    · simp only [hc, if_true] at hM
      simp only [Camera.updateWorldTransform] at hM
      simp only [hinit, hc, if_true, List.map_map, Camera.updateWorldTransform, hM]
      exact hround
    · have hc2 : cam.m_worldTransformChanged = false := by simpa using hc
      simp only [hc2, Bool.false_eq_true, if_false] at hM
      simp only [hinit, hc2, Bool.false_eq_true, if_true, if_false, List.map_map, hM]
      exact hround
  · simp only [hinit]
    rfl

/-- A camera initialised at `(1, 2, 3)`, whose first pass computes the transform with
`updateWorldTransform`, a sphere and an unbounded plane. -/
theorem Camera.updatePixelBuffer_restores_witness :
    ((if ((Camera.new (⟨4, 4, Flt.fin 3, Flt.fin 3, Flt.fin 1, true⟩ : ViewPlane ℝ)).init
            ⟨Flt.fin 1, Flt.fin 2, Flt.fin 3⟩).m_worldTransformChanged
        then ((Camera.new (⟨4, 4, Flt.fin 3, Flt.fin 3, Flt.fin 1, true⟩ : ViewPlane ℝ)).init
            ⟨Flt.fin 1, Flt.fin 2, Flt.fin 3⟩).updateWorldTransform
        else ((Camera.new (⟨4, 4, Flt.fin 3, Flt.fin 3, Flt.fin 1, true⟩ : ViewPlane ℝ)).init
            ⟨Flt.fin 1, Flt.fin 2, Flt.fin 3⟩)).m_cameraToWorldTransform
      = Matrix3D.map Flt.fin
          (((((Matrix3D.identity 0 1).set 0 3 1).set 1 3 2).set 2 3 3).set 2 2 (-1)))
    ∧ Matrix3D.det3
        (((((Matrix3D.identity (0 : ℝ) 1).set 0 3 1).set 1 3 2).set 2 3 3).set 2 2 (-1)) ≠ 0
    ∧ (∀ obj ∈ [Object.sphere (Sphere.new ⟨Flt.fin 0, Flt.fin 0, Flt.fin (-5)⟩ (Flt.fin 1)),
          Object.plane (Plane.new (Flt.sqrt Real.sqrt) ⟨Flt.fin 0, Flt.fin (-2), Flt.fin 0⟩
            ⟨Flt.fin 0, Flt.fin 1, Flt.fin 0⟩ ⟨Flt.fin 0, Flt.fin 0, Flt.fin 1⟩ (Flt.fin 0)
            (Flt.fin 0) (Flt.fin 0))],
        obj.isFinite = true)
    ∧ (((Camera.new (⟨4, 4, Flt.fin 3, Flt.fin 3, Flt.fin 1, true⟩ : ViewPlane ℝ)).init
          ⟨Flt.fin 1, Flt.fin 2, Flt.fin 3⟩).updatePixelBuffer Real.sqrt
        [Object.sphere (Sphere.new ⟨Flt.fin 0, Flt.fin 0, Flt.fin (-5)⟩ (Flt.fin 1)),
          Object.plane (Plane.new (Flt.sqrt Real.sqrt) ⟨Flt.fin 0, Flt.fin (-2), Flt.fin 0⟩
            ⟨Flt.fin 0, Flt.fin 1, Flt.fin 0⟩ ⟨Flt.fin 0, Flt.fin 0, Flt.fin 1⟩ (Flt.fin 0)
            (Flt.fin 0) (Flt.fin 0))]).2.2
      = [Object.sphere (Sphere.new ⟨Flt.fin 0, Flt.fin 0, Flt.fin (-5)⟩ (Flt.fin 1)),
          Object.plane (Plane.new (Flt.sqrt Real.sqrt) ⟨Flt.fin 0, Flt.fin (-2), Flt.fin 0⟩
            ⟨Flt.fin 0, Flt.fin 1, Flt.fin 0⟩ ⟨Flt.fin 0, Flt.fin 0, Flt.fin 1⟩ (Flt.fin 0)
            (Flt.fin 0) (Flt.fin 0))] :=
  have hM : (if ((Camera.new (⟨4, 4, Flt.fin 3, Flt.fin 3, Flt.fin 1, true⟩ : ViewPlane ℝ)).init
            ⟨Flt.fin 1, Flt.fin 2, Flt.fin 3⟩).m_worldTransformChanged
        then ((Camera.new (⟨4, 4, Flt.fin 3, Flt.fin 3, Flt.fin 1, true⟩ : ViewPlane ℝ)).init
            ⟨Flt.fin 1, Flt.fin 2, Flt.fin 3⟩).updateWorldTransform
        else ((Camera.new (⟨4, 4, Flt.fin 3, Flt.fin 3, Flt.fin 1, true⟩ : ViewPlane ℝ)).init
            ⟨Flt.fin 1, Flt.fin 2, Flt.fin 3⟩)).m_cameraToWorldTransform
      = Matrix3D.map Flt.fin
          (((((Matrix3D.identity 0 1).set 0 3 1).set 1 3 2).set 2 3 3).set 2 2 (-1)) := by
    simp only [Camera.new, Camera.init, Camera.updateWorldTransform, if_true, Matrix3D.map_set,
      Matrix3D.map_identity]
  have hdet : Matrix3D.det3
      (((((Matrix3D.identity (0 : ℝ) 1).set 0 3 1).set 1 3 2).set 2 3 3).set 2 2 (-1)) ≠ 0 := by
    simp [Matrix3D.det3, Matrix3D.set, Matrix3D.identity]
  have hobj : ∀ obj ∈ [Object.sphere (Sphere.new ⟨Flt.fin 0, Flt.fin 0, Flt.fin (-5)⟩ (Flt.fin 1)),
          Object.plane (Plane.new (Flt.sqrt Real.sqrt) ⟨Flt.fin 0, Flt.fin (-2), Flt.fin 0⟩
            ⟨Flt.fin 0, Flt.fin 1, Flt.fin 0⟩ ⟨Flt.fin 0, Flt.fin 0, Flt.fin 1⟩ (Flt.fin 0)
            (Flt.fin 0) (Flt.fin 0))],
        obj.isFinite = true := by
    intro obj hmem
    simp only [List.mem_cons, List.mem_singleton, List.not_mem_nil, or_false] at hmem
    rcases hmem with h | h
    · subst h
      rfl
    · subst h
      simp only [Object.isFinite, Plane.new, Flt.ofNat_zero, Flt.ofNat_one, Flt.ofNat_two]
      norm_num [Vector3D.normalise, Vector3D.dot,
        Flt.fin_div_fin_eq, Flt.sqrt_fin_eq, Point3D.isFinite, Vector3D.isFinite, Flt.isFinite]
  ⟨hM, hdet, hobj, Camera.updatePixelBuffer_restores Real.sqrt _ _ _ hM hdet hobj⟩

/-! The sphere test as a geometric statement, and the plane constructor. -/

section sphereGeometry

variable {K : Type} [LinearOrderedField K]

/-- The squared distance from the centre to the point at parameter `t` of a ray with
unit direction. -/
theorem Sphere.dist_sq_along_ray (c p : Point3D K) (v : Vector3D K) (t : K)
    (hv : v.dot v = 1) :
    ((p.addVec (v.scale t)).sub c).dot ((p.addVec (v.scale t)).sub c)
      = (t - (c.sub p).dot v) * (t - (c.sub p).dot v)
        + ((c.sub p).dot (c.sub p) - (c.sub p).dot v * (c.sub p).dot v) := by
  simp only [Vector3D.dot, Point3D.sub, Point3D.addVec, Vector3D.scale] at hv ⊢
  linear_combination (t * t) * hv

end sphereGeometry

/-- C15 (nearest entry point), in exact arithmetic: for a ray with unit direction whose
source is not strictly inside the sphere (`r² ≤ |c - p|²`), whenever
`Sphere::getIntersection` reports a hit the output is a finite distance `d` with `d ≥ 0`,
the point `p + d v` lies on the surface (`|p + d v - c|² = r²`), and no `t` with
`0 ≤ t < d` gives a point on the surface. -/
theorem Sphere.getIntersection_entry {K : Type} [LinearOrderedField K] (sqrt : K → K)
    (hsqrt : ∀ x : K, 0 ≤ x → 0 ≤ sqrt x ∧ sqrt x * sqrt x = x)
    (col : Colour) (c p : Point3D K) (v : Vector3D K) (r2 : K) (d0 : Flt K)
    (hv : v.dot v = 1) (hout : r2 ≤ (c.sub p).dot (c.sub p))
    (hit : (Sphere.getIntersection (Flt.sqrt sqrt) ⟨col, c.map Flt.fin, Flt.fin r2⟩ (p.map Flt.fin)
        (v.map Flt.fin) d0).1 = true) :
    ∃ d : K,
      (Sphere.getIntersection (Flt.sqrt sqrt) ⟨col, c.map Flt.fin, Flt.fin r2⟩ (p.map Flt.fin)
        (v.map Flt.fin) d0).2 = Flt.fin d
      ∧ 0 ≤ d
      ∧ ((p.addVec (v.scale d)).sub c).dot ((p.addVec (v.scale d)).sub c) = r2
      ∧ ∀ t : K, 0 ≤ t → t < d →
          ((p.addVec (v.scale t)).sub c).dot ((p.addVec (v.scale t)).sub c) ≠ r2 := by
  rw [Sphere.getIntersection_sphere_finite] at hit ⊢
  split_ifs at hit ⊢ with hc
  obtain ⟨htc, hperp⟩ := hc
  set tc := (c.sub p).dot v with htc_def
  set perp := (c.sub p).dot (c.sub p) - tc * tc with hperp_def
  have hpos : 0 ≤ r2 - perp := by linarith
  obtain ⟨hs0, hss⟩ := hsqrt (r2 - perp) hpos
  set q := sqrt (r2 - perp) with hq_def
  have hq_le : q ≤ tc := by
    by_contra hlt
    push_neg at hlt
    nlinarith
  refine ⟨tc - q, rfl, by linarith, ?_, ?_⟩
  · rw [Sphere.dist_sq_along_ray c p v _ hv]
    simp only [← htc_def, ← hperp_def]
    linear_combination hss
  · intro t ht0 htd heq
    rw [Sphere.dist_sq_along_ray c p v _ hv] at heq
    simp only [← htc_def, ← hperp_def] at heq
    have h1 : t - tc < -q := by linarith
    nlinarith

/-- The entry point property for the unit sphere at the origin and the ray from `(0, 0, -5)` along
`(0, 0, 1)`. -/
theorem Sphere.getIntersection_entry_witness :
    (∀ x : ℝ, 0 ≤ x → 0 ≤ Real.sqrt x ∧ Real.sqrt x * Real.sqrt x = x)
    ∧ (Vector3D.dot (⟨0, 0, 1⟩ : Vector3D ℝ) ⟨0, 0, 1⟩ = 1)
    ∧ ((1 : ℝ) ≤ (Point3D.sub (⟨0, 0, 0⟩ : Point3D ℝ) ⟨0, 0, -5⟩).dot
        (Point3D.sub ⟨0, 0, 0⟩ ⟨0, 0, -5⟩))
    ∧ ((Sphere.getIntersection (Flt.sqrt Real.sqrt)
        ⟨Colour.objectDefault, Point3D.map Flt.fin ⟨0, 0, 0⟩, Flt.fin 1⟩
        (Point3D.map Flt.fin ⟨0, 0, -5⟩) (Vector3D.map Flt.fin ⟨0, 0, 1⟩) Flt.nan).1 = true)
    ∧ ∃ d : ℝ,
      (Sphere.getIntersection (Flt.sqrt Real.sqrt)
        ⟨Colour.objectDefault, Point3D.map Flt.fin ⟨0, 0, 0⟩, Flt.fin 1⟩
        (Point3D.map Flt.fin ⟨0, 0, -5⟩) (Vector3D.map Flt.fin ⟨0, 0, 1⟩) Flt.nan).2 = Flt.fin d
      ∧ 0 ≤ d
      ∧ (((⟨0, 0, -5⟩ : Point3D ℝ).addVec (Vector3D.scale ⟨0, 0, 1⟩ d)).sub ⟨0, 0, 0⟩).dot
          (((⟨0, 0, -5⟩ : Point3D ℝ).addVec (Vector3D.scale ⟨0, 0, 1⟩ d)).sub ⟨0, 0, 0⟩) = 1
      ∧ ∀ t : ℝ, 0 ≤ t → t < d →
          (((⟨0, 0, -5⟩ : Point3D ℝ).addVec (Vector3D.scale ⟨0, 0, 1⟩ t)).sub ⟨0, 0, 0⟩).dot
            (((⟨0, 0, -5⟩ : Point3D ℝ).addVec (Vector3D.scale ⟨0, 0, 1⟩ t)).sub ⟨0, 0, 0⟩)
            ≠ 1 :=
  have hsqrt : ∀ x : ℝ, 0 ≤ x → 0 ≤ Real.sqrt x ∧ Real.sqrt x * Real.sqrt x = x :=
    fun x hx => ⟨Real.sqrt_nonneg x, Real.mul_self_sqrt hx⟩
  have hv : Vector3D.dot (⟨0, 0, 1⟩ : Vector3D ℝ) ⟨0, 0, 1⟩ = 1 := by
    norm_num [Vector3D.dot]
  have hout : (1 : ℝ) ≤ (Point3D.sub (⟨0, 0, 0⟩ : Point3D ℝ) ⟨0, 0, -5⟩).dot
      (Point3D.sub ⟨0, 0, 0⟩ ⟨0, 0, -5⟩) := by
    norm_num [Vector3D.dot, Point3D.sub]
  have hit : (Sphere.getIntersection (Flt.sqrt Real.sqrt)
      ⟨Colour.objectDefault, Point3D.map Flt.fin ⟨0, 0, 0⟩, Flt.fin 1⟩
      (Point3D.map Flt.fin ⟨0, 0, -5⟩) (Vector3D.map Flt.fin ⟨0, 0, 1⟩) Flt.nan).1 = true := by
    rw [Sphere.getIntersection_sphere_finite]
    norm_num [Vector3D.dot, Point3D.sub]
  ⟨hsqrt, hv, hout, hit,
    Sphere.getIntersection_entry Real.sqrt hsqrt _ _ _ _ _ _ hv hout hit⟩

/-- C20 (completeness of the sphere test), in exact arithmetic: for a ray with unit direction
whose source is on or outside the sphere (`r² ≤ |c - p|²`), `Sphere::getIntersection`
reports a hit exactly when some `t > 0` gives a point `p + t v` strictly inside the sphere.
A tangent ray, and a ray whose line meets the sphere only behind the source, has no such
`t` and is a miss. -/
theorem Sphere.getIntersection_complete {K : Type} [LinearOrderedField K] (sqrt : K → K)
    (col : Colour) (c p : Point3D K) (v : Vector3D K) (r2 : K) (d0 : Flt K)
    (hv : v.dot v = 1) (hout : r2 ≤ (c.sub p).dot (c.sub p)) :
    (Sphere.getIntersection (Flt.sqrt sqrt) ⟨col, c.map Flt.fin, Flt.fin r2⟩ (p.map Flt.fin)
        (v.map Flt.fin) d0).1 = true
      ↔ ∃ t : K, 0 < t
          ∧ ((p.addVec (v.scale t)).sub c).dot ((p.addVec (v.scale t)).sub c) < r2 := by
  rw [Sphere.getIntersection_sphere_finite]
  constructor
  · intro hit
    split_ifs at hit with hc
    refine ⟨(c.sub p).dot v, hc.1, ?_⟩
    rw [Sphere.dist_sq_along_ray c p v _ hv]
    linarith [hc.2]
  · rintro ⟨t, ht, hlt⟩
    rw [Sphere.dist_sq_along_ray c p v _ hv] at hlt
    have hperp : (c.sub p).dot (c.sub p) - (c.sub p).dot v * (c.sub p).dot v < r2 := by
      nlinarith [mul_self_nonneg (t - (c.sub p).dot v)]
    have htc : 0 < (c.sub p).dot v := by
      by_contra hle
      push_neg at hle
      nlinarith
    rw [if_pos ⟨htc, hperp⟩]

/-- The completeness property for the unit sphere at the origin and the ray from `(0, 0, -5)`
along `(0, 0, 1)`. -/
theorem Sphere.getIntersection_complete_witness :
    (Vector3D.dot (⟨0, 0, 1⟩ : Vector3D ℚ) ⟨0, 0, 1⟩ = 1)
    ∧ ((1 : ℚ) ≤ (Point3D.sub (⟨0, 0, 0⟩ : Point3D ℚ) ⟨0, 0, -5⟩).dot
        (Point3D.sub ⟨0, 0, 0⟩ ⟨0, 0, -5⟩))
    ∧ ((Sphere.getIntersection (Flt.sqrt (fun x : ℚ => x))
          ⟨Colour.objectDefault, Point3D.map Flt.fin ⟨0, 0, 0⟩, Flt.fin 1⟩
          (Point3D.map Flt.fin ⟨0, 0, -5⟩) (Vector3D.map Flt.fin ⟨0, 0, 1⟩) Flt.nan).1 = true
        ↔ ∃ t : ℚ, 0 < t
          ∧ (((⟨0, 0, -5⟩ : Point3D ℚ).addVec (Vector3D.scale ⟨0, 0, 1⟩ t)).sub ⟨0, 0, 0⟩).dot
              (((⟨0, 0, -5⟩ : Point3D ℚ).addVec (Vector3D.scale ⟨0, 0, 1⟩ t)).sub ⟨0, 0, 0⟩)
              < 1) :=
  have hv : Vector3D.dot (⟨0, 0, 1⟩ : Vector3D ℚ) ⟨0, 0, 1⟩ = 1 := by
    norm_num [Vector3D.dot]
  have hout : (1 : ℚ) ≤ (Point3D.sub (⟨0, 0, 0⟩ : Point3D ℚ) ⟨0, 0, -5⟩).dot
      (Point3D.sub ⟨0, 0, 0⟩ ⟨0, 0, -5⟩) := by
    norm_num [Vector3D.dot, Point3D.sub]
  ⟨hv, hout, Sphere.getIntersection_complete _ _ _ _ _ _ _ hv hout⟩

set_option maxRecDepth 100000 in
/-- C15 in binary32: the sphere of radius 0.5 centred at `(1, 0, 5000)` and the ray from the
origin along `(0, 0, 1)`.  The direction has unit length and the source is outside the
sphere.  `dot s s = 25000001` rounds to `25000000 = tc * tc`, so the code computes
`perpDistSq = 0` and reports a hit at distance `4999.5`; the point at that distance is at
squared distance `1.25` from the centre, not `0.25`: it is not on the surface. -/
theorem Sphere.getIntersection_entry_binary32 :
    Sphere.getIntersection F32.sqrt (Sphere.new ⟨1, 0, 5000⟩ (1 / 2)) ⟨0, 0, 0⟩ ⟨0, 0, 1⟩ F32.nan
      = (true, 9999 / 2)
    ∧ (Vector3D.dot (Vector3D.map F32.toRat ⟨0, 0, 1⟩) (Vector3D.map F32.toRat ⟨0, 0, 1⟩) = 1)
    ∧ (F32.toRat ((1 / 2 : F32) * (1 / 2))
        ≤ (Point3D.sub (Point3D.map F32.toRat ⟨1, 0, 5000⟩)
            (Point3D.map F32.toRat ⟨0, 0, 0⟩)).dot
          (Point3D.sub (Point3D.map F32.toRat ⟨1, 0, 5000⟩) (Point3D.map F32.toRat ⟨0, 0, 0⟩)))
    ∧ (((Point3D.addVec (Point3D.map F32.toRat ⟨0, 0, 0⟩)
          (Vector3D.scale (Vector3D.map F32.toRat ⟨0, 0, 1⟩) (F32.toRat (9999 / 2)))).sub
          (Point3D.map F32.toRat ⟨1, 0, 5000⟩)).dot
        ((Point3D.addVec (Point3D.map F32.toRat ⟨0, 0, 0⟩)
          (Vector3D.scale (Vector3D.map F32.toRat ⟨0, 0, 1⟩) (F32.toRat (9999 / 2)))).sub
          (Point3D.map F32.toRat ⟨1, 0, 5000⟩)) = 5 / 4)
    ∧ F32.toRat ((1 / 2 : F32) * (1 / 2)) = 1 / 4 := by
  have h0 : (0 : F32) = F32.fin false 0 0 := by decide
  have h1 : (1 : F32) = F32.fin false 8388608 (-23) := by decide
  have h5000 : (5000 : F32) = F32.fin false 10240000 (-11) := by decide
  have hd : (9999 / 2 : F32) = F32.fin false 10238976 (-11) := by decide
  have hr : ((1 / 2 : F32) * (1 / 2)) = F32.fin false 8388608 (-25) := by decide
  refine ⟨by decide, ?_, ?_, ?_, ?_⟩
  · rw [h0, h1]
    norm_num [Vector3D.dot, Vector3D.map, F32.toRat]
  · rw [hr, h0, h1, h5000]
    norm_num [Vector3D.dot, Point3D.sub, Point3D.map, F32.toRat]
  · rw [hd, h0, h1, h5000]
    norm_num [Vector3D.dot, Vector3D.map, Vector3D.scale, Point3D.addVec, Point3D.sub,
      Point3D.map, F32.toRat]
  · rw [hr]
    norm_num [F32.toRat]

set_option maxRecDepth 100000 in
/-- C20 in binary32: the sphere of radius 0.5 centred at `(1, 0, 5000)` and the ray from the
origin along `(0, 0, 1)`, of unit length, from outside the sphere.  The code reports a hit,
and no point of the ray is strictly inside the sphere: the line passes at distance 1 from
the centre. -/
theorem Sphere.getIntersection_complete_binary32 :
    (Sphere.getIntersection F32.sqrt (Sphere.new ⟨1, 0, 5000⟩ (1 / 2)) ⟨0, 0, 0⟩ ⟨0, 0, 1⟩
        F32.nan).1 = true
    ∧ (Vector3D.dot (Vector3D.map F32.toRat ⟨0, 0, 1⟩) (Vector3D.map F32.toRat ⟨0, 0, 1⟩) = 1)
    ∧ (F32.toRat ((1 / 2 : F32) * (1 / 2))
        ≤ (Point3D.sub (Point3D.map F32.toRat ⟨1, 0, 5000⟩)
            (Point3D.map F32.toRat ⟨0, 0, 0⟩)).dot
          (Point3D.sub (Point3D.map F32.toRat ⟨1, 0, 5000⟩) (Point3D.map F32.toRat ⟨0, 0, 0⟩)))
    ∧ ¬ ∃ t : ℚ, 0 < t
        ∧ ((Point3D.addVec (Point3D.map F32.toRat ⟨0, 0, 0⟩)
              (Vector3D.scale (Vector3D.map F32.toRat ⟨0, 0, 1⟩) t)).sub
              (Point3D.map F32.toRat ⟨1, 0, 5000⟩)).dot
            ((Point3D.addVec (Point3D.map F32.toRat ⟨0, 0, 0⟩)
              (Vector3D.scale (Vector3D.map F32.toRat ⟨0, 0, 1⟩) t)).sub
              (Point3D.map F32.toRat ⟨1, 0, 5000⟩))
          < F32.toRat ((1 / 2 : F32) * (1 / 2)) := by
  have h0 : (0 : F32) = F32.fin false 0 0 := by decide
  have h1 : (1 : F32) = F32.fin false 8388608 (-23) := by decide
  have h5000 : (5000 : F32) = F32.fin false 10240000 (-11) := by decide
  have hr : ((1 / 2 : F32) * (1 / 2)) = F32.fin false 8388608 (-25) := by decide
  refine ⟨by decide, ?_, ?_, ?_⟩
  · rw [h0, h1]
    norm_num [Vector3D.dot, Vector3D.map, F32.toRat]
  · rw [hr, h0, h1, h5000]
    norm_num [Vector3D.dot, Point3D.sub, Point3D.map, F32.toRat]
  · rintro ⟨t, _, ht⟩
    rw [hr, h0, h1, h5000] at ht
    norm_num [Vector3D.dot, Vector3D.map, Vector3D.scale, Point3D.addVec, Point3D.sub,
      Point3D.map, F32.toRat] at ht
    nlinarith [sq_nonneg (t - 5000)]

section planeConstruction

variable {K : Type} [LinearOrderedField K]

/-- A non-zero vector has positive squared length. -/
theorem Vector3D.dot_self_pos {v : Vector3D K} (hv : v ≠ ⟨0, 0, 0⟩) : 0 < v.dot v := by
  have h0 : 0 ≤ v.dot v := by
    simp only [Vector3D.dot]
    nlinarith [mul_self_nonneg v.x, mul_self_nonneg v.y, mul_self_nonneg v.z]
  refine lt_of_le_of_ne h0 (fun h => hv ?_)
  simp only [Vector3D.dot] at h
  have hx : v.x = 0 := by nlinarith [mul_self_nonneg v.x, mul_self_nonneg v.y, mul_self_nonneg v.z]
  have hy : v.y = 0 := by nlinarith [mul_self_nonneg v.x, mul_self_nonneg v.y, mul_self_nonneg v.z]
  have hz : v.z = 0 := by nlinarith [mul_self_nonneg v.x, mul_self_nonneg v.y, mul_self_nonneg v.z]
  obtain ⟨x, y, z⟩ := v
  simp only at hx hy hz
  subst hx hy hz
  rfl

end planeConstruction

/-- C11: `updatePixelBuffer` returns `false` exactly when the pixel buffer is not
initialised; in that case the camera (pixel buffer, cached camera-to-world transform, dirty
flag) and every object come back unchanged; with an initialised buffer it returns `true`. -/
theorem Camera.updatePixelBuffer_failure {K : Type} [LinearOrderedField K] [FloorRing K]
    (sqrt : K → K) (cam : Camera K) (objects : List (Object K)) :
    ((cam.updatePixelBuffer sqrt objects).1 = false ↔ cam.m_pixelBuf.isInitialised = false)
    ∧ (cam.m_pixelBuf.isInitialised = false →
        cam.updatePixelBuffer sqrt objects = (false, cam, objects))
    ∧ (cam.m_pixelBuf.isInitialised = true → (cam.updatePixelBuffer sqrt objects).1 = true) := by
  unfold Camera.updatePixelBuffer
  by_cases hinit : cam.m_pixelBuf.isInitialised = true
  · simp [hinit]
  · simp [hinit]

section pixelLoops

variable {K : Type} [LinearOrderedField K]

theorem Flt.lt_irrefl (a : Flt K) : ¬ a < a := by
  show ¬ Flt.blt a a = true
  cases a <;> simp [Flt.blt]

/-- The hit flag of an intersection test does not depend on the value the output parameter
had before the call. -/
theorem Object.getIntersection_fst (sqrt : K → K) (obj : Object K) (o : Point3D (Flt K))
    (v : Vector3D (Flt K)) (d0 d1 : Flt K) :
    (obj.getIntersection sqrt o v d0).1 = (obj.getIntersection sqrt o v d1).1 := by
  cases obj with
  | plane p => rfl
  | sphere s =>
      simp only [Object.getIntersection, Sphere.getIntersection]
      split_ifs <;> rfl

/-- On a hit the output distance does not depend on the value the output parameter had
before the call. -/
theorem Object.getIntersection_snd (sqrt : K → K) (obj : Object K) (o : Point3D (Flt K))
    (v : Vector3D (Flt K)) (d0 d1 : Flt K) (hit : (obj.getIntersection sqrt o v d0).1 = true) :
    (obj.getIntersection sqrt o v d0).2 = (obj.getIntersection sqrt o v d1).2 := by
  cases obj with
  | plane p => rfl
  | sphere s =>
      simp only [Object.getIntersection, Sphere.getIntersection] at hit ⊢
      split_ifs at hit ⊢
      rfl

theorem ObjectInfo.offer_offer (k : Nat) (hit : Option (Flt K)) (info : ObjectInfo K) :
    ObjectInfo.offer k hit (ObjectInfo.offer k hit info) = ObjectInfo.offer k hit info := by
  cases hit with
  | none => rfl
  | some d =>
      simp only [ObjectInfo.offer]
      by_cases h : d < info.distanceToIntersection
      · simp only [h, if_true, Flt.lt_irrefl, if_false]
      · simp only [h, if_false]

variable [FloorRing K]

/-- The record of each pixel after the body of the pixel loops has run for `(i, j)`. -/
theorem Camera.castRay_cells (sqrt : K → K) (cam : Camera K) (k : Nat) (obj : Object K)
    (i j : Nat) (st : PixelBuffer K × Flt K) (a b : Nat) :
    (Camera.castRay sqrt cam k obj i j st).1.cells a b
      = if a = i ∧ b = j then ObjectInfo.offer k (cam.rayHit sqrt obj i j) (st.1.cells a b)
        else st.1.cells a b := by
  have h1 := Object.getIntersection_fst sqrt obj ⟨Flt.fin 0, Flt.fin 0, Flt.fin 0⟩
    (cam.getRayDirectionThroughPixel sqrt (wrapInt i) (wrapInt j)) st.2 Flt.nan
  by_cases hit : (obj.getIntersection sqrt ⟨Flt.fin 0, Flt.fin 0, Flt.fin 0⟩
      (cam.getRayDirectionThroughPixel sqrt (wrapInt i) (wrapInt j)) st.2).1 = true
  · have h2 := Object.getIntersection_snd sqrt obj ⟨Flt.fin 0, Flt.fin 0, Flt.fin 0⟩
      (cam.getRayDirectionThroughPixel sqrt (wrapInt i) (wrapInt j)) st.2 Flt.nan hit
    have hit2 := hit
    rw [h1] at hit2
    simp only [Camera.castRay, Camera.rayHit, hit, hit2, h2, true_and, if_true,
      ObjectInfo.offer, PixelBuffer.getObjectInfoForPixel, PixelBuffer.setObjectInfoForPixel]
    by_cases hlt : (obj.getIntersection sqrt ⟨Flt.fin 0, Flt.fin 0, Flt.fin 0⟩
        (cam.getRayDirectionThroughPixel sqrt (wrapInt i) (wrapInt j)) Flt.nan).2
          < (st.1.cells i j).distanceToIntersection
    · simp only [hlt, if_true]
      by_cases hab : a = i ∧ b = j
      · obtain ⟨ha, hb⟩ := hab
        subst ha hb
        simp [hlt]
      · simp [hab]
    · simp only [hlt, if_false]
      by_cases hab : a = i ∧ b = j
      · obtain ⟨ha, hb⟩ := hab
        subst ha hb
        simp [hlt]
      · simp [hab]
  · have hf : (obj.getIntersection sqrt ⟨Flt.fin 0, Flt.fin 0, Flt.fin 0⟩
        (cam.getRayDirectionThroughPixel sqrt (wrapInt i) (wrapInt j)) st.2).1 = false := by
      simpa using hit
    have hf2 := hf
    rw [h1] at hf2
    simp [Camera.castRay, Camera.rayHit, hf, hf2, ObjectInfo.offer]

/-- The record of each pixel after the inner pixel loop has run over the rows `js` of the
column `i`. -/
theorem Camera.castRow_cells (sqrt : K → K) (cam : Camera K) (k : Nat) (obj : Object K)
    (i : Nat) (js : List Nat) (st : PixelBuffer K × Flt K) (a b : Nat) :
    (js.foldl (fun st j => Camera.castRay sqrt cam k obj i j st) st).1.cells a b
      = if a = i ∧ b ∈ js then ObjectInfo.offer k (cam.rayHit sqrt obj a b) (st.1.cells a b)
        else st.1.cells a b := by
  induction js generalizing st with
  | nil => simp
  | cons j rest ih =>
      rw [List.foldl_cons, ih, Camera.castRay_cells]
      by_cases ha : a = i
      · subst ha
        by_cases hbj : b = j
        · subst hbj
          by_cases hbr : b ∈ rest
          · simp [hbr, ObjectInfo.offer_offer]
          · simp [hbr]
        · by_cases hbr : b ∈ rest
          · simp [hbr, hbj]
          · simp [hbr, hbj]
      · simp [ha]

/-- The record of each pixel after the two pixel loops have run over the columns `is` and
the rows `js`. -/
theorem Camera.castRect_cells (sqrt : K → K) (cam : Camera K) (k : Nat) (obj : Object K)
    (is js : List Nat) (st : PixelBuffer K × Flt K) (a b : Nat) :
    (is.foldl (fun st i => js.foldl (fun st j => Camera.castRay sqrt cam k obj i j st) st)
        st).1.cells a b
      = if a ∈ is ∧ b ∈ js then ObjectInfo.offer k (cam.rayHit sqrt obj a b) (st.1.cells a b)
        else st.1.cells a b := by
  induction is generalizing st with
  | nil => simp
  | cons i rest ih =>
      rw [List.foldl_cons, ih, Camera.castRow_cells]
      by_cases hb : b ∈ js
      · by_cases hai : a = i
        · subst hai
          by_cases har : a ∈ rest
          · simp [har, hb, ObjectInfo.offer_offer]
          · simp [har, hb]
        · by_cases har : a ∈ rest
          · simp [har, hb, hai]
          · simp [har, hb, hai]
      · simp [hb]

/-- The record of each pixel after the body of the object loop has run for an object: the
object is offered to the pixels of its footprint. -/
theorem Camera.castObject_cells (sqrt : K → K) (cam : Camera K) (k : Nat) (obj : Object K)
    (st : PixelBuffer K × Flt K) (a b : Nat) :
    (Camera.castObject sqrt cam k obj st).1.cells a b
      = ObjectInfo.offer k (cam.testedHit sqrt obj a b) (st.1.cells a b) := by
  have h := Camera.castRect_cells sqrt cam k obj
    (List.range' (cam.footprint sqrt obj).startX
      ((cam.footprint sqrt obj).endX - (cam.footprint sqrt obj).startX))
    (List.range' (cam.footprint sqrt obj).startY
      ((cam.footprint sqrt obj).endY - (cam.footprint sqrt obj).startY)) st a b
  have hc : Camera.castObject sqrt cam k obj st
      = (List.range' (cam.footprint sqrt obj).startX
          ((cam.footprint sqrt obj).endX - (cam.footprint sqrt obj).startX)).foldl
        (fun st i => (List.range' (cam.footprint sqrt obj).startY
          ((cam.footprint sqrt obj).endY - (cam.footprint sqrt obj).startY)).foldl
            (fun st j => Camera.castRay sqrt cam k obj i j st) st) st := rfl
  rw [hc, h]
  simp only [Camera.testedHit, List.mem_range'_1]
  by_cases hin : ((cam.footprint sqrt obj).startX ≤ a ∧ a < (cam.footprint sqrt obj).endX
      ∧ (cam.footprint sqrt obj).startY ≤ b ∧ b < (cam.footprint sqrt obj).endY)
  · have h1 : (cam.footprint sqrt obj).startX ≤ a ∧ a < (cam.footprint sqrt obj).startX
        + ((cam.footprint sqrt obj).endX - (cam.footprint sqrt obj).startX) := by omega
    have h2 : (cam.footprint sqrt obj).startY ≤ b ∧ b < (cam.footprint sqrt obj).startY
        + ((cam.footprint sqrt obj).endY - (cam.footprint sqrt obj).startY) := by omega
    rw [if_pos ⟨h1, h2⟩, if_pos hin]
  · have h12 : ¬ (((cam.footprint sqrt obj).startX ≤ a ∧ a < (cam.footprint sqrt obj).startX
        + ((cam.footprint sqrt obj).endX - (cam.footprint sqrt obj).startX))
        ∧ ((cam.footprint sqrt obj).startY ≤ b ∧ b < (cam.footprint sqrt obj).startY
        + ((cam.footprint sqrt obj).endY - (cam.footprint sqrt obj).startY))) := by
      intro hh
      apply hin
      omega
    rw [if_neg h12, if_neg hin]
    rfl

/-- The record of each pixel after the object loop has run over a list of objects. -/
theorem Camera.castObjects_cells (sqrt : K → K) (cam : Camera K) (k : Nat)
    (objs : List (Object K)) (st : PixelBuffer K × Flt K) (a b : Nat) :
    (Camera.castObjects sqrt cam k objs st).1.cells a b
      = ObjectInfo.offerAll k (objs.map (fun obj => cam.testedHit sqrt obj a b))
          (st.1.cells a b) := by
  induction objs generalizing k st with
  | nil => rfl
  | cons obj rest ih =>
      simp only [Camera.castObjects, List.map_cons, ObjectInfo.offerAll]
      rw [ih, Camera.castObject_cells]

end pixelLoops

section nearest

variable {K : Type} [LinearOrderedField K]

theorem Flt.fin_lt_trans {a b : K} {x : Flt K} (h1 : a < b) (h2 : Flt.fin b < x) :
    Flt.fin a < x := by
  cases x with
  | fin c =>
      rw [Flt.fin_lt_fin] at h2 ⊢
      exact lt_trans h1 h2
  | pinf => rfl
  | ninf => exact absurd h2 (by show ¬ Flt.blt _ _ = true; simp [Flt.blt])
  | nan => exact absurd h2 (by show ¬ Flt.blt _ _ = true; simp [Flt.blt])

theorem Flt.lt_of_lt_of_not_lt {a b : K} {x : Flt K} (h1 : Flt.fin a < x)
    (h2 : ¬ Flt.fin b < x) : a < b := by
  cases x with
  | fin c =>
      rw [Flt.fin_lt_fin] at h1 h2
      exact lt_of_lt_of_le h1 (not_lt.mp h2)
  | pinf => exact absurd (show Flt.fin b < Flt.pinf from rfl) h2
  | ninf => exact absurd h1 (by show ¬ Flt.blt _ _ = true; simp [Flt.blt])
  | nan => exact absurd h1 (by show ¬ Flt.blt _ _ = true; simp [Flt.blt])

/-- Offering only misses leaves the record as it was. -/
theorem ObjectInfo.offerAll_none (l : List (Option (Flt K))) (hl : ∀ h ∈ l, h = none)
    (k : Nat) (s : ObjectInfo K) : ObjectInfo.offerAll k l s = s := by
  induction l generalizing k s with
  | nil => rfl
  | cons h rest ih =>
      have hh : h = none := hl h (List.mem_cons_self _ _)
      subst hh
      simp only [ObjectInfo.offerAll, ObjectInfo.offer]
      exact ih (fun h' hm => hl h' (List.mem_cons_of_mem _ hm)) _ _

/-- The record after offering hits with finite distances: either no hit was nearer than
the record, which is unchanged, or the record holds the least distance and the first
position at which it is offered. -/
theorem ObjectInfo.offerAll_spec (l : List (Option (Flt K)))
    (hfin : ∀ y : Flt K, some y ∈ l → y.isFinite = true) (k : Nat) (s : ObjectInfo K) :
    (ObjectInfo.offerAll k l s = s
      ∧ ∀ (p : Nat) (d : K), l.get? p = some (some (Flt.fin d)) →
          ¬ Flt.fin d < s.distanceToIntersection)
    ∨ (∃ (p : Nat) (d : K), l.get? p = some (some (Flt.fin d))
        ∧ Flt.fin d < s.distanceToIntersection
        ∧ ObjectInfo.offerAll k l s = ⟨some (k + p), Flt.fin d⟩
        ∧ ∀ (q : Nat) (e : K), l.get? q = some (some (Flt.fin e)) →
            d ≤ e ∧ (q < p → d < e)) := by
  induction l generalizing k s with
  | nil =>
      left
      exact ⟨rfl, fun p d h => by simp at h⟩
  | cons h rest ih =>
      have hfin' : ∀ y : Flt K, some y ∈ rest → y.isFinite = true :=
        fun y hy => hfin y (List.mem_cons_of_mem _ hy)
      cases h with
      | none =>
          rcases ih hfin' (k + 1) s with ⟨heq, hno⟩ | ⟨p, d, hp, hlt, heq, hmin⟩
          · left
            refine ⟨heq, ?_⟩
            intro p d hp
            cases p with
            | zero => simp at hp
            | succ p => exact hno p d (by simpa using hp)
          · right
            refine ⟨p + 1, d, by simpa using hp, hlt, ?_, ?_⟩
            · simp only [ObjectInfo.offerAll, ObjectInfo.offer, heq]
              congr 2
              omega
            · intro q e hq
              cases q with
              | zero => simp at hq
              | succ q =>
                  have := hmin q e (by simpa using hq)
                  exact ⟨this.1, fun hqp => this.2 (by omega)⟩
      | some y =>
          obtain ⟨d0, hd0⟩ := Flt.eq_fin_of_isFinite (hfin y (List.mem_cons_self _ _))
          subst hd0
          by_cases hlt0 : Flt.fin d0 < s.distanceToIntersection
          · have hoff : ObjectInfo.offer k (some (Flt.fin d0)) s = ⟨some k, Flt.fin d0⟩ := by
              simp only [ObjectInfo.offer, hlt0, if_true]
            right
            rcases ih hfin' (k + 1) ⟨some k, Flt.fin d0⟩ with ⟨heq, hno⟩ | ⟨p, d, hp, hlt, heq, hmin⟩
            · refine ⟨0, d0, by simp, hlt0, ?_, ?_⟩
              · simp only [ObjectInfo.offerAll, hoff, heq, Nat.add_zero]
              · intro q e hq
                cases q with
                | zero =>
                    have : e = d0 := by
                      simp only [List.get?_cons_zero, Option.some.injEq, Flt.fin.injEq] at hq
                      exact hq.symm
                    subst this
                    exact ⟨le_refl _, fun h => absurd h (by omega)⟩
                | succ q =>
                    have := hno q e (by simpa using hq)
                    simp only [Flt.fin_lt_fin, not_lt] at this
                    exact ⟨this, fun h => absurd h (by omega)⟩
            · have hdd : d < d0 := by simpa using hlt
              refine ⟨p + 1, d, by simpa using hp, Flt.fin_lt_trans hdd hlt0, ?_, ?_⟩
              · simp only [ObjectInfo.offerAll, hoff, heq]
                congr 2
                omega
              · intro q e hq
                cases q with
                | zero =>
                    have : e = d0 := by
                      simp only [List.get?_cons_zero, Option.some.injEq, Flt.fin.injEq] at hq
                      exact hq.symm
                    subst this
                    exact ⟨hdd.le, fun _ => hdd⟩
                | succ q =>
                    have := hmin q e (by simpa using hq)
                    exact ⟨this.1, fun hqp => this.2 (by omega)⟩
          · have hoff : ObjectInfo.offer k (some (Flt.fin d0)) s = s := by
              simp only [ObjectInfo.offer, hlt0, if_false]
            rcases ih hfin' (k + 1) s with ⟨heq, hno⟩ | ⟨p, d, hp, hlt, heq, hmin⟩
            · left
              refine ⟨by simp only [ObjectInfo.offerAll, hoff, heq], ?_⟩
              intro p d hp
              cases p with
              | zero =>
                  have : d = d0 := by
                    simp only [List.get?_cons_zero, Option.some.injEq, Flt.fin.injEq] at hp
                    exact hp.symm
                  subst this
                  exact hlt0
              | succ p => exact hno p d (by simpa using hp)
            · right
              have hdd : d < d0 := Flt.lt_of_lt_of_not_lt hlt hlt0
              refine ⟨p + 1, d, by simpa using hp, hlt, ?_, ?_⟩
              · simp only [ObjectInfo.offerAll, hoff, heq]
                congr 2
                omega
              · intro q e hq
                cases q with
                | zero =>
                    have : e = d0 := by
                      simp only [List.get?_cons_zero, Option.some.injEq, Flt.fin.injEq] at hq
                      exact hq.symm
                    subst this
                    exact ⟨hdd.le, fun _ => hdd⟩
                | succ q =>
                    have := hmin q e (by simpa using hq)
                    exact ⟨this.1, fun hqp => this.2 (by omega)⟩

end nearest

section renderPass

variable {K : Type} [LinearOrderedField K]

theorem getOpt_map_eq_some {α β : Type} (f : α → β) (l : List α) (p : Nat) (y : β) :
    (l.map f).get? p = some y ↔ ∃ a, l.get? p = some a ∧ f a = y := by
  simp only [List.get?_eq_getElem?, List.getElem?_map, Option.map_eq_some']

theorem Camera.passCamera_cells (cam : Camera K) (a b : Nat) :
    cam.passCamera.m_pixelBuf.cells a b = ObjectInfo.noHit := by
  unfold Camera.passCamera
  simp only
  split <;> rfl

variable [FloorRing K]

/-- The record of each pixel after a successful render pass. -/
theorem Camera.updatePixelBuffer_cells (sqrt : K → K) (cam : Camera K)
    (objects : List (Object K)) (hinit : cam.m_pixelBuf.isInitialised = true) (a b : Nat) :
    (cam.updatePixelBuffer sqrt objects).2.1.m_pixelBuf.cells a b
      = ObjectInfo.offerAll 0
          ((cam.passObjects objects).map (fun obj => cam.passCamera.testedHit sqrt obj a b))
          ObjectInfo.noHit := by
  have h : (cam.updatePixelBuffer sqrt objects).2.1.m_pixelBuf
      = (Camera.castObjects sqrt cam.passCamera 0 (cam.passObjects objects)
          (cam.passCamera.m_pixelBuf, Flt.nan)).1 := by
    unfold Camera.updatePixelBuffer
    rw [if_pos hinit]
    rfl
  rw [h, Camera.castObjects_cells, Camera.passCamera_cells]

end renderPass

section footprints

variable {K : Type} [LinearOrderedField K] [FloorRing K]

/-- The conversion to `int` of a non-negative number with integer part `n`. -/
theorem Flt.toInt_fin_of_nonneg {a : K} {n : Int} (h0 : 0 ≤ a) (h1 : (n : K) ≤ a)
    (h2 : a < n + 1) (hr : -2 ^ 31 ≤ n ∧ n < 2 ^ 31) : Flt.toInt (Flt.fin a) = n := by
  have hf : ⌊a⌋ = n := Int.floor_eq_iff.mpr ⟨h1, h2⟩
  simp only [Flt.toInt, h0, if_true, hf, hr, and_self]

/-- The conversion to `int` of a negative number with integer part `n`. -/
theorem Flt.toInt_fin_of_neg {a : K} {n : Int} (h0 : a < 0) (h1 : (n : K) - 1 < a)
    (h2 : a ≤ n) (hr : -2 ^ 31 ≤ n ∧ n < 2 ^ 31) : Flt.toInt (Flt.fin a) = n := by
  have hf : ⌈a⌉ = n := Int.ceil_eq_iff.mpr ⟨h1, h2⟩
  simp only [Flt.toInt, not_le.mpr h0, if_false, hf, hr, and_self, if_true]

/-- The footprint of an object with a finite centre off the plane `z = 0` and a finite
radius, for a camera with finite view plane and pixel sizes, in the arithmetic of `K`: the
centre is projected by the division by its `z`, whatever its sign. -/
theorem Camera.footprint_finite (sqrt : K → K)
    (hsqrt : ∀ x : K, 0 ≤ x → 0 ≤ sqrt x ∧ sqrt x * sqrt x = x)
    (cam : Camera K) (obj : Object K) (rx ry : Int) (hw hh d pw ph r : K) (c : Point3D K)
    {u : Bool}
    (hvp : cam.m_viewPlane = ⟨rx, ry, Flt.fin hw, Flt.fin hh, Flt.fin d, u⟩)
    (hpw : cam.m_pixelWidth = Flt.fin pw) (hph : cam.m_pixelHeight = Flt.fin ph)
    (hpw0 : pw ≠ 0) (hph0 : ph ≠ 0) (hc : obj.position = c.map Flt.fin) (hz : c.z ≠ 0)
    (hr : obj.getMaxRadius sqrt = Flt.fin r) :
    cam.footprint sqrt obj
      = { startX := toUnsigned (max (wrapInt (Flt.toInt (Flt.fin ((c.x * d / c.z + hw) / pw))
            - wrapInt (Flt.toInt (Flt.fin (|r| / pw)) + 1))) 0)
          endX := clampEnd u (wrapInt (Flt.toInt (Flt.fin ((c.x * d / c.z + hw) / pw))
            + wrapInt (Flt.toInt (Flt.fin (|r| / pw)) + 1))) rx
          startY := toUnsigned (max (wrapInt (Flt.toInt (Flt.fin ((c.y * d / c.z + hh) / ph))
            - wrapInt (Flt.toInt (Flt.fin (|r| / ph)) + 1))) 0)
          endY := clampEnd u (wrapInt (Flt.toInt (Flt.fin ((c.y * d / c.z + hh) / ph))
            + wrapInt (Flt.toInt (Flt.fin (|r| / ph)) + 1))) ry } := by
  have hv : c.asVector ≠ ⟨0, 0, 0⟩ := by
    intro h
    apply hz
    have := congrArg Vector3D.z h
    simpa [Point3D.asVector] using this
  have hpos := Vector3D.dot_self_pos hv
  have hL := sqrt_ne_zero_of_pos sqrt hsqrt hpos
  have hasv : (c.map Flt.fin).asVector = c.asVector.map Flt.fin := rfl
  have hzL : c.z / sqrt (c.asVector.dot c.asVector) ≠ 0 := div_ne_zero hz hL
  have key : ∀ x : K, x / sqrt (c.asVector.dot c.asVector)
      * (d / (c.z / sqrt (c.asVector.dot c.asVector))) = x * d / c.z := by
    intro x
    field_simp
    ring
  have hn : (c.asVector.map Flt.fin).normalise (Flt.sqrt sqrt)
      = (⟨Flt.fin (c.x / sqrt (c.asVector.dot c.asVector)),
          Flt.fin (c.y / sqrt (c.asVector.dot c.asVector)),
          Flt.fin (c.z / sqrt (c.asVector.dot c.asVector))⟩ : Vector3D (Flt K)) := by
    rw [Vector3D.normalise_map_fin sqrt hsqrt _ hpos]
    rfl
  simp only [Camera.footprint, hvp, hpw, hph, hc, hr, hasv, hn, Flt.fin_div_fin _ hzL,
    Flt.fin_mul_fin, Flt.fin_add_fin, Flt.fin_div_fin _ hpw0, Flt.fin_div_fin _ hph0,
    Flt.fabsf, key]

end footprints

section concretePass

variable {K : Type} [LinearOrderedField K]

theorem Camera.passCamera_viewPlane (cam : Camera K) :
    cam.passCamera.m_viewPlane = cam.m_viewPlane := by
  unfold Camera.passCamera
  simp only
  split <;> rfl

theorem Camera.passCamera_pixelWidth (cam : Camera K) :
    cam.passCamera.m_pixelWidth = cam.m_pixelWidth := by
  unfold Camera.passCamera
  simp only
  split <;> rfl

theorem Camera.passCamera_pixelHeight (cam : Camera K) :
    cam.passCamera.m_pixelHeight = cam.m_pixelHeight := by
  unfold Camera.passCamera
  simp only
  split <;> rfl

/-- The world-to-camera transform of the first pass of a camera initialised at the origin:
the flip of the z-axis. -/
theorem Camera.passCamera_inverse_origin (vp : ViewPlane K) (M : Matrix3D (Flt K))
    (hM : M = (((Camera.new vp).init ⟨Flt.fin 0, Flt.fin 0, Flt.fin 0⟩).passCamera
        ).m_cameraToWorldTransform.inverseTransform (Flt.fin 0) (Flt.fin 1)) :
    (∀ p : Point3D K, M.mulPoint (p.map Flt.fin) = (⟨p.x, p.y, -p.z⟩ : Point3D K).map Flt.fin)
    ∧ (∀ v : Vector3D K,
        M.mulVector (v.map Flt.fin) = (⟨v.x, v.y, -v.z⟩ : Vector3D K).map Flt.fin) := by
  have hA : (((Camera.new vp).init ⟨Flt.fin 0, Flt.fin 0, Flt.fin 0⟩).passCamera
        ).m_cameraToWorldTransform
      = Matrix3D.map Flt.fin
          (((((Matrix3D.identity (0 : K) 1).set 0 3 0).set 1 3 0).set 2 3 0).set 2 2 (-1)) := by
    simp only [Camera.passCamera, Camera.new, Camera.init, Camera.updateWorldTransform, if_true,
      Matrix3D.map_set, Matrix3D.map_identity]
  have hdet : Matrix3D.det3
      (((((Matrix3D.identity (0 : K) 1).set 0 3 0).set 1 3 0).set 2 3 0).set 2 2 (-1)) ≠ 0 := by
    simp [Matrix3D.det3, Matrix3D.set, Matrix3D.identity]
  rw [hA, Matrix3D.map_fin_inverseTransform _ hdet] at hM
  subst hM
  constructor
  · intro p
    rw [Matrix3D.map_fin_mulPoint]
    congr 1
    simp [Matrix3D.mulPoint, Matrix3D.inverseTransform, Matrix3D.det3, Matrix3D.set,
      Matrix3D.identity]
  · intro v
    rw [Matrix3D.map_fin_mulVector]
    congr 1
    simp [Matrix3D.mulVector, Matrix3D.inverseTransform, Matrix3D.det3, Matrix3D.set,
      Matrix3D.identity]

end concretePass

section rays

variable {K : Type} [LinearOrderedField K]

/-- The ray direction through a pixel for a camera with finite view plane and pixel sizes
and a non-zero view-plane distance, in the arithmetic of `K`. -/
theorem Camera.getRayDirectionThroughPixel_fields (sqrt : K → K)
    (hsqrt : ∀ x : K, 0 ≤ x → 0 ≤ sqrt x ∧ sqrt x * sqrt x = x)
    (cam : Camera K) (rx ry : Int) (hw hh d pw ph : K)
    {u : Bool}
    (hvp : cam.m_viewPlane = ⟨rx, ry, Flt.fin hw, Flt.fin hh, Flt.fin d, u⟩)
    (hpw : cam.m_pixelWidth = Flt.fin pw) (hph : cam.m_pixelHeight = Flt.fin ph)
    (hd : d ≠ 0) (i j : Int) :
    cam.getRayDirectionThroughPixel sqrt i j
      = (Vector3D.normalise sqrt ⟨(i : K) * pw - hw, (j : K) * ph - hh, d⟩).map Flt.fin := by
  have hpos : 0 < Vector3D.dot
      (⟨(i : K) * pw - hw, (j : K) * ph - hh, d⟩ : Vector3D K)
      ⟨(i : K) * pw - hw, (j : K) * ph - hh, d⟩ := by
    simp only [Vector3D.dot]
    have := mul_self_pos.mpr hd
    nlinarith [mul_self_nonneg ((i : K) * pw - hw), mul_self_nonneg ((j : K) * ph - hh)]
  rw [← Vector3D.normalise_map_fin sqrt hsqrt _ hpos]
  simp only [Camera.getRayDirectionThroughPixel, hpw, hph, hvp, Flt.ofInt, Flt.fin_mul_fin,
    Flt.fin_sub_fin, Vector3D.map]

end rays

section pixelRange

variable {K : Type} [LinearOrderedField K] [FloorRing K]

end pixelRange

/-- A point with coordinates in `K` is finite. -/
theorem Point3D.point_isFinite_map_fin {K : Type} (p : Point3D K) :
    (p.map Flt.fin).isFinite = true := rfl

/-- A vector with components in `K` is finite. -/
theorem Vector3D.vector_isFinite_map_fin {K : Type} (v : Vector3D K) :
    (v.map Flt.fin).isFinite = true := rfl

section hitsAreFinite

variable {K : Type} [LinearOrderedField K]

/-- A finite matrix takes an object with finite geometry to one with finite geometry, and
leaves its size as it was. -/
theorem Object.applyTransformation_isFinite (A : Matrix3D K) (obj : Object K)
    (hobj : obj.isFinite = true) :
    (obj.applyTransformation (A.map Flt.fin)).isFinite = true
    ∧ (obj.applyTransformation (A.map Flt.fin)).radiusIsFinite = obj.radiusIsFinite := by
  cases obj with
  | plane p =>
      simp only [Object.isFinite, Bool.and_eq_true] at hobj
      obtain ⟨c, hc⟩ := Point3D.point_eq_map_fin hobj.1.1.1
      obtain ⟨n, hn⟩ := Vector3D.vector_eq_map_fin hobj.1.1.2
      obtain ⟨w, hw⟩ := Vector3D.vector_eq_map_fin hobj.1.2
      obtain ⟨h, hh⟩ := Vector3D.vector_eq_map_fin hobj.2
      simp only [Object.applyTransformation, Plane.applyTransformation, Object.isFinite,
        Object.radiusIsFinite, hc, hn, hw, hh, Matrix3D.map_fin_mulPoint,
        Matrix3D.map_fin_mulVector, Point3D.point_isFinite_map_fin, Vector3D.vector_isFinite_map_fin,
        Bool.and_self, and_self]
  | sphere s =>
      simp only [Object.isFinite] at hobj
      obtain ⟨c, hc⟩ := Point3D.point_eq_map_fin hobj
      simp only [Object.applyTransformation, Sphere.applyTransformation, Object.isFinite,
        Object.radiusIsFinite, hc, Matrix3D.map_fin_mulPoint, Point3D.point_isFinite_map_fin,
        and_self]

variable [FloorRing K]

/-- For a camera with finite view plane and pixel sizes and a non-zero view-plane distance,
the distance of a hit that a finite object of finite size reports is an ordinary number. -/
theorem Camera.rayHit_isFinite (sqrt : K → K)
    (hsqrt : ∀ x : K, 0 ≤ x → 0 ≤ sqrt x ∧ sqrt x * sqrt x = x)
    (cam : Camera K) (rx ry : Int) (hw hh d pw ph : K) {u : Bool}
    (hvp : cam.m_viewPlane = ⟨rx, ry, Flt.fin hw, Flt.fin hh, Flt.fin d, u⟩)
    (hpw : cam.m_pixelWidth = Flt.fin pw) (hph : cam.m_pixelHeight = Flt.fin ph)
    (hd : d ≠ 0) (obj : Object K) (hobj : obj.isFinite = true)
    (hrad : obj.radiusIsFinite = true) (i j : Nat) (dist : Flt K)
    (h : cam.rayHit sqrt obj i j = some dist) : dist.isFinite = true := by
  cases obj with
  | plane p =>
      simp only [Camera.rayHit, Object.getIntersection] at h
      split_ifs at h with hhit
      have hdist : dist = (p.getIntersection ⟨Flt.fin 0, Flt.fin 0, Flt.fin 0⟩
          (cam.getRayDirectionThroughPixel sqrt (wrapInt i) (wrapInt j)) Flt.nan).2 := by
        simpa using h.symm
      cases hfin : dist.isFinite with
      | true => rfl
      | false =>
          rw [hdist] at hfin
          have := Plane.getIntersection_of_isFinite p _ _ _ hfin
          rw [this] at hhit
          exact absurd hhit (by simp)
  | sphere s =>
      simp only [Object.isFinite] at hobj
      simp only [Object.radiusIsFinite] at hrad
      obtain ⟨c, hc⟩ := Point3D.point_eq_map_fin hobj
      obtain ⟨r2, hr2⟩ := Flt.eq_fin_of_isFinite hrad
      have hs : s = ⟨s.m_colour, c.map Flt.fin, Flt.fin r2⟩ := by
        cases s
        simp_all
      have horigin : (⟨Flt.fin 0, Flt.fin 0, Flt.fin 0⟩ : Point3D (Flt K))
          = Point3D.map Flt.fin ⟨0, 0, 0⟩ := rfl
      simp only [Camera.rayHit, Object.getIntersection] at h
      rw [hs, Camera.getRayDirectionThroughPixel_fields sqrt hsqrt cam rx ry hw hh d pw ph hvp
        hpw hph hd, horigin, Sphere.getIntersection_sphere_finite] at h
      split_ifs at h with hc1 hc2 hc3
      · simp only [Option.some.injEq] at h
        rw [← h]
        rfl
      · exact absurd hc3 (by simp)

end hitsAreFinite

/-- The record of a pixel after a successful render pass, when the hits reported at the pixel
have finite distances: the cleared record when no tested object hits, the least reported
distance with the first object that attains it otherwise. -/
theorem Camera.updatePixelBuffer_record {K : Type} [LinearOrderedField K] [FloorRing K]
    (sqrt : K → K) (cam : Camera K) (objects : List (Object K)) (i j : Nat)
    (hinit : cam.m_pixelBuf.isInitialised = true)
    (hfin : ∀ obj ∈ cam.passObjects objects, ∀ d : Flt K,
      cam.passCamera.testedHit sqrt obj i j = some d → d.isFinite = true) :
    ((∀ obj ∈ cam.passObjects objects, cam.passCamera.testedHit sqrt obj i j = none) →
        (cam.updatePixelBuffer sqrt objects).2.1.m_pixelBuf.getObjectInfoForPixel i j
          = ObjectInfo.noHit)
    ∧ ((∃ obj ∈ cam.passObjects objects, ∃ d : Flt K,
          cam.passCamera.testedHit sqrt obj i j = some d) →
        ∃ (k : Nat) (obj : Object K) (d : K),
          (cam.passObjects objects).get? k = some obj
          ∧ cam.passCamera.testedHit sqrt obj i j = some (Flt.fin d)
          ∧ (cam.updatePixelBuffer sqrt objects).2.1.m_pixelBuf.getObjectInfoForPixel i j
              = ⟨some k, Flt.fin d⟩
          ∧ ∀ (q : Nat) (other : Object K) (e : K),
              (cam.passObjects objects).get? q = some other →
              cam.passCamera.testedHit sqrt other i j = some (Flt.fin e) →
              d ≤ e ∧ (q < k → d < e)) := by
  simp only [PixelBuffer.getObjectInfoForPixel,
    Camera.updatePixelBuffer_cells sqrt cam objects hinit]
  constructor
  · intro hnone
    apply ObjectInfo.offerAll_none
    intro h hm
    obtain ⟨obj, hobj, rfl⟩ := List.mem_map.mp hm
    exact hnone obj hobj
  · rintro ⟨obj0, hobj0, d0, hd0⟩
    have hfin' : ∀ y : Flt K,
        some y ∈ (cam.passObjects objects).map
          (fun obj => cam.passCamera.testedHit sqrt obj i j) → y.isFinite = true := by
      intro y hy
      obtain ⟨obj, hobj, hy'⟩ := List.mem_map.mp hy
      exact hfin obj hobj y hy'
    rcases ObjectInfo.offerAll_spec _ hfin' 0 ObjectInfo.noHit with
      ⟨_, hno⟩ | ⟨p, d, hp, _, heq, hmin⟩
    · exfalso
      obtain ⟨e0, he0⟩ := Flt.eq_fin_of_isFinite (hfin obj0 hobj0 d0 hd0)
      subst he0
      obtain ⟨n, hn⟩ := List.get?_of_mem hobj0
      exact hno n e0 ((getOpt_map_eq_some _ _ _ _).mpr ⟨obj0, hn, hd0⟩) rfl
    · obtain ⟨obj, hobj, hhit⟩ := (getOpt_map_eq_some _ _ _ _).mp hp
      refine ⟨p, obj, d, hobj, hhit, by simpa using heq, ?_⟩
      intro q other e hq he
      exact hmin q e ((getOpt_map_eq_some _ _ _ _).mpr ⟨other, hq, he⟩)

/-- C12 (nearest hit, the first wins a tie): after a successful `updatePixelBuffer` of a
camera with finite view plane and pixel sizes, a non-zero view-plane distance and a finite
invertible transform, on objects with finite geometry and size, for every pixel `(i, j)` of
the buffer: if no object of the list is tested at the pixel and hits, the pixel holds the
cleared no-hit record (no object, distance `+∞`); otherwise the record holds the index `k`
of an object of the list and its hit distance `d`, where `d ≤ e` for every distance `e`
reported at that pixel by a tested object and `d < e` when that object comes earlier in the
list than `k`. -/
theorem Camera.updatePixelBuffer_nearest {K : Type} [LinearOrderedField K] [FloorRing K]
    (sqrt : K → K) (hsqrt : ∀ x : K, 0 ≤ x → 0 ≤ sqrt x ∧ sqrt x * sqrt x = x)
    (cam : Camera K) (objects : List (Object K)) (i j : Nat)
    (rx ry : Int) (hw hh d pw ph : K) {u : Bool} (A : Matrix3D K)
    (hinit : cam.m_pixelBuf.isInitialised = true)
    (_ : (i : Int) < cam.m_pixelBuf.width) (_ : (j : Int) < cam.m_pixelBuf.height)
    (hvp : cam.m_viewPlane = ⟨rx, ry, Flt.fin hw, Flt.fin hh, Flt.fin d, u⟩)
    (hpw : cam.m_pixelWidth = Flt.fin pw) (hph : cam.m_pixelHeight = Flt.fin ph)
    (hd : d ≠ 0)
    (hM : cam.passCamera.m_cameraToWorldTransform = A.map Flt.fin) (hdet : A.det3 ≠ 0)
    (hobj : ∀ obj ∈ objects, obj.isFinite = true ∧ obj.radiusIsFinite = true) :
    ((∀ obj ∈ cam.passObjects objects, cam.passCamera.testedHit sqrt obj i j = none) →
        (cam.updatePixelBuffer sqrt objects).2.1.m_pixelBuf.getObjectInfoForPixel i j
          = ObjectInfo.noHit)
    ∧ ((∃ obj ∈ cam.passObjects objects, ∃ dist : Flt K,
          cam.passCamera.testedHit sqrt obj i j = some dist) →
        ∃ (k : Nat) (obj : Object K) (dist : K),
          (cam.passObjects objects).get? k = some obj
          ∧ cam.passCamera.testedHit sqrt obj i j = some (Flt.fin dist)
          ∧ (cam.updatePixelBuffer sqrt objects).2.1.m_pixelBuf.getObjectInfoForPixel i j
              = ⟨some k, Flt.fin dist⟩
          ∧ ∀ (q : Nat) (other : Object K) (e : K),
              (cam.passObjects objects).get? q = some other →
              cam.passCamera.testedHit sqrt other i j = some (Flt.fin e) →
              dist ≤ e ∧ (q < k → dist < e)) := by
  apply Camera.updatePixelBuffer_record sqrt cam objects i j hinit
  intro obj hmem dist hhit
  simp only [Camera.passObjects, hM, Matrix3D.map_fin_inverseTransform A hdet,
    List.mem_map] at hmem
  obtain ⟨obj0, hobj0, rfl⟩ := hmem
  obtain ⟨h1, h2⟩ := Object.applyTransformation_isFinite (A.inverseTransform 0 1) obj0
    (hobj obj0 hobj0).1
  have hray : cam.passCamera.rayHit sqrt
      (obj0.applyTransformation ((A.inverseTransform 0 1).map Flt.fin)) i j = some dist := by
    simp only [Camera.testedHit] at hhit
    split_ifs at hhit
    exact hhit
  exact Camera.rayHit_isFinite sqrt hsqrt cam.passCamera rx ry hw hh d pw ph
    (by rw [Camera.passCamera_viewPlane]; exact hvp)
    (by rw [Camera.passCamera_pixelWidth]; exact hpw)
    (by rw [Camera.passCamera_pixelHeight]; exact hph) hd _ h1
    (by rw [h2]; exact (hobj obj0 hobj0).2) i j dist hray

/-- A scene of three objects in front of a camera at the origin with a 2 × 2 view plane, all
of them hit by the ray through the pixel `(1, 1)`: a plane at distance 5, then a sphere hit
at distance 3, then a plane at distance 3.  The sphere replaces the first plane, the second
plane ties with the sphere and does not replace it: the pixel records the sphere, of index
1, at distance 3. -/
theorem Camera.updatePixelBuffer_nearest_witness :
    (∀ x : ℝ, 0 ≤ x → 0 ≤ Real.sqrt x ∧ Real.sqrt x * Real.sqrt x = x)
    ∧ ((Camera.new (⟨2, 2, Flt.fin 5, Flt.fin 5, Flt.fin 1, true⟩ : ViewPlane ℝ)).init
      ⟨Flt.fin 0, Flt.fin 0, Flt.fin 0⟩).m_pixelBuf.isInitialised = true
    ∧ ((1 : Nat) : Int) < ((Camera.new (⟨2, 2, Flt.fin 5, Flt.fin 5, Flt.fin 1, true⟩ : ViewPlane ℝ)).init
      ⟨Flt.fin 0, Flt.fin 0, Flt.fin 0⟩).m_pixelBuf.width
    ∧ ((1 : Nat) : Int) < ((Camera.new (⟨2, 2, Flt.fin 5, Flt.fin 5, Flt.fin 1, true⟩ : ViewPlane ℝ)).init
      ⟨Flt.fin 0, Flt.fin 0, Flt.fin 0⟩).m_pixelBuf.height
    ∧ ((Camera.new (⟨2, 2, Flt.fin 5, Flt.fin 5, Flt.fin 1, true⟩ : ViewPlane ℝ)).init
      ⟨Flt.fin 0, Flt.fin 0, Flt.fin 0⟩).m_viewPlane = ⟨2, 2, Flt.fin 5, Flt.fin 5, Flt.fin 1, true⟩
    ∧ ((Camera.new (⟨2, 2, Flt.fin 5, Flt.fin 5, Flt.fin 1, true⟩ : ViewPlane ℝ)).init
      ⟨Flt.fin 0, Flt.fin 0, Flt.fin 0⟩).m_pixelWidth = Flt.fin 5
    ∧ ((Camera.new (⟨2, 2, Flt.fin 5, Flt.fin 5, Flt.fin 1, true⟩ : ViewPlane ℝ)).init
      ⟨Flt.fin 0, Flt.fin 0, Flt.fin 0⟩).m_pixelHeight = Flt.fin 5
    ∧ (1 : ℝ) ≠ 0
    ∧ ((Camera.new (⟨2, 2, Flt.fin 5, Flt.fin 5, Flt.fin 1, true⟩ : ViewPlane ℝ)).init
      ⟨Flt.fin 0, Flt.fin 0, Flt.fin 0⟩).passCamera.m_cameraToWorldTransform = Matrix3D.map Flt.fin
        (((((Matrix3D.identity (0 : ℝ) 1).set 0 3 0).set 1 3 0).set 2 3 0).set 2 2 (-1))
    ∧ Matrix3D.det3 (((((Matrix3D.identity (0 : ℝ) 1).set 0 3 0).set 1 3 0).set 2 3 0).set 2 2 (-1)) ≠ 0
    ∧ (∀ obj ∈ [Object.plane (Plane.new (Flt.sqrt Real.sqrt) ⟨Flt.fin 0, Flt.fin 0, Flt.fin (-5)⟩
        ⟨Flt.fin 0, Flt.fin 0, Flt.fin 1⟩ ⟨Flt.fin 0, Flt.fin 1, Flt.fin 0⟩ (Flt.fin 6)
        (Flt.fin 8) (Flt.fin 0)),
      Object.sphere (Sphere.new ⟨Flt.fin 0, Flt.fin 0, Flt.fin (-4)⟩ (Flt.fin 1)),
      Object.plane (Plane.new (Flt.sqrt Real.sqrt) ⟨Flt.fin 0, Flt.fin 0, Flt.fin (-3)⟩
        ⟨Flt.fin 0, Flt.fin 0, Flt.fin 1⟩ ⟨Flt.fin 0, Flt.fin 1, Flt.fin 0⟩ (Flt.fin 6)
        (Flt.fin 8) (Flt.fin 0))],
        obj.isFinite = true ∧ obj.radiusIsFinite = true)
    ∧ (((Camera.new (⟨2, 2, Flt.fin 5, Flt.fin 5, Flt.fin 1, true⟩ : ViewPlane ℝ)).init
      ⟨Flt.fin 0, Flt.fin 0, Flt.fin 0⟩).passObjects
        [Object.plane (Plane.new (Flt.sqrt Real.sqrt) ⟨Flt.fin 0, Flt.fin 0, Flt.fin (-5)⟩
        ⟨Flt.fin 0, Flt.fin 0, Flt.fin 1⟩ ⟨Flt.fin 0, Flt.fin 1, Flt.fin 0⟩ (Flt.fin 6)
        (Flt.fin 8) (Flt.fin 0)),
      Object.sphere (Sphere.new ⟨Flt.fin 0, Flt.fin 0, Flt.fin (-4)⟩ (Flt.fin 1)),
      Object.plane (Plane.new (Flt.sqrt Real.sqrt) ⟨Flt.fin 0, Flt.fin 0, Flt.fin (-3)⟩
        ⟨Flt.fin 0, Flt.fin 0, Flt.fin 1⟩ ⟨Flt.fin 0, Flt.fin 1, Flt.fin 0⟩ (Flt.fin 6)
        (Flt.fin 8) (Flt.fin 0))]).map
        (fun obj => ((Camera.new (⟨2, 2, Flt.fin 5, Flt.fin 5, Flt.fin 1, true⟩ : ViewPlane ℝ)).init
      ⟨Flt.fin 0, Flt.fin 0, Flt.fin 0⟩).passCamera.testedHit Real.sqrt obj 1 1)
      = [some (Flt.fin 5), some (Flt.fin 3), some (Flt.fin 3)]
    ∧ (((Camera.new (⟨2, 2, Flt.fin 5, Flt.fin 5, Flt.fin 1, true⟩ : ViewPlane ℝ)).init
      ⟨Flt.fin 0, Flt.fin 0, Flt.fin 0⟩).updatePixelBuffer Real.sqrt
        [Object.plane (Plane.new (Flt.sqrt Real.sqrt) ⟨Flt.fin 0, Flt.fin 0, Flt.fin (-5)⟩
        ⟨Flt.fin 0, Flt.fin 0, Flt.fin 1⟩ ⟨Flt.fin 0, Flt.fin 1, Flt.fin 0⟩ (Flt.fin 6)
        (Flt.fin 8) (Flt.fin 0)),
      Object.sphere (Sphere.new ⟨Flt.fin 0, Flt.fin 0, Flt.fin (-4)⟩ (Flt.fin 1)),
      Object.plane (Plane.new (Flt.sqrt Real.sqrt) ⟨Flt.fin 0, Flt.fin 0, Flt.fin (-3)⟩
        ⟨Flt.fin 0, Flt.fin 0, Flt.fin 1⟩ ⟨Flt.fin 0, Flt.fin 1, Flt.fin 0⟩ (Flt.fin 6)
        (Flt.fin 8) (Flt.fin 0))]).2.1.m_pixelBuf.getObjectInfoForPixel 1 1
      = ⟨some 1, Flt.fin 3⟩
    ∧ ∃ (k : Nat) (obj : Object ℝ) (dist : ℝ),
        (((Camera.new (⟨2, 2, Flt.fin 5, Flt.fin 5, Flt.fin 1, true⟩ : ViewPlane ℝ)).init
      ⟨Flt.fin 0, Flt.fin 0, Flt.fin 0⟩).passObjects
          [Object.plane (Plane.new (Flt.sqrt Real.sqrt) ⟨Flt.fin 0, Flt.fin 0, Flt.fin (-5)⟩
        ⟨Flt.fin 0, Flt.fin 0, Flt.fin 1⟩ ⟨Flt.fin 0, Flt.fin 1, Flt.fin 0⟩ (Flt.fin 6)
        (Flt.fin 8) (Flt.fin 0)),
      Object.sphere (Sphere.new ⟨Flt.fin 0, Flt.fin 0, Flt.fin (-4)⟩ (Flt.fin 1)),
      Object.plane (Plane.new (Flt.sqrt Real.sqrt) ⟨Flt.fin 0, Flt.fin 0, Flt.fin (-3)⟩
        ⟨Flt.fin 0, Flt.fin 0, Flt.fin 1⟩ ⟨Flt.fin 0, Flt.fin 1, Flt.fin 0⟩ (Flt.fin 6)
        (Flt.fin 8) (Flt.fin 0))]).get? k = some obj
        ∧ ((Camera.new (⟨2, 2, Flt.fin 5, Flt.fin 5, Flt.fin 1, true⟩ : ViewPlane ℝ)).init
      ⟨Flt.fin 0, Flt.fin 0, Flt.fin 0⟩).passCamera.testedHit Real.sqrt obj 1 1 = some (Flt.fin dist)
        ∧ (((Camera.new (⟨2, 2, Flt.fin 5, Flt.fin 5, Flt.fin 1, true⟩ : ViewPlane ℝ)).init
      ⟨Flt.fin 0, Flt.fin 0, Flt.fin 0⟩).updatePixelBuffer Real.sqrt
            [Object.plane (Plane.new (Flt.sqrt Real.sqrt) ⟨Flt.fin 0, Flt.fin 0, Flt.fin (-5)⟩
        ⟨Flt.fin 0, Flt.fin 0, Flt.fin 1⟩ ⟨Flt.fin 0, Flt.fin 1, Flt.fin 0⟩ (Flt.fin 6)
        (Flt.fin 8) (Flt.fin 0)),
      Object.sphere (Sphere.new ⟨Flt.fin 0, Flt.fin 0, Flt.fin (-4)⟩ (Flt.fin 1)),
      Object.plane (Plane.new (Flt.sqrt Real.sqrt) ⟨Flt.fin 0, Flt.fin 0, Flt.fin (-3)⟩
        ⟨Flt.fin 0, Flt.fin 0, Flt.fin 1⟩ ⟨Flt.fin 0, Flt.fin 1, Flt.fin 0⟩ (Flt.fin 6)
        (Flt.fin 8) (Flt.fin 0))]).2.1.m_pixelBuf.getObjectInfoForPixel 1 1
          = ⟨some k, Flt.fin dist⟩
        ∧ ∀ (q : Nat) (other : Object ℝ) (e : ℝ),
            (((Camera.new (⟨2, 2, Flt.fin 5, Flt.fin 5, Flt.fin 1, true⟩ : ViewPlane ℝ)).init
      ⟨Flt.fin 0, Flt.fin 0, Flt.fin 0⟩).passObjects
              [Object.plane (Plane.new (Flt.sqrt Real.sqrt) ⟨Flt.fin 0, Flt.fin 0, Flt.fin (-5)⟩
        ⟨Flt.fin 0, Flt.fin 0, Flt.fin 1⟩ ⟨Flt.fin 0, Flt.fin 1, Flt.fin 0⟩ (Flt.fin 6)
        (Flt.fin 8) (Flt.fin 0)),
      Object.sphere (Sphere.new ⟨Flt.fin 0, Flt.fin 0, Flt.fin (-4)⟩ (Flt.fin 1)),
      Object.plane (Plane.new (Flt.sqrt Real.sqrt) ⟨Flt.fin 0, Flt.fin 0, Flt.fin (-3)⟩
        ⟨Flt.fin 0, Flt.fin 0, Flt.fin 1⟩ ⟨Flt.fin 0, Flt.fin 1, Flt.fin 0⟩ (Flt.fin 6)
        (Flt.fin 8) (Flt.fin 0))]).get? q = some other →
            ((Camera.new (⟨2, 2, Flt.fin 5, Flt.fin 5, Flt.fin 1, true⟩ : ViewPlane ℝ)).init
      ⟨Flt.fin 0, Flt.fin 0, Flt.fin 0⟩).passCamera.testedHit Real.sqrt other 1 1 = some (Flt.fin e) →
            dist ≤ e ∧ (q < k → dist < e) := by
  have hsqrt : ∀ x : ℝ, 0 ≤ x → 0 ≤ Real.sqrt x ∧ Real.sqrt x * Real.sqrt x = x :=
    fun x hx => ⟨Real.sqrt_nonneg x, Real.mul_self_sqrt hx⟩
  have h25 : Real.sqrt 25 = 5 := by
    rw [show (25 : ℝ) = 5 * 5 by norm_num]
    exact Real.sqrt_mul_self (by norm_num)
  have hpw : ((Camera.new (⟨2, 2, Flt.fin 5, Flt.fin 5, Flt.fin 1, true⟩ : ViewPlane ℝ)).init
      ⟨Flt.fin 0, Flt.fin 0, Flt.fin 0⟩).m_pixelWidth = Flt.fin 5 := by
    norm_num [Camera.init, Camera.new, Flt.ofInt, Flt.fin_div_fin_eq]
  have hph : ((Camera.new (⟨2, 2, Flt.fin 5, Flt.fin 5, Flt.fin 1, true⟩ : ViewPlane ℝ)).init
      ⟨Flt.fin 0, Flt.fin 0, Flt.fin 0⟩).m_pixelHeight = Flt.fin 5 := by
    norm_num [Camera.init, Camera.new, Flt.ofInt, Flt.fin_div_fin_eq]
  have hM : ((Camera.new (⟨2, 2, Flt.fin 5, Flt.fin 5, Flt.fin 1, true⟩ : ViewPlane ℝ)).init
      ⟨Flt.fin 0, Flt.fin 0, Flt.fin 0⟩).passCamera.m_cameraToWorldTransform = Matrix3D.map Flt.fin
      (((((Matrix3D.identity (0 : ℝ) 1).set 0 3 0).set 1 3 0).set 2 3 0).set 2 2 (-1)) := by
    simp only [Camera.passCamera, Camera.new, Camera.init, Camera.updateWorldTransform, if_true,
      Matrix3D.map_set, Matrix3D.map_identity]
  have hdet : Matrix3D.det3 (((((Matrix3D.identity (0 : ℝ) 1).set 0 3 0).set 1 3 0).set 2 3 0).set 2 2 (-1)) ≠ 0 := by
    simp [Matrix3D.det3, Matrix3D.set, Matrix3D.identity]
  have hplane : ∀ z : ℝ, Plane.new (Flt.sqrt Real.sqrt) ⟨Flt.fin 0, Flt.fin 0, Flt.fin z⟩
      ⟨Flt.fin 0, Flt.fin 0, Flt.fin 1⟩ ⟨Flt.fin 0, Flt.fin 1, Flt.fin 0⟩ (Flt.fin 6) (Flt.fin 8)
      (Flt.fin 0) = ⟨Colour.objectDefault, Point3D.map Flt.fin ⟨0, 0, z⟩,
        Vector3D.map Flt.fin ⟨0, 0, 1⟩, Vector3D.map Flt.fin ⟨1, 0, 0⟩,
        Vector3D.map Flt.fin ⟨0, 1, 0⟩, Flt.fin 3, Flt.fin 4, true, Flt.fin 5⟩ := by
    intro z
    simp only [Plane.new, Flt.ofNat_zero, Flt.ofNat_one, Flt.ofNat_two]
    norm_num [Vector3D.normalise, Vector3D.dot, Vector3D.cross, Flt.fin_div_fin_eq,
      Flt.sqrt_fin_eq, Point3D.map, Vector3D.map, h25]
  have hobj : ∀ obj ∈ [Object.plane (Plane.new (Flt.sqrt Real.sqrt) ⟨Flt.fin 0, Flt.fin 0, Flt.fin (-5)⟩
        ⟨Flt.fin 0, Flt.fin 0, Flt.fin 1⟩ ⟨Flt.fin 0, Flt.fin 1, Flt.fin 0⟩ (Flt.fin 6)
        (Flt.fin 8) (Flt.fin 0)),
      Object.sphere (Sphere.new ⟨Flt.fin 0, Flt.fin 0, Flt.fin (-4)⟩ (Flt.fin 1)),
      Object.plane (Plane.new (Flt.sqrt Real.sqrt) ⟨Flt.fin 0, Flt.fin 0, Flt.fin (-3)⟩
        ⟨Flt.fin 0, Flt.fin 0, Flt.fin 1⟩ ⟨Flt.fin 0, Flt.fin 1, Flt.fin 0⟩ (Flt.fin 6)
        (Flt.fin 8) (Flt.fin 0))],
      obj.isFinite = true ∧ obj.radiusIsFinite = true := by
    intro obj hmem
    simp only [hplane, List.mem_cons, List.mem_singleton, List.not_mem_nil, or_false] at hmem
    rcases hmem with rfl | rfl | rfl <;> exact ⟨rfl, rfl⟩
  obtain ⟨hP, hV⟩ := Camera.passCamera_inverse_origin
    (⟨2, 2, Flt.fin 5, Flt.fin 5, Flt.fin 1, true⟩ : ViewPlane ℝ) _ rfl
  have hL : ((Camera.new (⟨2, 2, Flt.fin 5, Flt.fin 5, Flt.fin 1, true⟩ : ViewPlane ℝ)).init
      ⟨Flt.fin 0, Flt.fin 0, Flt.fin 0⟩).passObjects
      [Object.plane (Plane.new (Flt.sqrt Real.sqrt) ⟨Flt.fin 0, Flt.fin 0, Flt.fin (-5)⟩
        ⟨Flt.fin 0, Flt.fin 0, Flt.fin 1⟩ ⟨Flt.fin 0, Flt.fin 1, Flt.fin 0⟩ (Flt.fin 6)
        (Flt.fin 8) (Flt.fin 0)),
      Object.sphere (Sphere.new ⟨Flt.fin 0, Flt.fin 0, Flt.fin (-4)⟩ (Flt.fin 1)),
      Object.plane (Plane.new (Flt.sqrt Real.sqrt) ⟨Flt.fin 0, Flt.fin 0, Flt.fin (-3)⟩
        ⟨Flt.fin 0, Flt.fin 0, Flt.fin 1⟩ ⟨Flt.fin 0, Flt.fin 1, Flt.fin 0⟩ (Flt.fin 6)
        (Flt.fin 8) (Flt.fin 0))]
      = [(Object.plane ⟨Colour.objectDefault, Point3D.map Flt.fin ⟨0, 0, 5⟩,
        Vector3D.map Flt.fin ⟨0, 0, -1⟩, Vector3D.map Flt.fin ⟨1, 0, 0⟩,
        Vector3D.map Flt.fin ⟨0, 1, 0⟩, Flt.fin 3, Flt.fin 4, true, Flt.fin 5⟩ : Object ℝ),
        (Object.sphere ⟨Colour.objectDefault, Point3D.map Flt.fin ⟨0, 0, 4⟩, Flt.fin 1⟩ : Object ℝ),
        (Object.plane ⟨Colour.objectDefault, Point3D.map Flt.fin ⟨0, 0, 3⟩,
        Vector3D.map Flt.fin ⟨0, 0, -1⟩, Vector3D.map Flt.fin ⟨1, 0, 0⟩,
        Vector3D.map Flt.fin ⟨0, 1, 0⟩, Flt.fin 3, Flt.fin 4, true, Flt.fin 5⟩ : Object ℝ)] := by
    have hsph : Sphere.new (⟨Flt.fin 0, Flt.fin 0, Flt.fin (-4)⟩ : Point3D (Flt ℝ)) (Flt.fin 1)
        = ⟨Colour.objectDefault, Point3D.map Flt.fin ⟨0, 0, -4⟩, Flt.fin 1⟩ := by
      simp [Sphere.new, Point3D.map]
    simp only [hplane, hsph, Camera.passObjects, List.map_cons, List.map_nil,
      Object.applyTransformation, Plane.applyTransformation, Sphere.applyTransformation,
      hP, hV, neg_zero, neg_neg]
  have hfp : ∀ (obj : Object ℝ) (z r : ℝ), obj.position = Point3D.map Flt.fin ⟨0, 0, z⟩ →
      z ≠ 0 → obj.getMaxRadius Real.sqrt = Flt.fin r → (r = 1 ∨ r = 5) →
      ((Camera.new (⟨2, 2, Flt.fin 5, Flt.fin 5, Flt.fin 1, true⟩ : ViewPlane ℝ)).init
      ⟨Flt.fin 0, Flt.fin 0, Flt.fin 0⟩).passCamera.footprint Real.sqrt obj = ⟨0, 2, 0, 2⟩ := by
    intro obj z r hpos hz hr hcase
    rw [Camera.footprint_finite Real.sqrt hsqrt _ obj 2 2 5 5 1 5 5 r ⟨0, 0, z⟩
      (by rw [Camera.passCamera_viewPlane]; rfl)
      (by rw [Camera.passCamera_pixelWidth]; exact hpw)
      (by rw [Camera.passCamera_pixelHeight]; exact hph)
      (by norm_num) (by norm_num) hpos hz hr]
    have h1 : Flt.toInt (Flt.fin (((0 : ℝ) * 1 / z + 5) / 5)) = 1 :=
      Flt.toInt_fin_of_nonneg (by norm_num) (by norm_num) (by norm_num) (by decide)
    rcases hcase with rfl | rfl
    · have h2 : Flt.toInt (Flt.fin (|(1 : ℝ)| / 5)) = 0 :=
        Flt.toInt_fin_of_nonneg (by positivity) (by norm_num) (by norm_num) (by decide)
      rw [h1, h2]
      decide
    · have h2 : Flt.toInt (Flt.fin (|(5 : ℝ)| / 5)) = 1 :=
        Flt.toInt_fin_of_nonneg (by norm_num) (by norm_num) (by norm_num) (by decide)
      rw [h1, h2]
      decide
  have hray : ((Camera.new (⟨2, 2, Flt.fin 5, Flt.fin 5, Flt.fin 1, true⟩ : ViewPlane ℝ)).init
      ⟨Flt.fin 0, Flt.fin 0, Flt.fin 0⟩).passCamera.getRayDirectionThroughPixel Real.sqrt (wrapInt 1) (wrapInt 1)
      = Vector3D.map Flt.fin ⟨0, 0, 1⟩ := by
    rw [Camera.getRayDirectionThroughPixel_fields Real.sqrt hsqrt _ 2 2 5 5 1 5 5
      (by rw [Camera.passCamera_viewPlane]; rfl)
      (by rw [Camera.passCamera_pixelWidth]; exact hpw)
      (by rw [Camera.passCamera_pixelHeight]; exact hph)
      one_ne_zero]
    have hw1 : wrapInt 1 = 1 := by decide
    rw [hw1]
    norm_num [Vector3D.normalise, Vector3D.dot]
  have horigin : (⟨Flt.fin 0, Flt.fin 0, Flt.fin 0⟩ : Point3D (Flt ℝ))
      = Point3D.map Flt.fin ⟨0, 0, 0⟩ := rfl
  have hhitP : ∀ z : ℝ, z ≠ 0 →
      ((Camera.new (⟨2, 2, Flt.fin 5, Flt.fin 5, Flt.fin 1, true⟩ : ViewPlane ℝ)).init
      ⟨Flt.fin 0, Flt.fin 0, Flt.fin 0⟩).passCamera.testedHit Real.sqrt
        (Object.plane ⟨Colour.objectDefault, Point3D.map Flt.fin ⟨0, 0, z⟩,
          Vector3D.map Flt.fin ⟨0, 0, -1⟩, Vector3D.map Flt.fin ⟨1, 0, 0⟩,
          Vector3D.map Flt.fin ⟨0, 1, 0⟩, Flt.fin 3, Flt.fin 4, true, Flt.fin 5⟩) 1 1
      = some (Flt.fin z) := by
    intro z hz
    have hgi := Plane.getIntersection_plane_finite Colour.objectDefault (⟨0, 0, z⟩ : Point3D ℝ)
      ⟨0, 0, -1⟩ ⟨1, 0, 0⟩ ⟨0, 1, 0⟩ 3 4 true (Flt.fin 5) ⟨0, 0, 0⟩ ⟨0, 0, 1⟩ Flt.nan
      (by norm_num [Vector3D.dot])
    simp only [Camera.testedHit, hfp (Object.plane ⟨Colour.objectDefault,
      Point3D.map Flt.fin ⟨0, 0, z⟩, Vector3D.map Flt.fin ⟨0, 0, -1⟩,
      Vector3D.map Flt.fin ⟨1, 0, 0⟩, Vector3D.map Flt.fin ⟨0, 1, 0⟩, Flt.fin 3, Flt.fin 4, true,
      Flt.fin 5⟩) z 5 rfl hz rfl (Or.inr rfl), Camera.rayHit, Object.getIntersection,
      Nat.cast_one]
    rw [hray, horigin, hgi]
    norm_num [Vector3D.dot, Point3D.sub, Point3D.addVec, Vector3D.scale]
  have hhitS : ((Camera.new (⟨2, 2, Flt.fin 5, Flt.fin 5, Flt.fin 1, true⟩ : ViewPlane ℝ)).init
      ⟨Flt.fin 0, Flt.fin 0, Flt.fin 0⟩).passCamera.testedHit Real.sqrt
        (Object.sphere ⟨Colour.objectDefault, Point3D.map Flt.fin ⟨0, 0, 4⟩, Flt.fin 1⟩ : Object ℝ) 1 1
      = some (Flt.fin 3) := by
    have hgi := Sphere.getIntersection_sphere_finite Real.sqrt Colour.objectDefault
      (⟨0, 0, 4⟩ : Point3D ℝ) ⟨0, 0, 0⟩ ⟨0, 0, 1⟩ 1 Flt.nan
    simp only [Camera.testedHit, hfp (Object.sphere ⟨Colour.objectDefault, Point3D.map Flt.fin ⟨0, 0, 4⟩, Flt.fin 1⟩ : Object ℝ) 4 1 rfl (by norm_num)
      (by simp [Object.getMaxRadius, Flt.sqrt_fin_eq]) (Or.inl rfl), Camera.rayHit,
      Object.getIntersection, Nat.cast_one]
    rw [hray, horigin, hgi]
    norm_num [Vector3D.dot, Point3D.sub]
  have hhits : (((Camera.new (⟨2, 2, Flt.fin 5, Flt.fin 5, Flt.fin 1, true⟩ : ViewPlane ℝ)).init
      ⟨Flt.fin 0, Flt.fin 0, Flt.fin 0⟩).passObjects
      [Object.plane (Plane.new (Flt.sqrt Real.sqrt) ⟨Flt.fin 0, Flt.fin 0, Flt.fin (-5)⟩
        ⟨Flt.fin 0, Flt.fin 0, Flt.fin 1⟩ ⟨Flt.fin 0, Flt.fin 1, Flt.fin 0⟩ (Flt.fin 6)
        (Flt.fin 8) (Flt.fin 0)),
      Object.sphere (Sphere.new ⟨Flt.fin 0, Flt.fin 0, Flt.fin (-4)⟩ (Flt.fin 1)),
      Object.plane (Plane.new (Flt.sqrt Real.sqrt) ⟨Flt.fin 0, Flt.fin 0, Flt.fin (-3)⟩
        ⟨Flt.fin 0, Flt.fin 0, Flt.fin 1⟩ ⟨Flt.fin 0, Flt.fin 1, Flt.fin 0⟩ (Flt.fin 6)
        (Flt.fin 8) (Flt.fin 0))]).map
      (fun obj => ((Camera.new (⟨2, 2, Flt.fin 5, Flt.fin 5, Flt.fin 1, true⟩ : ViewPlane ℝ)).init
      ⟨Flt.fin 0, Flt.fin 0, Flt.fin 0⟩).passCamera.testedHit Real.sqrt obj 1 1)
      = [some (Flt.fin 5), some (Flt.fin 3), some (Flt.fin 3)] := by
    rw [hL]
    simp only [List.map_cons, List.map_nil, hhitP 5 (by norm_num), hhitP 3 (by norm_num), hhitS]
  have hrec : (((Camera.new (⟨2, 2, Flt.fin 5, Flt.fin 5, Flt.fin 1, true⟩ : ViewPlane ℝ)).init
      ⟨Flt.fin 0, Flt.fin 0, Flt.fin 0⟩).updatePixelBuffer Real.sqrt
      [Object.plane (Plane.new (Flt.sqrt Real.sqrt) ⟨Flt.fin 0, Flt.fin 0, Flt.fin (-5)⟩
        ⟨Flt.fin 0, Flt.fin 0, Flt.fin 1⟩ ⟨Flt.fin 0, Flt.fin 1, Flt.fin 0⟩ (Flt.fin 6)
        (Flt.fin 8) (Flt.fin 0)),
      Object.sphere (Sphere.new ⟨Flt.fin 0, Flt.fin 0, Flt.fin (-4)⟩ (Flt.fin 1)),
      Object.plane (Plane.new (Flt.sqrt Real.sqrt) ⟨Flt.fin 0, Flt.fin 0, Flt.fin (-3)⟩
        ⟨Flt.fin 0, Flt.fin 0, Flt.fin 1⟩ ⟨Flt.fin 0, Flt.fin 1, Flt.fin 0⟩ (Flt.fin 6)
        (Flt.fin 8) (Flt.fin 0))]).2.1.m_pixelBuf.getObjectInfoForPixel 1 1
      = ⟨some 1, Flt.fin 3⟩ := by
    rw [PixelBuffer.getObjectInfoForPixel, Camera.updatePixelBuffer_cells _ _ _ (by rfl), hhits]
    simp only [ObjectInfo.offerAll, ObjectInfo.offer, ObjectInfo.noHit]
    rw [if_pos (show Flt.fin (5 : ℝ) < Flt.pinf from rfl)]
    norm_num
  have hsome : ∃ obj ∈ ((Camera.new (⟨2, 2, Flt.fin 5, Flt.fin 5, Flt.fin 1, true⟩ : ViewPlane ℝ)).init
      ⟨Flt.fin 0, Flt.fin 0, Flt.fin 0⟩).passObjects
      [Object.plane (Plane.new (Flt.sqrt Real.sqrt) ⟨Flt.fin 0, Flt.fin 0, Flt.fin (-5)⟩
        ⟨Flt.fin 0, Flt.fin 0, Flt.fin 1⟩ ⟨Flt.fin 0, Flt.fin 1, Flt.fin 0⟩ (Flt.fin 6)
        (Flt.fin 8) (Flt.fin 0)),
      Object.sphere (Sphere.new ⟨Flt.fin 0, Flt.fin 0, Flt.fin (-4)⟩ (Flt.fin 1)),
      Object.plane (Plane.new (Flt.sqrt Real.sqrt) ⟨Flt.fin 0, Flt.fin 0, Flt.fin (-3)⟩
        ⟨Flt.fin 0, Flt.fin 0, Flt.fin 1⟩ ⟨Flt.fin 0, Flt.fin 1, Flt.fin 0⟩ (Flt.fin 6)
        (Flt.fin 8) (Flt.fin 0))],
      ∃ dist : Flt ℝ, ((Camera.new (⟨2, 2, Flt.fin 5, Flt.fin 5, Flt.fin 1, true⟩ : ViewPlane ℝ)).init
      ⟨Flt.fin 0, Flt.fin 0, Flt.fin 0⟩).passCamera.testedHit Real.sqrt obj 1 1 = some dist := by
    rw [hL]
    exact ⟨_, List.mem_cons_self _ _, _, hhitP 5 (by norm_num)⟩
  exact ⟨hsqrt, rfl, by norm_num [Camera.init, Camera.new, PixelBuffer.init],
    by norm_num [Camera.init, Camera.new, PixelBuffer.init], rfl, hpw, hph, one_ne_zero, hM,
    hdet, hobj, hhits, hrec,
    (Camera.updatePixelBuffer_nearest Real.sqrt hsqrt
      ((Camera.new (⟨2, 2, Flt.fin 5, Flt.fin 5, Flt.fin 1, true⟩ : ViewPlane ℝ)).init
      ⟨Flt.fin 0, Flt.fin 0, Flt.fin 0⟩)
      [Object.plane (Plane.new (Flt.sqrt Real.sqrt) ⟨Flt.fin 0, Flt.fin 0, Flt.fin (-5)⟩
        ⟨Flt.fin 0, Flt.fin 0, Flt.fin 1⟩ ⟨Flt.fin 0, Flt.fin 1, Flt.fin 0⟩ (Flt.fin 6)
        (Flt.fin 8) (Flt.fin 0)),
      Object.sphere (Sphere.new ⟨Flt.fin 0, Flt.fin 0, Flt.fin (-4)⟩ (Flt.fin 1)),
      Object.plane (Plane.new (Flt.sqrt Real.sqrt) ⟨Flt.fin 0, Flt.fin 0, Flt.fin (-3)⟩
        ⟨Flt.fin 0, Flt.fin 0, Flt.fin 1⟩ ⟨Flt.fin 0, Flt.fin 1, Flt.fin 0⟩ (Flt.fin 6)
        (Flt.fin 8) (Flt.fin 0))]
      1 1 2 2 5 5 1 5 5 _ rfl
      (by norm_num [Camera.init, Camera.new, PixelBuffer.init])
      (by norm_num [Camera.init, Camera.new, PixelBuffer.init]) rfl hpw hph one_ne_zero hM
      hdet hobj).2 hsome⟩

/-- C13: `getColourAtPixel` returns the colour of the object recorded for the pixel when
the record holds one and the default-constructed background colour when it holds none; it
leaves the camera, and with it the pixel buffer, as it was, so a second call for the same pixel
returns the same colour. -/
theorem Camera.getColourAtPixel_spec {K : Type} [LinearOrderedField K] (cam : Camera K)
    (objects : List (Object K)) (background : Colour) (i j : Nat) :
    (∀ (k : Nat) (obj : Object K),
        (cam.m_pixelBuf.getObjectInfoForPixel i j).object = some k →
        objects.get? k = some obj →
        (cam.getColourAtPixel objects background i j).1 = obj.colour)
    ∧ ((cam.m_pixelBuf.getObjectInfoForPixel i j).object = none →
        (cam.getColourAtPixel objects background i j).1 = background)
    ∧ (cam.getColourAtPixel objects background i j).2 = cam
    ∧ ((cam.getColourAtPixel objects background i j).2.getColourAtPixel objects background
          i j).1 = (cam.getColourAtPixel objects background i j).1 := by
  have hcam : (cam.getColourAtPixel objects background i j).2 = cam := by
    unfold Camera.getColourAtPixel
    simp only
    split
    · split <;> rfl
    · rfl
  refine ⟨?_, ?_, hcam, by rw [hcam]⟩
  · intro k obj hk hobj
    unfold Camera.getColourAtPixel
    simp only [hk, hobj]
  · intro hnone
    unfold Camera.getColourAtPixel
    simp only [hnone]

/-- C14, as the code behaves: whatever Euler angles are stored in `m_rotation`,
`updateWorldTransform` on a camera whose cached transform is the identity of the constructor
yields the matrix with translation column `p` and linear part `diag(1, 1, -1)`: the rotation
is never read. -/
theorem Camera.updateWorldTransform_entries {K : Type} [LinearOrderedField K]
    (cam : Camera K) (p : Point3D (Flt K)) (rotation : Vector3D (Flt K)) :
    ∃ M : Matrix3D (Flt K),
      ({ cam with
          m_position := p
          m_rotation := rotation
          m_cameraToWorldTransform := Matrix3D.identity (Flt.fin 0) (Flt.fin 1)
        }).updateWorldTransform.m_cameraToWorldTransform = M
      ∧ M.m 0 0 = Flt.fin 1 ∧ M.m 0 1 = Flt.fin 0 ∧ M.m 0 2 = Flt.fin 0 ∧ M.m 0 3 = p.x
      ∧ M.m 1 0 = Flt.fin 0 ∧ M.m 1 1 = Flt.fin 1 ∧ M.m 1 2 = Flt.fin 0 ∧ M.m 1 3 = p.y
      ∧ M.m 2 0 = Flt.fin 0 ∧ M.m 2 1 = Flt.fin 0 ∧ M.m 2 2 = Flt.fin (-1) ∧ M.m 2 3 = p.z := by
  refine ⟨_, rfl, ?_⟩
  simp [Camera.updateWorldTransform, Matrix3D.set, Matrix3D.identity]

/-! The pixel footprint of an object. -/

/-- C16, as the code behaves, for either type of the resolution: a 2 × 2 view plane (half
extents 5, distance 1) and a bounded 6 × 8 plane centred 5 units behind a camera at the
origin, facing it.  The camera-space centre
is `(0, 0, -5)`, with forward component `< 0`; the footprint step divides by it and yields
`[0, 2) × [0, 2)`, the whole view plane; and the render pass records the plane at pixel
`(1, 1)` with distance `-5`. -/
theorem Camera.updatePixelBuffer_behind :
    ∀ u : Bool,
    (((Camera.new (⟨2, 2, Flt.fin 5, Flt.fin 5, Flt.fin 1, u⟩ : ViewPlane ℝ)).init
        ⟨Flt.fin 0, Flt.fin 0, Flt.fin 0⟩).passObjects
        [Object.plane (Plane.new (Flt.sqrt Real.sqrt) ⟨Flt.fin 0, Flt.fin 0, Flt.fin 5⟩
          ⟨Flt.fin 0, Flt.fin 0, Flt.fin 1⟩ ⟨Flt.fin 0, Flt.fin 1, Flt.fin 0⟩ (Flt.fin 6)
          (Flt.fin 8) (Flt.fin 0))]).map (fun obj => obj.position)
      = [⟨Flt.fin 0, Flt.fin 0, Flt.fin (-5)⟩]
    ∧ (((Camera.new (⟨2, 2, Flt.fin 5, Flt.fin 5, Flt.fin 1, u⟩ : ViewPlane ℝ)).init
        ⟨Flt.fin 0, Flt.fin 0, Flt.fin 0⟩).passObjects
        [Object.plane (Plane.new (Flt.sqrt Real.sqrt) ⟨Flt.fin 0, Flt.fin 0, Flt.fin 5⟩
          ⟨Flt.fin 0, Flt.fin 0, Flt.fin 1⟩ ⟨Flt.fin 0, Flt.fin 1, Flt.fin 0⟩ (Flt.fin 6)
          (Flt.fin 8) (Flt.fin 0))]).map
        (((Camera.new (⟨2, 2, Flt.fin 5, Flt.fin 5, Flt.fin 1, u⟩ : ViewPlane ℝ)).init
          ⟨Flt.fin 0, Flt.fin 0, Flt.fin 0⟩).passCamera.footprint Real.sqrt)
      = [⟨0, 2, 0, 2⟩]
    ∧ ((((Camera.new (⟨2, 2, Flt.fin 5, Flt.fin 5, Flt.fin 1, u⟩ : ViewPlane ℝ)).init
        ⟨Flt.fin 0, Flt.fin 0, Flt.fin 0⟩).updatePixelBuffer Real.sqrt
        [Object.plane (Plane.new (Flt.sqrt Real.sqrt) ⟨Flt.fin 0, Flt.fin 0, Flt.fin 5⟩
          ⟨Flt.fin 0, Flt.fin 0, Flt.fin 1⟩ ⟨Flt.fin 0, Flt.fin 1, Flt.fin 0⟩ (Flt.fin 6)
          (Flt.fin 8) (Flt.fin 0))]).2.1.m_pixelBuf.getObjectInfoForPixel 1 1)
      = ⟨some 0, Flt.fin (-5)⟩ := by
  intro u
  have hsqrt : ∀ x : ℝ, 0 ≤ x → 0 ≤ Real.sqrt x ∧ Real.sqrt x * Real.sqrt x = x :=
    fun x hx => ⟨Real.sqrt_nonneg x, Real.mul_self_sqrt hx⟩
  have h25 : Real.sqrt 25 = 5 := by
    rw [show (25 : ℝ) = 5 * 5 by norm_num]
    exact Real.sqrt_mul_self (by norm_num)
  obtain ⟨hP, hV⟩ := Camera.passCamera_inverse_origin
    (⟨2, 2, Flt.fin 5, Flt.fin 5, Flt.fin 1, u⟩ : ViewPlane ℝ) _ rfl
  have hplane : Plane.new (Flt.sqrt Real.sqrt) ⟨Flt.fin 0, Flt.fin 0, Flt.fin 5⟩
      ⟨Flt.fin 0, Flt.fin 0, Flt.fin 1⟩ ⟨Flt.fin 0, Flt.fin 1, Flt.fin 0⟩ (Flt.fin 6) (Flt.fin 8)
      (Flt.fin 0) = ⟨Colour.objectDefault, Point3D.map Flt.fin ⟨0, 0, 5⟩,
        Vector3D.map Flt.fin ⟨0, 0, 1⟩, Vector3D.map Flt.fin ⟨1, 0, 0⟩,
        Vector3D.map Flt.fin ⟨0, 1, 0⟩, Flt.fin 3, Flt.fin 4, true, Flt.fin 5⟩ := by
    simp only [Plane.new, Flt.ofNat_zero, Flt.ofNat_one, Flt.ofNat_two]
    norm_num [Vector3D.normalise, Vector3D.dot, Vector3D.cross, Flt.fin_div_fin_eq,
      Flt.sqrt_fin_eq, Point3D.map, Vector3D.map, h25]
  have hobj : ((Camera.new (⟨2, 2, Flt.fin 5, Flt.fin 5, Flt.fin 1, u⟩ : ViewPlane ℝ)).init
        ⟨Flt.fin 0, Flt.fin 0, Flt.fin 0⟩).passObjects
        [Object.plane (Plane.new (Flt.sqrt Real.sqrt) ⟨Flt.fin 0, Flt.fin 0, Flt.fin 5⟩
          ⟨Flt.fin 0, Flt.fin 0, Flt.fin 1⟩ ⟨Flt.fin 0, Flt.fin 1, Flt.fin 0⟩ (Flt.fin 6)
          (Flt.fin 8) (Flt.fin 0))]
      = [Object.plane ⟨Colour.objectDefault, Point3D.map Flt.fin ⟨0, 0, -5⟩,
        Vector3D.map Flt.fin ⟨0, 0, -1⟩, Vector3D.map Flt.fin ⟨1, 0, 0⟩,
        Vector3D.map Flt.fin ⟨0, 1, 0⟩, Flt.fin 3, Flt.fin 4, true, Flt.fin 5⟩] := by
    rw [hplane]
    simp only [Camera.passObjects, List.map_cons, List.map_nil, Object.applyTransformation,
      Plane.applyTransformation, hP, hV, neg_zero]
  have hfp : ((Camera.new (⟨2, 2, Flt.fin 5, Flt.fin 5, Flt.fin 1, u⟩ : ViewPlane ℝ)).init
        ⟨Flt.fin 0, Flt.fin 0, Flt.fin 0⟩).passCamera.footprint Real.sqrt
        (Object.plane ⟨Colour.objectDefault, Point3D.map Flt.fin ⟨0, 0, -5⟩,
          Vector3D.map Flt.fin ⟨0, 0, -1⟩, Vector3D.map Flt.fin ⟨1, 0, 0⟩,
          Vector3D.map Flt.fin ⟨0, 1, 0⟩, Flt.fin 3, Flt.fin 4, true, Flt.fin 5⟩)
      = ⟨0, 2, 0, 2⟩ := by
    rw [Camera.footprint_finite Real.sqrt hsqrt _
      (Object.plane ⟨Colour.objectDefault, Point3D.map Flt.fin ⟨0, 0, -5⟩,
        Vector3D.map Flt.fin ⟨0, 0, -1⟩, Vector3D.map Flt.fin ⟨1, 0, 0⟩,
        Vector3D.map Flt.fin ⟨0, 1, 0⟩, Flt.fin 3, Flt.fin 4, true, Flt.fin 5⟩)
      2 2 5 5 1 5 5 5 ⟨0, 0, -5⟩
      (by rw [Camera.passCamera_viewPlane]; rfl)
      (by rw [Camera.passCamera_pixelWidth]; norm_num [Camera.init, Camera.new, Flt.ofInt,
        Flt.fin_div_fin_eq])
      (by rw [Camera.passCamera_pixelHeight]; norm_num [Camera.init, Camera.new, Flt.ofInt,
        Flt.fin_div_fin_eq])
      (by norm_num) (by norm_num) rfl (by norm_num) rfl]
    have h1 : Flt.toInt (Flt.fin (((0 : ℝ) * 1 / -5 + 5) / 5)) = 1 :=
      Flt.toInt_fin_of_nonneg (by norm_num) (by norm_num) (by norm_num) (by decide)
    have h2 : Flt.toInt (Flt.fin (|(5 : ℝ)| / 5)) = 1 :=
      Flt.toInt_fin_of_nonneg (by norm_num) (by norm_num) (by norm_num) (by decide)
    rw [h1, h2]
    cases u <;> decide
  have hray : ((Camera.new (⟨2, 2, Flt.fin 5, Flt.fin 5, Flt.fin 1, u⟩ : ViewPlane ℝ)).init
        ⟨Flt.fin 0, Flt.fin 0, Flt.fin 0⟩).passCamera.getRayDirectionThroughPixel Real.sqrt
        (wrapInt 1) (wrapInt 1) = Vector3D.map Flt.fin ⟨0, 0, 1⟩ := by
    rw [Camera.getRayDirectionThroughPixel_fields Real.sqrt hsqrt _ 2 2 5 5 1 5 5
      (by rw [Camera.passCamera_viewPlane]; rfl)
      (by rw [Camera.passCamera_pixelWidth]; norm_num [Camera.init, Camera.new, Flt.ofInt,
        Flt.fin_div_fin_eq])
      (by rw [Camera.passCamera_pixelHeight]; norm_num [Camera.init, Camera.new, Flt.ofInt,
        Flt.fin_div_fin_eq])
      one_ne_zero]
    have hw1 : wrapInt 1 = 1 := by decide
    rw [hw1]
    norm_num [Vector3D.normalise, Vector3D.dot]
  have hhit : ((Camera.new (⟨2, 2, Flt.fin 5, Flt.fin 5, Flt.fin 1, u⟩ : ViewPlane ℝ)).init
        ⟨Flt.fin 0, Flt.fin 0, Flt.fin 0⟩).passCamera.testedHit Real.sqrt
        (Object.plane ⟨Colour.objectDefault, Point3D.map Flt.fin ⟨0, 0, -5⟩,
          Vector3D.map Flt.fin ⟨0, 0, -1⟩, Vector3D.map Flt.fin ⟨1, 0, 0⟩,
          Vector3D.map Flt.fin ⟨0, 1, 0⟩, Flt.fin 3, Flt.fin 4, true, Flt.fin 5⟩) 1 1
      = some (Flt.fin (-5)) := by
    have hgi := Plane.getIntersection_plane_finite Colour.objectDefault (⟨0, 0, -5⟩ : Point3D ℝ)
      ⟨0, 0, -1⟩ ⟨1, 0, 0⟩ ⟨0, 1, 0⟩ 3 4 true (Flt.fin 5) ⟨0, 0, 0⟩ ⟨0, 0, 1⟩ Flt.nan
      (by norm_num [Vector3D.dot])
    have horigin : (⟨Flt.fin 0, Flt.fin 0, Flt.fin 0⟩ : Point3D (Flt ℝ))
        = Point3D.map Flt.fin ⟨0, 0, 0⟩ := rfl
    simp only [Camera.testedHit, hfp, Camera.rayHit, Object.getIntersection, Nat.cast_one]
    rw [hray, horigin, hgi]
    norm_num [Vector3D.dot, Point3D.sub, Point3D.addVec, Vector3D.scale]
  refine ⟨?_, ?_, ?_⟩
  · rw [hobj]
    rfl
  · rw [hobj]
    simp only [List.map_cons, List.map_nil, hfp]
  · rw [PixelBuffer.getObjectInfoForPixel, Camera.updatePixelBuffer_cells _ _ _ (by rfl), hobj]
    simp only [List.map_cons, List.map_nil, hhit, ObjectInfo.offerAll, ObjectInfo.offer,
      ObjectInfo.noHit]
    rfl

/-- The footprint of a unit sphere left of a 4 × 4 view plane (half extents 2, distance 1),
with camera-space centre `(-6, 0, 1)`, for the two possible types of the resolution.  The
centre pixel is `pixelX = -4` and the pixel radius is `2`, so `pixelX + pixelRadiusX = -2`.
With `int` resolutions `min(-2, 4)` is `-2`, which the `unsigned` bound `endX` holds as
`4294967294`; with `unsigned` resolutions the comparison is made on `unsigned` values and
`endX` is `4`. -/
theorem Camera.footprint_left_of_view_plane (u : Bool) :
    (((Camera.new (⟨4, 4, Flt.fin 2, Flt.fin 2, Flt.fin 1, u⟩ : ViewPlane ℝ)).init
        ⟨Flt.fin 0, Flt.fin 0, Flt.fin 0⟩).passObjects
        [Object.sphere (Sphere.new ⟨Flt.fin (-6), Flt.fin 0, Flt.fin (-1)⟩ (Flt.fin 1))]).map
      (((Camera.new (⟨4, 4, Flt.fin 2, Flt.fin 2, Flt.fin 1, u⟩ : ViewPlane ℝ)).init
        ⟨Flt.fin 0, Flt.fin 0, Flt.fin 0⟩).passCamera.footprint Real.sqrt)
      = [⟨0, if u then 4 else 4294967294, 0, 4⟩] := by
  have hsqrt : ∀ x : ℝ, 0 ≤ x → 0 ≤ Real.sqrt x ∧ Real.sqrt x * Real.sqrt x = x :=
    fun x hx => ⟨Real.sqrt_nonneg x, Real.mul_self_sqrt hx⟩
  obtain ⟨hP, -⟩ := Camera.passCamera_inverse_origin
    (⟨4, 4, Flt.fin 2, Flt.fin 2, Flt.fin 1, u⟩ : ViewPlane ℝ) _ rfl
  have hobj : ((Camera.new (⟨4, 4, Flt.fin 2, Flt.fin 2, Flt.fin 1, u⟩ : ViewPlane ℝ)).init
        ⟨Flt.fin 0, Flt.fin 0, Flt.fin 0⟩).passObjects
        [Object.sphere (Sphere.new ⟨Flt.fin (-6), Flt.fin 0, Flt.fin (-1)⟩ (Flt.fin 1))]
      = [Object.sphere ⟨Colour.objectDefault, Point3D.map Flt.fin ⟨-6, 0, 1⟩, Flt.fin 1⟩] := by
    have := hP ⟨-6, 0, -1⟩
    simp only [Point3D.map, neg_neg] at this
    simp only [Camera.passObjects, List.map_cons, List.map_nil, Object.applyTransformation,
      Sphere.applyTransformation, Sphere.new, this, Flt.fin_mul_fin, mul_one, Point3D.map]
  rw [hobj]
  simp only [List.map_cons, List.map_nil]
  rw [Camera.footprint_finite Real.sqrt hsqrt _
    (Object.sphere ⟨Colour.objectDefault, Point3D.map Flt.fin ⟨-6, 0, 1⟩, Flt.fin 1⟩)
    4 4 2 2 1 1 1 1 ⟨-6, 0, 1⟩
    (by rw [Camera.passCamera_viewPlane]; rfl)
    (by rw [Camera.passCamera_pixelWidth]; norm_num [Camera.init, Camera.new, Flt.ofInt,
      Flt.fin_div_fin_eq])
    (by rw [Camera.passCamera_pixelHeight]; norm_num [Camera.init, Camera.new, Flt.ofInt,
      Flt.fin_div_fin_eq])
    one_ne_zero one_ne_zero rfl one_ne_zero
    (by simp [Object.getMaxRadius, Flt.sqrt_fin_eq])]
  have h1 : Flt.toInt (Flt.fin (((-6 : ℝ) * 1 / 1 + 2) / 1)) = -4 :=
    Flt.toInt_fin_of_neg (by norm_num) (by norm_num) (by norm_num) (by decide)
  have h2 : Flt.toInt (Flt.fin (|(1 : ℝ)| / 1)) = 1 :=
    Flt.toInt_fin_of_nonneg (by norm_num) (by norm_num) (by norm_num) (by decide)
  have h3 : Flt.toInt (Flt.fin (((0 : ℝ) * 1 / 1 + 2) / 1)) = 2 :=
    Flt.toInt_fin_of_nonneg (by norm_num) (by norm_num) (by norm_num) (by decide)
  rw [h1, h2, h3]
  cases u <;> decide

/-- C18, as the code behaves, for either type of the resolution: a 4 × 4 view plane (half
extents 4, distance 1) and a sphere of radius 1.9 whose camera-space centre is `(0, 0, 2)`,
in front of the camera.  The ray
through the in-range pixel `(3, 3)` hits the sphere, the footprint computed for the sphere is
`[1, 3) × [1, 3)`, which does not contain `(3, 3)`, and after the render pass that pixel still
holds the no-hit record. -/
theorem Camera.footprint_not_conservative :
    ∀ u : Bool,
    (((Camera.new (⟨4, 4, Flt.fin 4, Flt.fin 4, Flt.fin 1, u⟩ : ViewPlane ℝ)).init
        ⟨Flt.fin 0, Flt.fin 0, Flt.fin 0⟩).passObjects
        [Object.sphere (Sphere.new ⟨Flt.fin 0, Flt.fin 0, Flt.fin (-2)⟩ (Flt.fin (19 / 10)))]).map
        (fun obj => obj.position)
      = [⟨Flt.fin 0, Flt.fin 0, Flt.fin 2⟩]
    ∧ (((Camera.new (⟨4, 4, Flt.fin 4, Flt.fin 4, Flt.fin 1, u⟩ : ViewPlane ℝ)).init
        ⟨Flt.fin 0, Flt.fin 0, Flt.fin 0⟩).passObjects
        [Object.sphere (Sphere.new ⟨Flt.fin 0, Flt.fin 0, Flt.fin (-2)⟩ (Flt.fin (19 / 10)))]).map
        (fun obj => (((Camera.new (⟨4, 4, Flt.fin 4, Flt.fin 4, Flt.fin 1, u⟩ : ViewPlane ℝ)).init
          ⟨Flt.fin 0, Flt.fin 0, Flt.fin 0⟩).passCamera.rayHit Real.sqrt obj 3 3).isSome)
      = [true]
    ∧ (((Camera.new (⟨4, 4, Flt.fin 4, Flt.fin 4, Flt.fin 1, u⟩ : ViewPlane ℝ)).init
        ⟨Flt.fin 0, Flt.fin 0, Flt.fin 0⟩).passObjects
        [Object.sphere (Sphere.new ⟨Flt.fin 0, Flt.fin 0, Flt.fin (-2)⟩ (Flt.fin (19 / 10)))]).map
        (((Camera.new (⟨4, 4, Flt.fin 4, Flt.fin 4, Flt.fin 1, u⟩ : ViewPlane ℝ)).init
          ⟨Flt.fin 0, Flt.fin 0, Flt.fin 0⟩).passCamera.footprint Real.sqrt)
      = [⟨1, 3, 1, 3⟩]
    ∧ ((((Camera.new (⟨4, 4, Flt.fin 4, Flt.fin 4, Flt.fin 1, u⟩ : ViewPlane ℝ)).init
        ⟨Flt.fin 0, Flt.fin 0, Flt.fin 0⟩).updatePixelBuffer Real.sqrt
        [Object.sphere (Sphere.new ⟨Flt.fin 0, Flt.fin 0, Flt.fin (-2)⟩
          (Flt.fin (19 / 10)))]).2.1.m_pixelBuf.getObjectInfoForPixel 3 3)
      = ObjectInfo.noHit := by
  intro u
  have hsqrt : ∀ x : ℝ, 0 ≤ x → 0 ≤ Real.sqrt x ∧ Real.sqrt x * Real.sqrt x = x :=
    fun x hx => ⟨Real.sqrt_nonneg x, Real.mul_self_sqrt hx⟩
  have h9 : Real.sqrt 9 = 3 := by
    rw [show (9 : ℝ) = 3 * 3 by norm_num]
    exact Real.sqrt_mul_self (by norm_num)
  have hrad : Real.sqrt (19 / 10 * (19 / 10)) = 19 / 10 := Real.sqrt_mul_self (by norm_num)
  obtain ⟨hP, -⟩ := Camera.passCamera_inverse_origin
    (⟨4, 4, Flt.fin 4, Flt.fin 4, Flt.fin 1, u⟩ : ViewPlane ℝ) _ rfl
  have hobj : ((Camera.new (⟨4, 4, Flt.fin 4, Flt.fin 4, Flt.fin 1, u⟩ : ViewPlane ℝ)).init
        ⟨Flt.fin 0, Flt.fin 0, Flt.fin 0⟩).passObjects
        [Object.sphere (Sphere.new ⟨Flt.fin 0, Flt.fin 0, Flt.fin (-2)⟩ (Flt.fin (19 / 10)))]
      = [Object.sphere ⟨Colour.objectDefault, Point3D.map Flt.fin ⟨0, 0, 2⟩,
          Flt.fin (19 / 10 * (19 / 10))⟩] := by
    have := hP ⟨0, 0, -2⟩
    simp only [Point3D.map, neg_neg] at this
    simp only [Camera.passObjects, List.map_cons, List.map_nil, Object.applyTransformation,
      Sphere.applyTransformation, Sphere.new, this, Flt.fin_mul_fin, Point3D.map]
  have hfp : ((Camera.new (⟨4, 4, Flt.fin 4, Flt.fin 4, Flt.fin 1, u⟩ : ViewPlane ℝ)).init
        ⟨Flt.fin 0, Flt.fin 0, Flt.fin 0⟩).passCamera.footprint Real.sqrt
        (Object.sphere ⟨Colour.objectDefault, Point3D.map Flt.fin ⟨0, 0, 2⟩,
          Flt.fin (19 / 10 * (19 / 10))⟩)
      = ⟨1, 3, 1, 3⟩ := by
    rw [Camera.footprint_finite Real.sqrt hsqrt _
      (Object.sphere ⟨Colour.objectDefault, Point3D.map Flt.fin ⟨0, 0, 2⟩,
        Flt.fin (19 / 10 * (19 / 10))⟩)
      4 4 4 4 1 2 2 (19 / 10) ⟨0, 0, 2⟩
      (by rw [Camera.passCamera_viewPlane]; rfl)
      (by rw [Camera.passCamera_pixelWidth]; norm_num [Camera.init, Camera.new, Flt.ofInt,
        Flt.fin_div_fin_eq])
      (by rw [Camera.passCamera_pixelHeight]; norm_num [Camera.init, Camera.new, Flt.ofInt,
        Flt.fin_div_fin_eq])
      (by norm_num) (by norm_num) rfl (by norm_num)
      (by
        simp only [Object.getMaxRadius]
        rw [Flt.sqrt_fin Real.sqrt (by norm_num), hrad])]
    have h1 : Flt.toInt (Flt.fin (((0 : ℝ) * 1 / 2 + 4) / 2)) = 2 :=
      Flt.toInt_fin_of_nonneg (by norm_num) (by norm_num) (by norm_num) (by decide)
    have h2 : Flt.toInt (Flt.fin (|(19 / 10 : ℝ)| / 2)) = 0 :=
      Flt.toInt_fin_of_nonneg (by positivity) (by norm_num [abs_of_pos])
        (by norm_num [abs_of_pos]) (by decide)
    rw [h1, h2]
    cases u <;> decide
  have hray : ((Camera.new (⟨4, 4, Flt.fin 4, Flt.fin 4, Flt.fin 1, u⟩ : ViewPlane ℝ)).init
        ⟨Flt.fin 0, Flt.fin 0, Flt.fin 0⟩).passCamera.getRayDirectionThroughPixel Real.sqrt
        (wrapInt 3) (wrapInt 3) = Vector3D.map Flt.fin ⟨2 / 3, 2 / 3, 1 / 3⟩ := by
    rw [Camera.getRayDirectionThroughPixel_fields Real.sqrt hsqrt _ 4 4 4 4 1 2 2
      (by rw [Camera.passCamera_viewPlane]; rfl)
      (by rw [Camera.passCamera_pixelWidth]; norm_num [Camera.init, Camera.new, Flt.ofInt,
        Flt.fin_div_fin_eq])
      (by rw [Camera.passCamera_pixelHeight]; norm_num [Camera.init, Camera.new, Flt.ofInt,
        Flt.fin_div_fin_eq])
      one_ne_zero]
    have hw3 : wrapInt 3 = 3 := by decide
    rw [hw3]
    norm_num [Vector3D.normalise, Vector3D.dot, h9]
  have hhit : (((Camera.new (⟨4, 4, Flt.fin 4, Flt.fin 4, Flt.fin 1, u⟩ : ViewPlane ℝ)).init
        ⟨Flt.fin 0, Flt.fin 0, Flt.fin 0⟩).passCamera.rayHit Real.sqrt
        (Object.sphere ⟨Colour.objectDefault, Point3D.map Flt.fin ⟨0, 0, 2⟩,
          Flt.fin (19 / 10 * (19 / 10))⟩) 3 3).isSome = true := by
    have hgi := Sphere.getIntersection_sphere_finite Real.sqrt Colour.objectDefault
      (⟨0, 0, 2⟩ : Point3D ℝ) ⟨0, 0, 0⟩ ⟨2 / 3, 2 / 3, 1 / 3⟩ (19 / 10 * (19 / 10)) Flt.nan
    have horigin : (⟨Flt.fin 0, Flt.fin 0, Flt.fin 0⟩ : Point3D (Flt ℝ))
        = Point3D.map Flt.fin ⟨0, 0, 0⟩ := rfl
    simp only [Camera.rayHit, Object.getIntersection, Nat.cast_ofNat]
    rw [hray, horigin, hgi]
    norm_num [Vector3D.dot, Point3D.sub]
  have htest : ((Camera.new (⟨4, 4, Flt.fin 4, Flt.fin 4, Flt.fin 1, u⟩ : ViewPlane ℝ)).init
        ⟨Flt.fin 0, Flt.fin 0, Flt.fin 0⟩).passCamera.testedHit Real.sqrt
        (Object.sphere ⟨Colour.objectDefault, Point3D.map Flt.fin ⟨0, 0, 2⟩,
          Flt.fin (19 / 10 * (19 / 10))⟩) 3 3 = none := by
    simp [Camera.testedHit, hfp]
  refine ⟨?_, ?_, ?_, ?_⟩
  · rw [hobj]
    rfl
  · rw [hobj]
    simp only [List.map_cons, List.map_nil, hhit]
  · rw [hobj]
    simp only [List.map_cons, List.map_nil, hfp]
  · rw [PixelBuffer.getObjectInfoForPixel, Camera.updatePixelBuffer_cells _ _ _ (by rfl), hobj]
    simp only [List.map_cons, List.map_nil, htest, ObjectInfo.offerAll, ObjectInfo.offer]

end Raycast
